import Mathlib

/-!
Serviced: the reconciliation pass of the leader, host placement, the pool facade,
the proxy registry, the service store, and the parsers of the node and the
command line.

A shallow embedding of `scheduler/leader.go` (the per-service reconciler of the
leader: instance deltas, free instance ids, scale-down, host selection), of
the free-id loop of `zzk/service/service.go`, of the pool operations of
`facade/pool.go`, of the proxy registry of `proxy/registry.go`, of
`MinMax.Validate` (`domain/common.go`), of `Service.Equals` and the service
store (`domain/service`), of the endpoint loop of `configureContainer`
(`agent.go`), of `validOwnerSpec` and `parseDockerVersion` (`node/utils.go`),
of the snapshot labels of `volume/rsync/rsync.go` and of the multi-line path
of `parseLogSource` (`cli/api/logs.go`).

Go `int` values are modelled as `Int`; slices as `List`; `(value, error)`
results as `Except String`; maps as their entries; strings that are taken apart
as their lists of characters.  The collaborators of the leader that live in
other packages (coordination store, host registry, placement policy, state
factory) are fields of `Leader`; the stores and hooks of the facade are fields
of `Facade`.  The capacity sums of the facade wrap as Go's `uint64` and `int`
do.  A run-time panic of an index out of range is an outcome of its own.
-/

namespace Serviced

/-! ## Data model -/

/-- Desired state `SVCRun` of `domain/service/service.go`. -/
def SVCRun : Int := 1

/-- Desired state `SVCStop` of `domain/service/service.go`. -/
def SVCStop : Int := 0

/-- Desired state `SVCRestart` of `domain/service/service.go`. -/
def SVCRestart : Int := -1

/-- Modelled from the spec: the `addressassignment.AddressAssignment` struct, whose
declaration lies outside the files embedded here; fields as listed in the data model
(`id, assignmentType, hostID, ipAddr, port, serviceID, endpointName`) plus `PoolID`. -/
structure AddressAssignment where
  ID : String
  AssignmentType : String
  HostID : String
  PoolID : String
  IPAddr : String
  Port : Nat
  ServiceID : String
  EndpointName : String
deriving DecidableEq, Repr

/-- The Go zero value `addressassignment.AddressAssignment{}`. -/
def AddressAssignment.zero : AddressAssignment :=
  { ID := "", AssignmentType := "", HostID := "", PoolID := "", IPAddr := "", Port := 0,
    ServiceID := "", EndpointName := "" }

/-- The part of `service.ServiceEndpoint` read by the leader and by the host agent; the
purpose, protocol and port number come from the embedded `EndpointDefinition`. -/
structure ServiceEndpoint where
  Name : String
  Assignment : AddressAssignment
  Purpose : String := ""
  Protocol : String := ""
  PortNumber : Nat := 0
deriving DecidableEq, Repr

/-- Modelled from the spec: the `host.HostIPResource` struct (declared outside the files
embedded here): `{interfaceName, ipAddress, hostID}`. -/
structure HostIPResource where
  HostID : String
  IPAddress : String
  InterfaceName : String
deriving DecidableEq, Repr

/-- Modelled from the spec: the `host.Host` struct (declared outside the files embedded
here): `id, poolID, cores, memory, IPs` and the host IP address. -/
structure Host where
  ID : String
  PoolID : String
  IPAddr : String
  Cores : Int
  Memory : Nat
  IPs : List HostIPResource := []
deriving DecidableEq, Repr

/-- Modelled from the spec: the `servicestate.ServiceState` struct (declared outside
the files embedded here), restricted to the fields the leader reads or writes. -/
structure ServiceState where
  ID : String
  ServiceID : String
  HostID : String
  HostIP : String
  InstanceID : Int
deriving DecidableEq, Repr

/-- The `servicedefinition.ConfigFile` struct (declared outside the files embedded here), as
a record of the name, owner, permissions and content of a file; the store copies it whole. -/
structure ConfigFile where
  Filename : String
  Owner : String
  Permissions : String
  Content : String
deriving DecidableEq, Repr

/-- The `domain.MonitorProfile` struct (declared outside the files embedded here), as the
names of its metric configurations; `Service.Equals` hands it to its own `Equals`. -/
structure MonitorProfile where
  MetricConfigs : List String := []
deriving DecidableEq, Repr

/-- The part of `service.Service` read by the leader, the host agent, the service store and
`Service.Equals`. Maps are their entries; times are nanoseconds since the epoch. -/
structure Service where
  ID : String
  Name : String
  PoolID : String
  Instances : Int
  ChangeOptions : List String
  DesiredState : Int
  Endpoints : List ServiceEndpoint
  RAMCommitment : Nat
  Context : String := ""
  Startup : String := ""
  Description : String := ""
  ImageID : String := ""
  HostPolicy : String := ""
  Hostname : String := ""
  Privileged : Bool := false
  Launch : String := ""
  ParentServiceID : String := ""
  CreatedAt : Int := 0
  UpdatedAt : Int := 0
  OriginalConfigs : List (String × ConfigFile) := []
  ConfigFiles : List (String × ConfigFile) := []
  MonitoringProfile : MonitorProfile := {}
deriving DecidableEq, Repr

/-- The collaborators of `leader` (its `conn`, `dao`, `hostRegistry` fields and the helpers of
the `zzk`, `virtualips` and `servicestate` packages), as the results they hand back.
`selectHost` and `buildFromService` are indexed by the number of the call within one
`startServiceInstances`, as both consult state outside the leader. -/
structure Leader where
  /-- The call `l.hostRegistry.GetHosts()`. -/
  getHosts : Except String (List Host)
  /-- The call `zzk.GetServiceStates(conn, &states, serviceID)`. -/
  getServiceStates : String → Except String (List ServiceState)
  /-- The call `virtualips.GetVirtualIPHostID(conn, ipAddr, &hostid)`: the host id written. -/
  getVirtualIPHostID : String → Except String String
  /-- The call `policy.SelectHost(hosts)`. -/
  selectHost : Nat → List Host → Except String Host
  /-- The call `servicestate.BuildFromService(svc, hostID)`. -/
  buildFromService : Nat → Service → String → Except String ServiceState
  /-- The call `zzk.AddServiceState(conn, state)`. -/
  addServiceState : ServiceState → Except String Unit

/-- What one reconciler pass did: the states handed to `StopServiceInstance`, the number
logged by "updateServiceInstances wants to start %d instances" (0 when that line is not
reached), the states added with `AddServiceState`, and the error returned. -/
structure PassResult where
  stopped : List ServiceState
  wantsToStart : Int
  started : List ServiceState
  err : Option String
deriving DecidableEq, Repr

/-! ## scheduler/leader.go -/

/-- Modelled from the spec: `utils.StringInSlice(a, list)` (defined outside the files embedded
here): whether `list` contains `a`. -/
def StringInSlice (a : String) (list : List String) : Bool :=
  list.contains a

/-- The loop `for i := 0; len(ids) < n; i++ { if _, ok := used[i]; !ok { ids = append(ids, i) } }`
of `getFreeInstanceIDs`, from a given `i` and `ids`; `used` lists the keys of the map. -/
def freeIDLoop (used : List Int) (n : Int) (i : Int) (ids : List Int) : List Int :=
  if (ids.length : Int) < n then
    if i ∈ used then freeIDLoop used n (i + 1) ids
    else freeIDLoop used n (i + 1) (ids ++ [i])
  else ids
termination_by (n - ids.length).toNat + (used.filter (fun u => decide (i ≤ u))).length
decreasing_by
  all_goals
    have key : ∀ l : List Int,
        (l.filter (fun u => decide (i + 1 ≤ u))).length
            ≤ (l.filter (fun u => decide (i ≤ u))).length ∧
          (i ∈ l → (l.filter (fun u => decide (i + 1 ≤ u))).length
            < (l.filter (fun u => decide (i ≤ u))).length) := by
      intro l
      induction l with
      | nil => simp
      | cons a t ih =>
        obtain ⟨ih1, ih2⟩ := ih
        by_cases ha : a = i
        · subst ha
          simp [List.filter_cons]
          omega
        · by_cases h1 : i + 1 ≤ a
          · have h2 : i ≤ a := by omega
            simp only [List.filter_cons, h1, h2, decide_True, if_true, List.length_cons,
              List.mem_cons]
            refine ⟨by omega, fun h => ?_⟩
            have h3 : i ∈ t := by
              rcases h with h | h
              · exact absurd h.symm ha
              · exact h
            have := ih2 h3
            omega
          · have h2 : ¬ i ≤ a := by omega
            simp only [List.filter_cons, h1, h2, decide_False, List.mem_cons]
            refine ⟨by simpa using ih1, fun h => ?_⟩
            have h3 : i ∈ t := by
              rcases h with h | h
              · exact absurd h.symm ha
              · exact h
            simpa using ih2 h3
    have h1 := (key used).1
    have h2 := (key used).2
    simp_wf
    by_cases hm : i ∈ used
    · have h3 := h2 hm
      omega
    · first
        | omega
        | contradiction

/-- The function `getFreeInstanceIDs(conn, svc, n)`: looks up the states of the service and
returns `n` unused instance ids, or the error of the lookup. -/
def getFreeInstanceIDs (l : Leader) (svc : Service) (n : Int) : Except String (List Int) :=
  match l.getServiceStates svc.ID with
  | .error e => .error e
  | .ok states => .ok (freeIDLoop (states.map (fun s => s.InstanceID)) n 0 [])

/-- The function `shutdownServiceInstances(conn, serviceStates, numToKill)`: the states for
which `StopServiceInstance` is called, in order. An error of that call is only logged. -/
def shutdownServiceInstances (serviceStates : List ServiceState) (numToKill : Int) :
    List ServiceState :=
  let maxId : Int := (serviceStates.length : Int) - numToKill - 1
  serviceStates.filter (fun s => decide (s.InstanceID > maxId))

/-- The function `poolHostFromAddressAssignments(hostid, hosts)`. -/
def poolHostFromAddressAssignments (hostid : String) (hosts : List Host) : Except String Host :=
  match hosts.find? (fun h => h.ID == hostid) with
  | some h => .ok h
  | none => .error "assigned host is not in pool"

/-- The method `leader.selectPoolHostForService(s, hosts, policy)`, at the `k`-th placement. -/
def selectPoolHostForService (l : Leader) (k : Nat) (s : Service) (hosts : List Host) :
    Except String Host :=
  let found := s.Endpoints.find? (fun ep => ep.Assignment != AddressAssignment.zero)
  let assignmentType := match found with
    | some ep => ep.Assignment.AssignmentType
    | none => ""
  let ipAddr := match found with
    | some ep => ep.Assignment.IPAddr
    | none => ""
  let hostid := match found with
    | some ep => ep.Assignment.HostID
    | none => ""
  let resolved : Except String String :=
    if assignmentType == "virtual" then l.getVirtualIPHostID ipAddr else .ok hostid
  match resolved with
  | .error e => .error e
  | .ok hostid =>
    if hostid != "" then poolHostFromAddressAssignments hostid hosts
    else l.selectHost k hosts

/-- The loop `for _, i := range freeids` of `leader.startServiceInstances`, from the `k`-th
placement on: the states added and the error that ended the loop, if any. -/
def startLoop (l : Leader) (svc : Service) (hosts : List Host) :
    List Int → Nat → List ServiceState × Option String
  | [], _ => ([], none)
  | i :: rest, k =>
    match selectPoolHostForService l k svc hosts with
    | .error e => ([], some e)
    | .ok servicehost =>
      match l.buildFromService k svc servicehost.ID with
      | .error e => ([], some e)
      | .ok built =>
        let serviceState := { built with HostIP := servicehost.IPAddr, InstanceID := i }
        match l.addServiceState serviceState with
        | .error e => ([], some e)
        | .ok _ =>
          let more := startLoop l svc hosts rest (k + 1)
          (serviceState :: more.1, more.2)

/-- The method `leader.startServiceInstances(svc, hosts, numToStart)`. -/
def startServiceInstances (l : Leader) (svc : Service) (hosts : List Host) (numToStart : Int) :
    List ServiceState × Option String :=
  match getFreeInstanceIDs l svc numToStart with
  | .error e => ([], some e)
  | .ok freeids => startLoop l svc hosts freeids 0

/-- The first part of `leader.updateServiceInstances`: the pair
`(instancesToKill, instancesToStart)`. -/
def instanceDeltas (service : Service) (serviceStates : List ServiceState) : Int × Int :=
  let len : Int := serviceStates.length
  if len ≠ service.Instances ∧
      StringInSlice "restartAllOnInstanceChanged" service.ChangeOptions = true then
    (len, service.Instances)
  else if len < service.Instances then
    (0, service.Instances - len)
  else if len > service.Instances then
    (len - service.Instances, 0)
  else (0, 0)

/-- The method `leader.updateServiceInstances(service, serviceStates)`. -/
def updateServiceInstances (l : Leader) (service : Service)
    (serviceStates : List ServiceState) : PassResult :=
  let instancesToKill := (instanceDeltas service serviceStates).1
  let instancesToStart := (instanceDeltas service serviceStates).2
  if instancesToKill > 0 then
    { stopped := shutdownServiceInstances serviceStates instancesToKill,
      wantsToStart := 0, started := [], err := none }
  else if instancesToStart > 0 then
    match l.getHosts with
    | .error e => { stopped := [], wantsToStart := instancesToStart, started := [], err := some e }
    | .ok hosts =>
      if hosts.length = 0 then
        { stopped := [], wantsToStart := instancesToStart, started := [], err := none }
      else
        let r := startServiceInstances l service hosts instancesToStart
        { stopped := [], wantsToStart := instancesToStart, started := r.1, err := r.2 }
  else { stopped := [], wantsToStart := 0, started := [], err := none }

/-- The `switch` on the desired state in `leader.watchService`: one reconciler pass over the
loaded service and its observed states. An error of `updateServiceInstances` is logged. -/
def watchServicePass (l : Leader) (svc : Service) (serviceStates : List ServiceState) :
    PassResult :=
  if svc.DesiredState = SVCStop then
    { stopped := shutdownServiceInstances serviceStates serviceStates.length,
      wantsToStart := 0, started := [], err := none }
  else if svc.DesiredState = SVCRun then
    updateServiceInstances l svc serviceStates
  else { stopped := [], wantsToStart := 0, started := [], err := none }

/-! ## zzk/service/service.go -/

/-- The loop `for _, ssID := range stateIDs` of `ServiceListener.syncServiceInstances` that
fills the `used` map: the instance ids of the loaded states, or the error of the first
failing `conn.Get`. -/
def loadUsed (get : String → Except String ServiceState) : List String → Except String (List Int)
  | [] => .ok []
  | ssID :: rest =>
    match get ssID with
    | .error e => .error e
    | .ok state =>
      match loadUsed get rest with
      | .error e => .error e
      | .ok used => .ok (state.InstanceID :: used)

/-- The loop `for i := 0; len(instanceIDs) < netInstances; i++` of
`ServiceListener.syncServiceInstances`, from a given `i` and `instanceIDs`. -/
def syncIDLoop (used : List Int) (netInstances : Int) (i : Int) (instanceIDs : List Int) :
    List Int :=
  if (instanceIDs.length : Int) < netInstances then
    if i ∈ used then syncIDLoop used netInstances (i + 1) instanceIDs
    else syncIDLoop used netInstances (i + 1) (instanceIDs ++ [i])
  else instanceIDs
termination_by
  (netInstances - instanceIDs.length).toNat + (used.filter (fun u => decide (i ≤ u))).length
decreasing_by
  all_goals
    have key : ∀ l : List Int,
        (l.filter (fun u => decide (i + 1 ≤ u))).length
            ≤ (l.filter (fun u => decide (i ≤ u))).length ∧
          (i ∈ l → (l.filter (fun u => decide (i + 1 ≤ u))).length
            < (l.filter (fun u => decide (i ≤ u))).length) := by
      intro l
      induction l with
      | nil => simp
      | cons a t ih =>
        obtain ⟨ih1, ih2⟩ := ih
        by_cases ha : a = i
        · subst ha
          simp [List.filter_cons]
          omega
        · have hmem : i ∈ a :: t → i ∈ t := by
            intro h
            rcases List.mem_cons.1 h with h | h
            · exact absurd h.symm ha
            · exact h
          by_cases h1 : i + 1 ≤ a
          · have h2 : i ≤ a := by omega
            simp only [List.filter_cons, h1, h2, decide_True, if_true, List.length_cons]
            exact ⟨by omega, fun h => by have := ih2 (hmem h); omega⟩
          · have h2 : ¬ i ≤ a := by omega
            simp only [List.filter_cons, h1, h2, decide_False]
            exact ⟨by simpa using ih1, fun h => by simpa using ih2 (hmem h)⟩
    have h1 := (key used).1
    have h2 := (key used).2
    simp_wf
    by_cases hm : i ∈ used
    · have h3 := h2 hm
      omega
    · first
        | omega
        | contradiction

/-- The free-id part of `ServiceListener.syncServiceInstances` (taken when
`netInstances > 0`): the ids handed to `startServiceInstances`, or the error of a failing
`conn.Get`. -/
def syncFreeInstanceIDs (get : String → Except String ServiceState) (stateIDs : List String)
    (netInstances : Int) : Except String (List Int) :=
  match loadUsed get stateIDs with
  | .error e => .error e
  | .ok used => .ok (syncIDLoop used netInstances 0 [])

/-- Modelled from the spec: the `HostState` record `{id, hostID, desiredState}` under
`/hosts/{hostID}/{ssid}` (declared outside the files embedded here). -/
structure HostState where
  ID : String
  HostID : String
  DesiredState : Int
deriving DecidableEq, Repr

/-- The method `ServiceListener.stopServiceInstances(svc, stateIDs)`: the host states written
back with `conn.Set`, each with the id of the host whose path is written. A failing `conn.Get`
ends the loop; a failing `conn.Set` is only logged. -/
def stopServiceInstances (getState : String → Except String ServiceState)
    (getHostState : String → String → Except String HostState) :
    List String → List (String × HostState)
  | [] => []
  | ssID :: rest =>
    match getState ssID with
    | .error _ => []
    | .ok state =>
      match getHostState state.HostID ssID with
      | .error _ => []
      | .ok hs =>
        (state.HostID, { hs with DesiredState := SVCStop })
          :: stopServiceInstances getState getHostState rest

/-! ## Placement policy -/

/-- Modelled from the spec: `committedMemory(h) = Σ ramCommitment(svc) *
countInstancesOnHost(svc, h)` of the placement policy (`ServiceHostPolicy` is defined outside the
files embedded here). -/
def committedMemory (services : List Service) (countInstancesOnHost : Service → Host → Nat)
    (h : Host) : Nat :=
  (services.map (fun svc => svc.RAMCommitment * countInstancesOnHost svc h)).sum

/-- Modelled from the spec: the ratio `committedMemory / memory` of a host. -/
def memoryRatio (services : List Service) (countInstancesOnHost : Service → Host → Nat)
    (h : Host) : ℚ :=
  (committedMemory services countInstancesOnHost h : ℚ) / (h.Memory : ℚ)

/-- Modelled from the spec: host `a` is preferred to host `b` when its ratio is smaller, or
equal with a lexicographically smaller id. -/
def preferred (services : List Service) (countInstancesOnHost : Service → Host → Nat)
    (a b : Host) : Bool :=
  decide (memoryRatio services countInstancesOnHost a
      < memoryRatio services countInstancesOnHost b) ||
    (decide (memoryRatio services countInstancesOnHost a
        = memoryRatio services countInstancesOnHost b) && decide (a.ID < b.ID))

/-- Modelled from the spec: `ServiceHostPolicy.SelectHost(hosts)` (defined outside the files embedded
here): "pick the host with minimum committedMemory / memory ratio. Tie-break by host.id
lexicographically. Fail NoHosts if hosts is empty." -/
def SelectHost (services : List Service) (countInstancesOnHost : Service → Host → Nat) :
    List Host → Except String Host
  | [] => .error "NoHosts"
  | h :: rest =>
    .ok (rest.foldl
      (fun best x => if preferred services countInstancesOnHost x best then x else best) h)

/-! ## facade/pool.go -/

/-- Modelled from the spec: the `pool.VirtualIP` struct (declared outside the files embedded
here): `{poolID, ip, netmask, bindInterface}`. -/
structure VirtualIP where
  PoolID : String
  IP : String
  Netmask : String
  BindInterface : String
deriving DecidableEq, Repr

/-- Modelled from the spec: the `pool.ResourcePool` struct (declared outside the files
embedded here): `{id, priority, coreCapacity, memoryCapacity, memoryCommitment, virtualIPs}`
with the limits and the two timestamps the facade writes; times are clock readings. -/
structure ResourcePool where
  ID : String
  Priority : Int
  CoreLimit : Int
  MemoryLimit : Nat
  CoreCapacity : Int
  MemoryCapacity : Nat
  MemoryCommitment : Nat
  CreatedAt : Nat
  UpdatedAt : Nat
  VirtualIPs : List VirtualIP
deriving DecidableEq, Repr

/-- The struct `PoolIPs`. -/
structure PoolIPs where
  PoolID : String
  HostIPs : List HostIPResource
  VirtualIPs : List VirtualIP
deriving DecidableEq, Repr

/-- The `Facade` with the contents of its pool store and host store. The stores, the event
hooks and the helpers of other packages are the fields below the two stores: an error a store
or hook call reports (`none` when it succeeds), `ResourcePool.VirtualIPsEqual`, and whether
`net.ParseIP` accepts a string. -/
structure Facade where
  /-- The documents of `f.poolStore`, looked up by `ResourcePool.ID`. -/
  poolStore : List ResourcePool
  /-- The documents of `f.hostStore`. -/
  hostStore : List Host
  /-- An error of `f.poolStore.Get` other than "no such entity". -/
  poolGetErr : String → Option String
  /-- An error of `f.poolStore.Put`. -/
  poolPutErr : ResourcePool → Option String
  /-- An error of `f.delete` on the pool store (its before-hook or the store). -/
  poolDeleteErr : String → Option String
  /-- An error of `f.hostStore.FindHostsWithPoolID` and of `f.FindHostsInPool`. -/
  hostFindErr : String → Option String
  /-- An error of `f.beforeEvent(event, ec, entity)`. -/
  beforeEvent : String → ResourcePool → Option String
  /-- The method `currentPool.VirtualIPsEqual(proposedPool)`. -/
  virtualIPsEqual : ResourcePool → ResourcePool → Bool
  /-- Whether `net.ParseIP(value)` is not nil. -/
  parseIP : String → Bool

/-- Go `uint64` arithmetic: the value modulo `2^64`. -/
def wrapUint64 (n : Nat) : Nat := n % 2 ^ 64

/-- Go `int` (64-bit) arithmetic: the value wrapped into `[-2^63, 2^63)`. -/
def wrapInt64 (x : Int) : Int := (x + 2 ^ 63) % 2 ^ 64 - 2 ^ 63

/-- The call `f.poolStore.Put(ctx, pool.Key(entity.ID), entity)` on the documents of the
store: the document of that key is replaced, or the entity is added. -/
def poolStorePut (pools : List ResourcePool) (entity : ResourcePool) : List ResourcePool :=
  if pools.any (fun p => p.ID == entity.ID) then
    pools.map (fun p => if p.ID == entity.ID then entity else p)
  else pools ++ [entity]

/-- The call `f.hostStore.FindHostsWithPoolID(ctx, poolID)`. -/
def FindHostsWithPoolID (f : Facade) (poolID : String) : Except String (List Host) :=
  match f.hostFindErr poolID with
  | some e => .error e
  | none => .ok (f.hostStore.filter (fun h => h.PoolID == poolID))

/-- Modelled from the spec: `Facade.FindHostsInPool` (defined outside the files embedded
here): the hosts of the pool, as the host store finds them. -/
def FindHostsInPool (f : Facade) (poolID : String) : Except String (List Host) :=
  FindHostsWithPoolID f poolID

/-- The method `Facade.calcPoolCapacity(ctx, pool)`: the pool with its capacities set, and the
error returned. -/
def calcPoolCapacity (f : Facade) (pool : ResourcePool) : ResourcePool × Option String :=
  match FindHostsWithPoolID f pool.ID with
  | .error e => (pool, some e)
  | .ok hosts =>
    let coreCapacity := hosts.foldl (fun c h => wrapInt64 (c + h.Cores)) 0
    let memCapacity := hosts.foldl (fun m h => wrapUint64 (m + h.Memory)) 0
    ({ pool with CoreCapacity := coreCapacity, MemoryCapacity := memCapacity }, none)

/-- The method `Facade.GetResourcePool(ctx, id)`: `none` when the pool is not found. -/
def GetResourcePool (f : Facade) (id : String) : Except String (Option ResourcePool) :=
  match f.poolGetErr id with
  | some e => .error e
  | none =>
    match f.poolStore.find? (fun p => p.ID == id) with
    | none => .ok none
    | some entity => .ok (some (calcPoolCapacity f entity).1)

/-- The method `Facade.AddResourcePool(ctx, entity)` at clock reading `now`: the error
returned and the facade afterwards. The after-hook does not change the result. -/
def AddResourcePool (f : Facade) (entity : ResourcePool) (now : Nat) : Option String × Facade :=
  match GetResourcePool f entity.ID with
  | .error e => (some e, f)
  | .ok (some _) => (some ("pool already exists: " ++ entity.ID), f)
  | .ok none =>
    match f.beforeEvent "BeforePoolAdd" entity with
    | some e => (some e, f)
    | none =>
      let stamped := { entity with CreatedAt := now, UpdatedAt := now }
      match f.poolPutErr stamped with
      | some e => (some e, f)
      | none => (none, { f with poolStore := poolStorePut f.poolStore stamped })

/-- The method `Facade.GetPoolIPs(ctx, poolID)`. -/
def GetPoolIPs (f : Facade) (poolID : String) : Except String PoolIPs :=
  match FindHostsInPool f poolID with
  | .error e => .error e
  | .ok hosts =>
    let hostIPs := hosts.foldl (fun acc h => acc ++ h.IPs) []
    match GetResourcePool f poolID with
    | .error e => .error e
    | .ok none => .error ("Pool ID: " ++ poolID ++ " could not be found")
    | .ok (some myPool) =>
      .ok { PoolID := poolID, HostIPs := hostIPs, VirtualIPs := myPool.VirtualIPs }

/-- The method `Facade.virtualIPExists(ctx, proposedVirtualIP)`. -/
def virtualIPExists (f : Facade) (proposedVirtualIP : VirtualIP) : Except String Bool :=
  match GetPoolIPs f proposedVirtualIP.PoolID with
  | .error e => .error e
  | .ok poolIPs =>
    if poolIPs.VirtualIPs.any (fun virtualIP => proposedVirtualIP.IP == virtualIP.IP) then
      .ok true
    else if poolIPs.HostIPs.any (fun staticIP => proposedVirtualIP.IP == staticIP.IPAddress) then
      .ok true
    else .ok false

/-- The function `validation.IsIP(value)`, with `net.ParseIP` as the parser of the facade. -/
def IsIP (f : Facade) (value : String) : Option String :=
  if f.parseIP value = false then some ("invalid IP Address " ++ value) else none

/-- The loop of `validateVirtualIPs` that fills the map `proposedVirtualIPs`: the first IP
found a second time, if any. `seen` lists the keys of the map so far. -/
def duplicateVirtualIP (seen : List String) : List VirtualIP → Option String
  | [] => none
  | virtualIP :: rest =>
    if virtualIP.IP ∈ seen then some virtualIP.IP
    else duplicateVirtualIP (virtualIP.IP :: seen) rest

/-- The loop `for key, proposedVirtualIP := range proposedVirtualIPs` of `validateVirtualIPs`
over the proposed virtual IPs in list order (Go leaves the order of a map unspecified; every
order fails on the same inputs and may only report another of the errors). -/
def validateNewVirtualIPs (f : Facade) (currentPool : ResourcePool) :
    List VirtualIP → Option String
  | [] => none
  | proposedVirtualIP :: rest =>
    if currentPool.VirtualIPs.any (fun virtualIP => virtualIP.IP == proposedVirtualIP.IP) then
      validateNewVirtualIPs f currentPool rest
    else
      match IsIP f proposedVirtualIP.IP with
      | some e => some e
      | none =>
        match IsIP f proposedVirtualIP.Netmask with
        | some e => some e
        | none =>
          match virtualIPExists f proposedVirtualIP with
          | .error e => some e
          | .ok true =>
            some ("cannot add requested virtual IP address: " ++ proposedVirtualIP.IP
              ++ " as it already exists in pool: " ++ proposedVirtualIP.PoolID)
          | .ok false => validateNewVirtualIPs f currentPool rest

/-- The method `Facade.validateVirtualIPs(ctx, proposedPool)`. -/
def validateVirtualIPs (f : Facade) (proposedPool : ResourcePool) : Option String :=
  match GetResourcePool f proposedPool.ID with
  | .error e => some e
  | .ok none => some ("Pool ID: " ++ proposedPool.ID ++ " could not be found")
  | .ok (some currentPool) =>
    if f.virtualIPsEqual currentPool proposedPool = false then
      match duplicateVirtualIP [] proposedPool.VirtualIPs with
      | some ip => some ("duplicate virtual IP request: " ++ ip)
      | none => validateNewVirtualIPs f currentPool proposedPool.VirtualIPs
    else none

/-- The method `Facade.UpdateResourcePool(ctx, entity)` at clock reading `now`. -/
def UpdateResourcePool (f : Facade) (entity : ResourcePool) (now : Nat) :
    Option String × Facade :=
  match validateVirtualIPs f entity with
  | some e => (some e, f)
  | none =>
    match f.beforeEvent "BeforePoolUpdate" entity with
    | some e => (some e, f)
    | none =>
      let stamped := { entity with UpdatedAt := now }
      match f.poolPutErr stamped with
      | some e => (some e, f)
      | none => (none, { f with poolStore := poolStorePut f.poolStore stamped })

/-- Modelled from the spec: `Facade.delete` on the pool store (defined outside the files
embedded here): the document of the key is deleted unless the before-hook or the store
reports an error. -/
def deletePool (f : Facade) (id : String) : Option String × Facade :=
  match f.poolDeleteErr id with
  | some e => (some e, f)
  | none => (none, { f with poolStore := f.poolStore.filter (fun p => !(p.ID == id)) })

/-- The method `Facade.RemoveResourcePool(ctx, id)`. -/
def RemoveResourcePool (f : Facade) (id : String) : Option String × Facade :=
  match FindHostsInPool f id with
  | .error e => (some ("error verifying no hosts in pool: " ++ e), f)
  | .ok hosts =>
    if hosts.length > 0 then (some "cannot delete resource pool with hosts", f)
    else deletePool f id

/-- The variable `defaultPoolID`. -/
def defaultPoolID : String := "default"

/-- Modelled from the spec: `pool.New(id)` (defined outside the files embedded here): a pool
with the given id and nothing else set. -/
def poolNew (id : String) : ResourcePool :=
  { ID := id, Priority := 0, CoreLimit := 0, MemoryLimit := 0, CoreCapacity := 0,
    MemoryCapacity := 0, MemoryCommitment := 0, CreatedAt := 0, UpdatedAt := 0,
    VirtualIPs := [] }

/-- The method `Facade.CreateDefaultPool(ctx)` at clock reading `now`. -/
def CreateDefaultPool (f : Facade) (now : Nat) : Option String × Facade :=
  match GetResourcePool f defaultPoolID with
  | .error e => (some ("could not create default pool: " ++ e), f)
  | .ok (some _) => (none, f)
  | .ok none => AddResourcePool f (poolNew defaultPoolID) now

/-- The method `Facade.AddVirtualIP(ctx, requestedVirtualIP)` at clock reading `now`. -/
def AddVirtualIP (f : Facade) (requestedVirtualIP : VirtualIP) (now : Nat) :
    Option String × Facade :=
  match GetResourcePool f requestedVirtualIP.PoolID with
  | .error e => (some e, f)
  | .ok none => (some ("Pool ID: " ++ requestedVirtualIP.PoolID ++ " could not be found"), f)
  | .ok (some myPool) =>
    UpdateResourcePool f
      { myPool with VirtualIPs := myPool.VirtualIPs ++ [requestedVirtualIP] } now

/-- The method `Facade.RemoveVirtualIP(ctx, requestedVirtualIP)` at clock reading `now`: the
first virtual IP with the requested IP is cut out of the list. -/
def RemoveVirtualIP (f : Facade) (requestedVirtualIP : VirtualIP) (now : Nat) :
    Option String × Facade :=
  match GetResourcePool f requestedVirtualIP.PoolID with
  | .error e => (some e, f)
  | .ok none => (some ("Pool ID: " ++ requestedVirtualIP.PoolID ++ " could not be found"), f)
  | .ok (some myPool) =>
    if myPool.VirtualIPs.any (fun virtualIP => virtualIP.IP == requestedVirtualIP.IP) then
      UpdateResourcePool f
        { myPool with
          VirtualIPs :=
            myPool.VirtualIPs.eraseP (fun virtualIP => virtualIP.IP == requestedVirtualIP.IP) }
        now
    else
      (some ("Cannot remove requested virtual IP address: " ++ requestedVirtualIP.IP
        ++ " (does not exist)"), f)

/-- The invariant of the data model on the virtual IPs of a pool: their IPs are pairwise
distinct, and none equals the IP address of a host of the pool. -/
def virtualIPsValid (hosts : List Host) (pool : ResourcePool) : Prop :=
  (pool.VirtualIPs.map (fun v => v.IP)).Nodup ∧
    ∀ v ∈ pool.VirtualIPs, ∀ h ∈ hosts, h.PoolID = pool.ID →
      ∀ r ∈ h.IPs, r.IPAddress ≠ v.IP

/-! ## The parser behind `validation.IsIP`

The function `net.ParseIP` of the standard library, as the library of today parses: a
field of an IPv4 address with a leading zero is refused, a group of an IPv6 address has at
most four digits, `::` stands for at least one group, and no zone is accepted. -/

/-- The value of a decimal digit, if the character is one. -/
def decimalDigit (c : Char) : Option Nat :=
  if '0' ≤ c ∧ c ≤ '9' then some (c.toNat - '0'.toNat) else none

/-- The value of a hexadecimal digit, if the character is one. -/
def hexDigit (c : Char) : Option Nat :=
  if '0' ≤ c ∧ c ≤ '9' then some (c.toNat - '0'.toNat)
  else if 'a' ≤ c ∧ c ≤ 'f' then some (c.toNat - 'a'.toNat + 10)
  else if 'A' ≤ c ∧ c ≤ 'F' then some (c.toNat - 'A'.toNat + 10)
  else none

/-- The loop of the standard library helpers `dtoi` and `xtoi` (`net/parse.go`) in the given
base: the number read so far, whether a digit was read, and the text left; `none` when the
number reaches `0xFFFFFF`. -/
def digitsLoop (digit : Char → Option Nat) (base : Nat) (n : Nat) (any : Bool) :
    List Char → Option (Nat × Bool × List Char)
  | [] => some (n, any, [])
  | c :: rest =>
    match digit c with
    | none => some (n, any, c :: rest)
    | some d =>
      if n * base + d ≥ 0xFFFFFF then none
      else digitsLoop digit base (n * base + d) true rest

/-- The standard library helper `dtoi`: a decimal number at the head of the text and the text
after it; `none` when there is no digit or the number is too big. -/
def dtoi (s : List Char) : Option (Nat × List Char) :=
  match digitsLoop decimalDigit 10 0 false s with
  | some (n, true, rest) => some (n, rest)
  | _ => none

/-- The standard library helper `xtoi`: a hexadecimal number at the head of the text and the
text after it; `none` when there is no digit or the number is too big. -/
def xtoi (s : List Char) : Option (Nat × List Char) :=
  match digitsLoop hexDigit 16 0 false s with
  | some (n, true, rest) => some (n, rest)
  | _ => none

/-- The loop `for j := 0; j < IPv4len; j++` of the standard library function `parseIPv4`
with `fields` octets still to read; `first` holds for `j = 0`. A field of more than one
digit that starts with `0` is refused. The result is whether the text is accepted. -/
def parseIPv4Loop : Nat → Bool → List Char → Bool
  | 0, _, s => s.isEmpty
  | fields + 1, first, s =>
    if s.isEmpty then false
    else
      let afterDot : Option (List Char) :=
        if first then some s
        else
          match s with
          | '.' :: t => some t
          | _ => none
      match afterDot with
      | none => false
      | some t =>
        match dtoi t with
        | none => false
        | some (n, rest) =>
          if n > 0xFF then false
          else if t.length - rest.length > 1 ∧ t.head? = some '0' then false
          else parseIPv4Loop fields false rest

/-- The standard library function `parseIPv4` (`net/ip.go`): whether the text is a
dotted-decimal IPv4 address. -/
def parseIPv4 (s : List Char) : Bool :=
  parseIPv4Loop 4 true s

/-- The end of the standard library function `parseIPv6`: the whole text must be used,
fewer than 16 bytes are only accepted with an ellipsis, and 16 bytes only without one (the
ellipsis stands for at least one group). -/
def parseIPv6Finish (j : Nat) (ellipsis : Bool) (s : List Char) : Bool :=
  s.isEmpty && (if j < 16 then ellipsis else !ellipsis)

/-- The loop `for j < IPv6len` of the standard library function `parseIPv6`, with at most
`rounds` further rounds (each round adds at least two bytes, so eight rounds suffice);
`ellipsis` holds when `::` was seen. A group of more than four digits is refused. -/
def parseIPv6Loop : Nat → Nat → Bool → List Char → Bool
  | 0, j, ellipsis, s => parseIPv6Finish j ellipsis s
  | rounds + 1, j, ellipsis, s =>
    if j ≥ 16 then parseIPv6Finish j ellipsis s
    else
      match xtoi s with
      | none => false
      | some (n, rest) =>
        if n > 0xFFFF ∨ s.length - rest.length > 4 then false
        else
          match rest with
          | '.' :: _ =>
            if ellipsis = false ∧ j ≠ 12 then false
            else if j + 4 > 16 then false
            else if parseIPv4 s = false then false
            else parseIPv6Finish (j + 4) ellipsis []
          | [] => parseIPv6Finish (j + 2) ellipsis []
          | c :: t =>
            if c ≠ ':' ∨ t.isEmpty then false
            else
              match t with
              | ':' :: t2 =>
                if ellipsis then false
                else if t2.isEmpty then parseIPv6Finish (j + 2) true []
                else parseIPv6Loop rounds (j + 2) true t2
              | _ => parseIPv6Loop rounds (j + 2) ellipsis t

/-- The standard library function `parseIPv6` (`net/ip.go`, without zone): whether the text
is an IPv6 address. -/
def parseIPv6 (s : List Char) : Bool :=
  match s with
  | ':' :: ':' :: rest => if rest.isEmpty then true else parseIPv6Loop 8 0 true rest
  | _ => parseIPv6Loop 8 0 false s

/-- The standard library function `net.ParseIP`, which `validation.IsIP` calls: whether the
text parses as an IPv4 or as an IPv6 address. -/
def ParseIP (s : String) : Bool :=
  parseIPv4 s.toList || parseIPv6 s.toList

/-! ## proxy/registry.go -/

/-- The struct `ProxyAddress`. -/
structure ProxyAddress where
  IP : String
  Port : Nat
deriving DecidableEq, Repr

/-- A value of the interface `Proxy`: a name that tells proxies apart and the errors its
`Run` and `Close` methods return. -/
structure Proxy where
  name : String
  runErr : Option String
  closeErr : Option String
deriving DecidableEq, Repr

/-- A call made by the registry: to its proxy factory, or to `Run` or `Close` of a proxy. -/
inductive ProxyCall where
  | factory (protocol : String) (frontend : ProxyAddress) (backEnds : List ProxyAddress)
  | run (proxy : Proxy)
  | close (proxy : Proxy)
deriving DecidableEq, Repr

/-- The struct `proxyRegistry`: the map from identifier to proxy, as its entries, and the
proxy factory. -/
structure proxyRegistry where
  registry : List (String × Proxy)
  proxyFactory : String → ProxyAddress → List ProxyAddress → Except String Proxy

/-- The method `proxyRegistry.CreateProxy(key, protocol, frontend, backEnds...)`: the error
returned, the registry afterwards and the calls made. -/
def proxyRegistry.CreateProxy (pr : proxyRegistry) (key : String) (protocol : String)
    (frontend : ProxyAddress) (backEnds : List ProxyAddress) :
    Option String × proxyRegistry × List ProxyCall :=
  match pr.registry.lookup key with
  | some _ => (some ("proxy already registered for " ++ key), pr, [])
  | none =>
    match pr.proxyFactory protocol frontend backEnds with
    | .error e => (some e, pr, [ProxyCall.factory protocol frontend backEnds])
    | .ok proxy =>
      match proxy.runErr with
      | some e =>
        (some e, pr, [ProxyCall.factory protocol frontend backEnds, ProxyCall.run proxy])
      | none =>
        (none,
          { pr with registry := (key, proxy) :: pr.registry.filter (fun kv => !(kv.1 == key)) },
          [ProxyCall.factory protocol frontend backEnds, ProxyCall.run proxy])

/-- The method `proxyRegistry.RemoveProxy(key)`: the proxy and the error returned, the
registry afterwards and the calls made. -/
def proxyRegistry.RemoveProxy (pr : proxyRegistry) (key : String) :
    (Option Proxy × Option String) × proxyRegistry × List ProxyCall :=
  match pr.registry.lookup key with
  | some proxy =>
    ((some proxy, proxy.closeErr),
      { pr with registry := pr.registry.filter (fun kv => !(kv.1 == key)) },
      [ProxyCall.close proxy])
  | none => ((none, none), pr, [])

/-! ## domain/common.go -/

/-- The struct `MinMax`. -/
structure MinMax where
  Min : Int
  Max : Int
deriving DecidableEq, Repr

/-- The method `MinMax.Validate()`: the error returned, if any. -/
def MinMax.Validate (minmax : MinMax) : Option String :=
  if minmax.Min < 0 ∨ minmax.Max < 0 then
    some ("Instances constraints must be positive: Min=" ++ toString minmax.Min
      ++ "; Max=" ++ toString minmax.Max)
  else if minmax.Max ≠ 0 ∧ minmax.Min > minmax.Max then
    some ("Minimum instances larger than maximum instances: Min=" ++ toString minmax.Min
      ++ "; Max=" ++ toString minmax.Max)
  else none

/-! ## domain/service/service.go and servicestore.go -/

/-- The method `time.Time.Unix()` of the standard library on a time in nanoseconds since the
epoch: the seconds since the epoch. -/
def unixSeconds (t : Int) : Int := t / 1000000000

/-- The method `Service.Equals(b)`; `monitoringProfileEquals` is the method
`MonitorProfile.Equals` (defined outside the files embedded here). -/
def Service.Equals (monitoringProfileEquals : MonitorProfile → MonitorProfile → Bool)
    (s b : Service) : Bool :=
  if s.ID ≠ b.ID then false
  else if s.Name ≠ b.Name then false
  else if s.Context ≠ b.Context then false
  else if s.Startup ≠ b.Startup then false
  else if s.Description ≠ b.Description then false
  else if s.Instances ≠ b.Instances then false
  else if s.ImageID ≠ b.ImageID then false
  else if s.PoolID ≠ b.PoolID then false
  else if s.DesiredState ≠ b.DesiredState then false
  else if s.Launch ≠ b.Launch then false
  else if s.Hostname ≠ b.Hostname then false
  else if s.Privileged ≠ b.Privileged then false
  else if s.HostPolicy ≠ b.HostPolicy then false
  else if s.ParentServiceID ≠ b.ParentServiceID then false
  else if unixSeconds s.CreatedAt ≠ unixSeconds b.CreatedAt then false
  else if unixSeconds s.UpdatedAt ≠ unixSeconds b.CreatedAt then false
  else if monitoringProfileEquals s.MonitoringProfile b.MonitoringProfile = false then false
  else true

/-- A Go map assignment `m[key] = val` on the entries of a map with string keys. -/
def mapSet {β : Type} (m : List (String × β)) (key : String) (val : β) : List (String × β) :=
  (key, val) :: m.filter (fun kv => !(kv.1 == key))

/-- The function `fillConfig(svc)`: `ConfigFiles` becomes a new map holding every entry of
`OriginalConfigs`. Go leaves the order of `range` over a map unspecified; the entries are
taken last to first, so that the first entry of a key is the one kept. -/
def fillConfig (svc : Service) : Service :=
  { svc with
    ConfigFiles := svc.OriginalConfigs.foldr (fun kv acc => mapSet acc kv.1 kv.2) [] }

/-- The service `Store` over a data store that keeps documents as they are put: the
documents by key, and the errors the data store reports for a `Put` and for a `Get`
(other than "no such entity"). -/
structure Store where
  ds : List (String × Service)
  dsPutErr : Service → Option String
  dsGetErr : String → Option String

/-- The method `Store.Put(ctx, svc)`: the error returned, the store afterwards, and the
service of the caller, whose `ConfigFiles` the method has emptied. -/
def Store.Put (s : Store) (svc : Service) : Option String × Store × Service :=
  let emptied := { svc with ConfigFiles := [] }
  match s.dsPutErr emptied with
  | some e => (some e, s, emptied)
  | none => (none, { s with ds := mapSet s.ds emptied.ID emptied }, emptied)

/-- The method `Store.Get(ctx, id)`. -/
def Store.Get (s : Store) (id : String) : Except String Service :=
  match s.dsGetErr id with
  | some e => .error e
  | none =>
    match s.ds.lookup id with
    | none => .error "ErrNoSuchEntity"
    | some svc => .ok (fillConfig svc)

/-! ## agent.go -/

/-- Modelled from the spec: the constant `commons.UDP` (declared outside the files embedded
here), the protocol name `udp` of `protocol ∈ {tcp, udp}`. -/
def UDP : String := "udp"

/-- The zero value `docker.PortBinding{}` of the docker client library. -/
structure PortBinding where
  HostIp : String := ""
  HostPort : String := ""
deriving DecidableEq, Repr

/-- The port `p` that `configureContainer` computes for an endpoint:
`fmt.Sprintf("%d/%s", endpoint.PortNumber, "udp")` for the protocol `commons.UDP` and the
same with `tcp` otherwise. -/
def endpointPort (endpoint : ServiceEndpoint) : String :=
  if endpoint.Protocol = UDP then toString endpoint.PortNumber ++ "/udp"
  else toString endpoint.PortNumber ++ "/tcp"

/-- One round of the loop `for _, endpoint := range svc.Endpoints` of `configureContainer`
on the pair of maps `(dockerconfig.ExposedPorts, hostconfig.PortBindings)`: the keys of the
first and the entries of the second. -/
def exposeEndpoint (maps : List String × List (String × List PortBinding))
    (endpoint : ServiceEndpoint) : List String × List (String × List PortBinding) :=
  if endpoint.Purpose = "export" then
    let p := endpointPort endpoint
    let bindings := (maps.2.lookup p).getD []
    (p :: maps.1.filter (fun k => !(k == p)), mapSet maps.2 p (bindings ++ [({} : PortBinding)]))
  else maps

/-- The part of `HostAgent.configureContainer` that fills `dockerconfig.ExposedPorts` and
`hostconfig.PortBindings` from the endpoints of the service. -/
def configurePorts (svc : Service) : List String × List (String × List PortBinding) :=
  svc.Endpoints.foldl exposeEndpoint ([], [])

/-! ## Go string functions

Go strings are read as their lists of characters; all separators below are ASCII. -/

/-- The function `strings.Split(s, sep)` of the standard library for a separator of one
character: the pieces of `s` between the separators, at least one piece. -/
def splitChar (sep : Char) : List Char → List (List Char)
  | [] => [[]]
  | c :: t =>
    if c = sep then [] :: splitChar sep t
    else
      match splitChar sep t with
      | [] => [[c]]
      | h :: r => (c :: h) :: r

/-- The function `strings.SplitN(s, sep, 2)` of the standard library for a separator of one
character: `s` itself when it has no separator, else the text before the first separator
and the text after it. -/
def splitN2 (sep : Char) (s : List Char) : List (List Char) :=
  if sep ∈ s then
    [s.takeWhile (fun c => !(c == sep)), (s.dropWhile (fun c => !(c == sep))).tail]
  else [s]

/-- The function `strings.HasPrefix(s, prefix)` of the standard library. -/
def HasPrefix (s pre : List Char) : Bool := pre.isPrefixOf s

/-- The function `unicode.IsSpace` of the standard library: the white space characters of
Latin-1 and the other characters with the Unicode property White_Space. -/
def isSpace (c : Char) : Bool :=
  decide (c.toNat ∈ [0x09, 0x0A, 0x0B, 0x0C, 0x0D, 0x20, 0x85, 0xA0, 0x1680, 0x2028, 0x2029,
    0x202F, 0x205F, 0x3000]) || (decide (0x2000 ≤ c.toNat) && decide (c.toNat ≤ 0x200A))

/-- Removal of the trailing white space of a text. -/
def trimRight : List Char → List Char
  | [] => []
  | c :: t =>
    match trimRight t with
    | [] => if isSpace c then [] else [c]
    | r => c :: r

/-- The function `strings.TrimSpace(s)` of the standard library. -/
def TrimSpace (s : List Char) : List Char := trimRight (s.dropWhile isSpace)

/-- Whether a character is one of the decimal digits `0` to `9`. -/
def isDigit (c : Char) : Bool := decide (48 ≤ c.toNat) && decide (c.toNat ≤ 57)

/-- The number that a text of decimal digits denotes. -/
def digitsValue (cs : List Char) : Nat := cs.foldl (fun acc c => acc * 10 + (c.toNat - 48)) 0

/-- The digits loop shared by `strconv.ParseUint(s, 10, _)` and `strconv.Atoi(s)`: nothing
for the empty text and for a text with a character that is no decimal digit. -/
def parseDigits (cs : List Char) : Option Nat :=
  if cs ≠ [] ∧ cs.all isDigit = true then some (digitsValue cs) else none

/-- The function `strconv.ParseUint(s, 10, 64)` of the standard library. -/
def ParseUint (s : List Char) : Except String Nat :=
  match parseDigits s with
  | none => .error "invalid syntax"
  | some n => if n < 2 ^ 64 then .ok n else .error "value out of range"

/-- The function `strconv.Atoi(s)` of the standard library, for the 64-bit `int`: an
optional sign and decimal digits, within the range of `int`. -/
def Atoi (s : List Char) : Except String Int :=
  match s with
  | '-' :: t =>
    match parseDigits t with
    | none => .error "invalid syntax"
    | some n => if n ≤ 2 ^ 63 then .ok (-(n : Int)) else .error "value out of range"
  | '+' :: t =>
    match parseDigits t with
    | none => .error "invalid syntax"
    | some n => if n < 2 ^ 63 then .ok (n : Int) else .error "value out of range"
  | _ =>
    match parseDigits s with
    | none => .error "invalid syntax"
    | some n => if n < 2 ^ 63 then .ok (n : Int) else .error "value out of range"

/-! ## node/utils.go -/

/-- The letters of `[a-zA-Z]`. -/
def letterChars : List Char := "abcdefghijklmnopqrstuvwxyzABCDEFGHIJKLMNOPQRSTUVWXYZ".toList

/-- The characters of `[a-zA-Z0-9.-]`. -/
def identChars : List Char := letterChars ++ "0123456789.-".toList

/-- A character class `[...]` as a regular expression: one of the listed characters. -/
def charClass (cs : List Char) : RegularExpression Char :=
  cs.foldr (fun c r => RegularExpression.plus (RegularExpression.char c) r)
    RegularExpression.zero

/-- The expression `[a-zA-Z]+[a-zA-Z0-9.-]*`. -/
def identPattern : RegularExpression Char :=
  RegularExpression.comp (charClass letterChars)
    (RegularExpression.comp (RegularExpression.star (charClass letterChars))
      (RegularExpression.star (charClass identChars)))

/-- The expression `^[a-zA-Z]+[a-zA-Z0-9.-]*:[a-zA-Z]+[a-zA-Z0-9.-]*$` compiled by
`validOwnerSpec`, as an expression for the whole text. -/
def ownerSpecPattern : RegularExpression Char :=
  RegularExpression.comp identPattern
    (RegularExpression.comp (RegularExpression.char ':') identPattern)

/-- The function `validOwnerSpec(owner)`: whether the whole text matches the expression. -/
def validOwnerSpec (owner : String) : Bool := ownerSpecPattern.rmatch owner.toList

/-- The struct `DockerVersion`. -/
structure DockerVersion where
  Client : List Int
  Server : List Int
deriving DecidableEq, Repr

/-- The text `n1.n2...` that `docker version` prints for a tuple of numbers. -/
def versionText (c : List Nat) : List Char :=
  List.intercalate ['.'] (c.map (fun n => (Nat.repr n).toList))

/-- The line `<label>: n1.n2...` of the output of `docker version`, followed by `-` and a
suffix when one is given. -/
def versionLine (label : String) (c : List Nat) (suffix : Option (List Char)) : List Char :=
  label.toList ++ ':' :: ' ' :: (versionText c ++
    (match suffix with
     | none => []
     | some r => '-' :: r))

/-- The loop `for i, v := range b` of `parseDockerVersion`: `strconv.Atoi` of every piece,
or the first error. -/
def atoiAll : List (List Char) → Except String (List Int)
  | [] => .ok []
  | v :: rest =>
    match Atoi v with
    | .error e => .error e
    | .ok x =>
      match atoiAll rest with
      | .error e => .error e
      | .ok xs => .ok (x :: xs)

/-- The numbers that `parseDockerVersion` reads from `parts[1]`: with
`a := strings.SplitN(strings.TrimSpace(parts[1]), "-", 2)` and
`b := strings.Split(a[0], ".")`, the integers of the pieces of `b`. -/
def versionNumbers (part : List Char) : Except String (List Int) :=
  atoiAll (splitChar '.' ((splitN2 '-' (TrimSpace part)).headD []))

/-- The body of the loop over the lines in `parseDockerVersion`: the version after the
line, or the error returned. -/
def parseVersionLine (version : DockerVersion) (line : List Char) :
    Except String DockerVersion :=
  match splitN2 ':' line with
  | [parts0, parts1] =>
    let afterClient : Except String DockerVersion :=
      if HasPrefix parts0 "Client version".toList then
        match versionNumbers parts1 with
        | .error e => .error e
        | .ok b => .ok { version with Client := b }
      else .ok version
    match afterClient with
    | .error e => .error e
    | .ok version =>
      if HasPrefix parts0 "Server version".toList then
        match versionNumbers parts1 with
        | .error e => .error e
        | .ok b => .ok { version with Server := b }
      else .ok version
  | _ => .ok version

/-- The loop over the lines in `parseDockerVersion`. -/
def parseVersionLines (version : DockerVersion) : List (List Char) →
    Except String DockerVersion
  | [] => .ok version
  | line :: rest =>
    match parseVersionLine version line with
    | .error e => .error e
    | .ok version => parseVersionLines version rest

/-- The function `parseDockerVersion(output)`. -/
def parseDockerVersion (output : String) : Except String DockerVersion :=
  match parseVersionLines { Client := [], Server := [] } (splitChar '\n' output.toList) with
  | .error e => .error e
  | .ok version =>
    if version.Client.length = 0 then .error "no client version found"
    else if version.Server.length = 0 then .error "no server version found"
    else .ok version

/-! ## volume/rsync/rsync.go -/

/-- The struct `RsyncConn`. -/
structure RsyncConn where
  name : String
  root : String
deriving DecidableEq, Repr

/-- The method `RsyncConn.Snapshots()`; `infos` is the result of `ioutil.ReadDir(c.root)`:
for every entry of the root directory its name and whether it is a directory. -/
def RsyncConn.Snapshots (c : RsyncConn) (infos : Except String (List (String × Bool))) :
    Except String (List String) :=
  match infos with
  | .error e => .error e
  | .ok infos =>
    .ok ((infos.filter (fun info =>
      info.2 && HasPrefix info.1.toList (c.name ++ "_").toList)).map Prod.fst)

/-- The label check at the head of `RsyncConn.RemoveSnapshot(label)`: the error that the
method returns before it removes anything, if any. -/
def RsyncConn.checkLabel (c : RsyncConn) (label : String) : Option String :=
  let parts := splitChar '_' label.toList
  if parts.length ≠ 2 then some ("malformed label: " ++ label)
  else if parts.headD [] ≠ c.name.toList then
    some ("label " ++ label ++ " refers to some other volume")
  else none

/-- The method `RsyncConn.RemoveSnapshot(label)`; `rm` is the error, if any, of the command
`rm -Rf` on the snapshot path of a label. -/
def RsyncConn.RemoveSnapshot (c : RsyncConn) (rm : String → Option String) (label : String) :
    Option String :=
  match c.checkLabel label with
  | some e => some e
  | none =>
    match rm label with
    | some _ => some ("could not remove snapshot: " ++ label)
    | none => none

/-- The loop `for _, snapshot := range snapshots` of `RsyncConn.Unmount()`: the first
error of `RemoveSnapshot`, if any. -/
def RsyncConn.removeSnapshots (c : RsyncConn) (rm : String → Option String) :
    List String → Option String
  | [] => none
  | snapshot :: rest =>
    match c.RemoveSnapshot rm snapshot with
    | some e => some e
    | none => c.removeSnapshots rm rest

/-- The method `RsyncConn.Unmount()`; `rmVolume` is the error, if any, of the command
`rm -Rf` on the path of the volume. -/
def RsyncConn.Unmount (c : RsyncConn) (infos : Except String (List (String × Bool)))
    (rm : String → Option String) (rmVolume : Option String) : Option String :=
  match c.Snapshots infos with
  | .error e => some e
  | .ok snapshots =>
    match c.removeSnapshots rm snapshots with
    | some e => some e
    | none =>
      match rmVolume with
      | some _ => some ("could not delete subvolume: " ++ c.root ++ "/" ++ c.name)
      | none => none

/-! ## cli/api/logs.go -/

/-- The struct `logMultiLine`; the timestamp is its `UnixNano()`, an `int64`. -/
structure logMultiLine where
  Host : String
  File : String
  Timestamp : Int
  Offset : List String
  Message : String
deriving DecidableEq, Repr

/-- The struct `compactLogLine`. -/
structure compactLogLine where
  Timestamp : Int
  Offset : Nat
  Message : String
deriving DecidableEq, Repr

/-- The pieces `newline.Split(s, -1)` for the expression `\r?\n` of the variable `newline`:
the text between the line ends, at least one piece. -/
def newlineSplit : List Char → List (List Char)
  | [] => [[]]
  | '\n' :: t => [] :: newlineSplit t
  | '\r' :: '\n' :: t => [] :: newlineSplit t
  | c :: t =>
    match newlineSplit t with
    | [] => [[c]]
    | h :: r => (c :: h) :: r

/-- The function `convertOffsets(offsets)`. -/
def convertOffsets : List String → Except String (List Nat)
  | [] => .ok []
  | offsetString :: rest =>
    match ParseUint offsetString.toList with
    | .error e => .error ("failed to parse offset \"" ++ offsetString ++ "\": " ++ e)
    | .ok offset =>
      match convertOffsets rest with
      | .error e => .error e
      | .ok result => .ok (offset :: result)

/-- The loop `for _, value := range values` of `uint64sAreSorted`. -/
def sortedFrom (previousValue : Nat) : List Nat → Bool
  | [] => true
  | value :: rest => if value < previousValue then false else sortedFrom value rest

/-- The function `uint64sAreSorted(values)`. -/
def uint64sAreSorted (values : List Nat) : Bool :=
  match values with
  | [] => true
  | v0 :: _ => sortedFrom v0 values

/-- The function `getMinValue(values)`. -/
def getMinValue (values : List Nat) : Nat :=
  values.foldl (fun result value => if value < result then value else result) (2 ^ 64 - 1)

/-- The function `generateOffsets(messages, offsets)`, with `uint64` addition. -/
def generateOffsets (messages : List String) (offsets : List Nat) : List Nat :=
  let minOffset := getMinValue offsets
  let minOffset := if minOffset = 2 ^ 64 - 1 then 0 else minOffset
  (List.range messages.length).map (fun i => (minOffset + i) % 2 ^ 64)

/-- The function `truncateToMinute(nanos)`: `int64` division truncates toward zero. -/
def truncateToMinute (nanos : Int) : Int := Int.tdiv nanos 60000000000 * 60000000000

/-- What a call of `parseLogSource` ends with: the host, the file and the compact lines; an
error; or the run-time panic of an index out of range. -/
inductive ParseOutcome where
  | lines (host file : String) (compactLines : List compactLogLine)
  | error (msg : String)
  | indexOutOfRange
deriving DecidableEq, Repr

/-- The loop `for i, offset := range offsets` of `parseLogSource` from index `i` on, which
appends one line for every offset; nothing when `messages[i]` is out of range. -/
def appendCompactLines (timestamp : Int) (messages : List String) :
    Nat → List Nat → List compactLogLine → Option (List compactLogLine)
  | _, [], compactLines => some compactLines
  | i, offset :: rest, compactLines =>
    match messages.get? i with
    | none => none
    | some message =>
      appendCompactLines timestamp messages (i + 1) rest
        (compactLines ++ [{ Timestamp := timestamp, Offset := offset, Message := message }])

/-- The function `parseLogSource(source)` on a source that does not decode as a single-line
record and decodes as the multi-line record `multiLine`. -/
def parseLogSource (multiLine : logMultiLine) : ParseOutcome :=
  match convertOffsets multiLine.Offset with
  | .error e => .error ("failed to parse JSON: " ++ e)
  | .ok offsets =>
    let messages := (newlineSplit multiLine.Message.toList).map String.mk
    let adjusted : Option (List Nat) :=
      if offsets.length + 1 = messages.length then
        let numLines := messages.length
        if numLines > 1 then
          match messages.get? (numLines - 2), offsets.get? (numLines - 1) with
          | some message, some offset =>
            some (offsets ++ [(message.utf8ByteSize + offset) % 2 ^ 64])
          | _, _ => none
        else some offsets
      else if offsets.length > messages.length then some offsets
      else if offsets.length < messages.length then some (generateOffsets messages offsets)
      else some offsets
    match adjusted with
    | none => .indexOutOfRange
    | some offsets =>
      let offsets :=
        if uint64sAreSorted offsets = false then generateOffsets messages offsets
        else offsets
      let timestamp := truncateToMinute multiLine.Timestamp
      match appendCompactLines timestamp messages 0 offsets
          (List.replicate messages.length { Timestamp := 0, Offset := 0, Message := "" }) with
      | none => .indexOutOfRange
      | some compactLines => .lines multiLine.Host multiLine.File compactLines

/-! ## Concrete inputs -/

/-- A facade over the given pools and hosts whose stores and hooks report no error, whose
`VirtualIPsEqual` compares the lists of virtual IPs, and whose parser is `ParseIP`. -/
def exampleFacade (pools : List ResourcePool) (hosts : List Host) : Facade :=
  { poolStore := pools, hostStore := hosts,
    poolGetErr := fun _ => none, poolPutErr := fun _ => none, poolDeleteErr := fun _ => none,
    hostFindErr := fun _ => none, beforeEvent := fun _ _ => none,
    virtualIPsEqual := fun a b => decide (a.VirtualIPs = b.VirtualIPs),
    parseIP := ParseIP }

/-- A host of pool `P` with the static IP address `192.168.100.10` on `eth0`. -/
def exampleHostA : Host :=
  { ID := "aHost", PoolID := "P", IPAddr := "192.168.100.10", Cores := 4, Memory := 16,
    IPs := [{ HostID := "aHost", IPAddress := "192.168.100.10", InterfaceName := "eth0" }] }

/-- A host of pool `P` with `2^63` bytes of memory. -/
def exampleBigHost (id : String) : Host :=
  { ID := id, PoolID := "P", IPAddr := "10.0.0.1", Cores := 4, Memory := 9223372036854775808 }

/-- A virtual IP of the given pool with netmask `255.255.255.0` on `eth0`. -/
def exampleVirtualIP (poolID : String) (ip : String) : VirtualIP :=
  { PoolID := poolID, IP := ip, Netmask := "255.255.255.0", BindInterface := "eth0" }

/-- A proxy with the given name whose `Run` and `Close` succeed. -/
def exampleProxy (name : String) : Proxy :=
  { name := name, runErr := none, closeErr := none }

/-- A registry holding proxy `p1` under the key `S:web`, whose factory builds proxy `new`. -/
def exampleRegistry : proxyRegistry :=
  { registry := [("S:web", exampleProxy "p1")],
    proxyFactory := fun _ _ _ => .ok (exampleProxy "new") }

/-- A service with one endpoint whose address assignment is static and names no host. -/
def exampleUnhostedService : Service :=
  { ID := "S", Name := "svc", PoolID := "P1", Instances := 1, ChangeOptions := [],
    DesiredState := SVCRun, RAMCommitment := 1,
    Endpoints := [{ Name := "web", Assignment :=
      { ID := "A1", AssignmentType := "static", HostID := "", PoolID := "P1",
        IPAddr := "10.0.0.9", Port := 80, ServiceID := "S", EndpointName := "web" } }] }

/-- A service whose first endpoint carries a virtual assignment and whose second endpoint
carries a static assignment to host `H2`. -/
def exampleTwoAssignmentService : Service :=
  { ID := "S", Name := "svc", PoolID := "P1", Instances := 1, ChangeOptions := [],
    DesiredState := SVCRun, RAMCommitment := 1,
    Endpoints := [
      { Name := "vip", Assignment :=
        { ID := "A1", AssignmentType := "virtual", HostID := "", PoolID := "P1",
          IPAddr := "10.0.0.5", Port := 80, ServiceID := "S", EndpointName := "vip" } },
      { Name := "web", Assignment :=
        { ID := "A2", AssignmentType := "static", HostID := "H2", PoolID := "P1",
          IPAddr := "10.0.0.2", Port := 81, ServiceID := "S", EndpointName := "web" } }] }

/-- A service whose only endpoint carries a static assignment to host `H2`. -/
def exampleStaticService : Service :=
  { ID := "S", Name := "svc", PoolID := "P1", Instances := 1, ChangeOptions := [],
    DesiredState := SVCRun, RAMCommitment := 1,
    Endpoints := [
      { Name := "web", Assignment :=
        { ID := "A2", AssignmentType := "static", HostID := "H2", PoolID := "P1",
          IPAddr := "10.0.0.2", Port := 81, ServiceID := "S", EndpointName := "web" } }] }

/-- A running service with a RAM commitment of 2. -/
def exampleRunning : Service :=
  { ID := "R", Name := "running", PoolID := "P1", Instances := 4, ChangeOptions := [],
    DesiredState := SVCRun, Endpoints := [], RAMCommitment := 2 }

/-- Three instances of the running service on `H1`, one on every other host: `H1` has 6 units
committed and `H2` has 2. -/
def exampleCount (_svc : Service) (h : Host) : Nat :=
  if h.ID = "H1" then 3 else 1


/-- A state of service `S` on host `H1` with the given state id and instance id. -/
def exampleState (id : String) (instanceID : Int) : ServiceState :=
  { ID := id, ServiceID := "S", HostID := "H1", HostIP := "10.0.0.1", InstanceID := instanceID }

/-- Host `H1` with 8 units of memory. -/
def exampleH1 : Host := { ID := "H1", PoolID := "P1", IPAddr := "10.0.0.1", Cores := 4, Memory := 8 }

/-- Host `H2` with 8 units of memory. -/
def exampleH2 : Host := { ID := "H2", PoolID := "P1", IPAddr := "10.0.0.2", Cores := 4, Memory := 8 }

/-- A running service `S` without endpoints and without change options. -/
def exampleService (instances : Int) : Service :=
  { ID := "S", Name := "svc", PoolID := "P1", Instances := instances, ChangeOptions := [],
    DesiredState := SVCRun, Endpoints := [], RAMCommitment := 1 }

/-- A leader whose store holds the given states of the service, whose registry knows `H1` and
`H2`, whose policy picks the first host, and whose creations succeed. -/
def exampleLeader (states : List ServiceState) : Leader :=
  { getHosts := .ok [exampleH1, exampleH2],
    getServiceStates := fun _ => .ok states,
    getVirtualIPHostID := fun _ => .error "no owner",
    selectHost := fun _ hosts =>
      match hosts with
      | [] => .error "NoHosts"
      | h :: _ => .ok h,
    buildFromService := fun k svc hostID =>
      .ok { ID := toString k, ServiceID := svc.ID, HostID := hostID, HostIP := "",
            InstanceID := 0 },
    addServiceState := fun _ => .ok () }

/-- A configuration file with the given content. -/
def exampleConfigFile (name content : String) : ConfigFile :=
  { Filename := name, Owner := "root:root", Permissions := "0644", Content := content }

/-- The service `S` with two original configuration files and a stale `ConfigFiles` map. -/
def exampleConfiguredService : Service :=
  { exampleService 1 with
    OriginalConfigs := [("/etc/a.conf", exampleConfigFile "/etc/a.conf" "a = 1"),
                        ("/etc/b.conf", exampleConfigFile "/etc/b.conf" "b = 2")]
    ConfigFiles := [("/etc/a.conf", exampleConfigFile "/etc/a.conf" "a = 0")] }

/-- A service store that holds one other service and reports no error. -/
def exampleStore : Store :=
  { ds := [("T", { exampleService 2 with ID := "T" })],
    dsPutErr := fun _ => none,
    dsGetErr := fun _ => none }

/-- An endpoint without address assignment. -/
def exampleEndpoint (name purpose protocol : String) (port : Nat) : ServiceEndpoint :=
  { Name := name, Assignment := AddressAssignment.zero, Purpose := purpose,
    Protocol := protocol, PortNumber := port }

/-- The service `S` with two export endpoints on port 80 over tcp. -/
def exampleDoubleExport : Service :=
  { exampleService 1 with
    Endpoints := [exampleEndpoint "web" "export" "tcp" 80,
                  exampleEndpoint "admin" "export" "tcp" 80] }

/-- The service `S` exporting 80 over tcp and 53 over udp, and importing 3306 over tcp. -/
def exampleExports : Service :=
  { exampleService 1 with
    Endpoints := [exampleEndpoint "web" "export" "tcp" 80,
                  exampleEndpoint "db" "import" "tcp" 3306,
                  exampleEndpoint "dns" "export" "udp" 53] }

/-- The lines of the output of `docker version` for docker 0.6.6 with a server built as
`0.6.6-dev`; the output ends with a newline. -/
def exampleDockerOutput : List (List Char) :=
  ["Client version: 0.6.6".toList, "Go version (client): go1.2rc3".toList,
   "Git commit (client): 6d42040".toList, "Server version: 0.6.6-dev".toList,
   "Git commit (server): ba0a8a7".toList, "Go version (server): go1.2rc3".toList, []]

/-- The rsync volume `vol` under `/data`. -/
def exampleConn : RsyncConn := { name := "vol", root := "/data" }

/-- A multi-line log record of host `h` and file `f` stamped 90 seconds after the epoch. -/
def exampleRecord (offsets : List String) (message : String) : logMultiLine :=
  { Host := "h", File := "f", Timestamp := 90000000000, Offset := offsets,
    Message := message }

/-- A `conn.Get` that finds the state `a` with instance id 0 and the state `c` with instance
id 2, and no other node. -/
def exampleGet (ssID : String) : Except String ServiceState :=
  if ssID = "a" then .ok (exampleState "a" 0)
  else if ssID = "c" then .ok (exampleState "c" 2)
  else .error "node does not exist"

/-- The service `S` created at second 1 and updated at second 2. -/
def exampleUpdatedService : Service :=
  { exampleService 1 with
    CreatedAt := 1000000000
    UpdatedAt := 2000000000 }

end Serviced

namespace Serviced

/-! ## The free-id loop -/

/-- Invariant of the free-id loop: started below `i` with the unused naturals below `i`
collected in increasing order, it ends with exactly `n` ids, increasing, that are the
unused naturals below some bound `j`. -/
theorem freeIDLoop_spec (used : List Int) (n : Int) (i : Int) (ids : List Int)
    (hi : 0 ≤ i) (hlen : (ids.length : Int) ≤ n)
    (hsorted : ids.Pairwise (fun a b => a < b))
    (hmem : ∀ x ∈ ids, 0 ≤ x ∧ x < i ∧ x ∉ used)
    (hall : ∀ y, 0 ≤ y → y < i → y ∉ used → y ∈ ids) :
    ((freeIDLoop used n i ids).length : Int) = n ∧
      (freeIDLoop used n i ids).Pairwise (fun a b => a < b) ∧
      ∃ j, i ≤ j ∧ (∀ x ∈ freeIDLoop used n i ids, 0 ≤ x ∧ x < j ∧ x ∉ used) ∧
        (∀ y, 0 ≤ y → y < j → y ∉ used → y ∈ freeIDLoop used n i ids) := by
  induction i, ids using freeIDLoop.induct used n with
  | case1 i ids hlt hu ih =>
    rw [freeIDLoop, if_pos hlt, if_pos hu]
    have := ih (by omega) hlen hsorted
      (fun x hx => ⟨(hmem x hx).1, by have := (hmem x hx).2.1; omega, (hmem x hx).2.2⟩)
      (fun y hy0 hy hyu => by
        rcases lt_or_eq_of_le (Int.lt_add_one_iff.1 hy) with h | h
        · exact hall y hy0 h hyu
        · exact absurd (h ▸ hu) hyu)
    obtain ⟨h1, h2, j, hj, h3, h4⟩ := this
    exact ⟨h1, h2, j, by omega, h3, h4⟩
  | case2 i ids hlt hu ih =>
    rw [freeIDLoop, if_pos hlt, if_neg hu]
    have := ih (by omega) (by simp; omega)
      (by
        rw [List.pairwise_append]
        refine ⟨hsorted, List.pairwise_singleton _ _, ?_⟩
        intro a ha b hb
        simp at hb
        subst hb
        exact (hmem a ha).2.1)
      (fun x hx => by
        rcases List.mem_append.1 hx with h | h
        · exact ⟨(hmem x h).1, by have := (hmem x h).2.1; omega, (hmem x h).2.2⟩
        · simp at h
          subst h
          exact ⟨hi, by omega, hu⟩)
      (fun y hy0 hy hyu => by
        rcases lt_or_eq_of_le (Int.lt_add_one_iff.1 hy) with h | h
        · exact List.mem_append_left _ (hall y hy0 h hyu)
        · simp [h])
    obtain ⟨h1, h2, j, hj, h3, h4⟩ := this
    exact ⟨h1, h2, j, by omega, h3, h4⟩
  | case3 i ids hlt =>
    rw [freeIDLoop, if_neg hlt]
    exact ⟨by omega, hsorted, i, le_refl _, hmem, hall⟩

/-- The two free-id loops (leader and service listener) agree whenever their `used` maps hold
the same keys. -/
theorem syncIDLoop_eq_freeIDLoop (used : List Int) (n : Int) (i : Int) (ids : List Int)
    (used2 : List Int) (hsame : ∀ x, x ∈ used2 ↔ x ∈ used) :
    syncIDLoop used2 n i ids = freeIDLoop used n i ids := by
  induction i, ids using freeIDLoop.induct used n with
  | case1 i ids hlt hu ih =>
    rw [freeIDLoop, if_pos hlt, if_pos hu, syncIDLoop, if_pos hlt, if_pos ((hsame i).2 hu)]
    exact ih
  | case2 i ids hlt hu ih =>
    rw [freeIDLoop, if_pos hlt, if_neg hu, syncIDLoop, if_pos hlt,
      if_neg (fun h => hu ((hsame i).1 h))]
    exact ih
  | case3 i ids hlt =>
    rw [freeIDLoop, if_neg hlt, syncIDLoop, if_neg hlt]

/-! ## Counting instance ids -/

/-- A duplicate-free list of `m` integers of `[0, m)` holds every integer of `[0, m)`. -/
theorem toFinset_eq_Ico_of_nodup (U : List Int) (m : Int) (hnd : U.Nodup)
    (hr : ∀ x ∈ U, 0 ≤ x ∧ x < m) (hlen : (U.length : Int) = m) :
    U.toFinset = Finset.Ico (0 : Int) m := by
  apply Finset.eq_of_subset_of_card_le
  · intro x hx
    have := hr x (List.mem_toFinset.1 hx)
    simp [Finset.mem_Ico, this.1, this.2]
  · rw [List.toFinset_card_of_nodup hnd, Int.card_Ico]
    omega

/-- Among `m` pairwise distinct ids of `[0, m)`, exactly `m - d` are at least `d`. -/
theorem length_filter_ge_of_nodup (U : List Int) (m d : Int) (hnd : U.Nodup)
    (hr : ∀ x ∈ U, 0 ≤ x ∧ x < m) (hlen : (U.length : Int) = m) (hd0 : 0 ≤ d) (hdm : d ≤ m) :
    ((U.filter (fun x => decide (d ≤ x))).length : Int) = m - d := by
  have h1 : (U.filter (fun x => decide (d ≤ x))).length
      = ((U.filter (fun x => decide (d ≤ x))).toFinset).card :=
    (List.toFinset_card_of_nodup (hnd.filter _)).symm
  have h2 : (U.filter (fun x => decide (d ≤ x))).toFinset = Finset.Ico d m := by
    ext x
    simp only [List.mem_toFinset, List.mem_filter, decide_eq_true_eq, Finset.mem_Ico]
    constructor
    · rintro ⟨hx, hdx⟩
      exact ⟨hdx, (hr x hx).2⟩
    · rintro ⟨hdx, hxm⟩
      refine ⟨?_, hdx⟩
      have : x ∈ U.toFinset := by
        rw [toFinset_eq_Ico_of_nodup U m hnd hr hlen]
        simp [Finset.mem_Ico]
        omega
      exact List.mem_toFinset.1 this
  rw [h1, h2, Int.card_Ico]
  omega

/-- The states told to stop by `shutdownServiceInstances` are those whose instance id is above
`len - numToKill - 1`. -/
theorem mem_shutdownServiceInstances (states : List ServiceState) (numToKill : Int)
    (s : ServiceState) :
    s ∈ shutdownServiceInstances states numToKill ↔
      s ∈ states ∧ (states.length : Int) - numToKill - 1 < s.InstanceID := by
  simp [shutdownServiceInstances, List.mem_filter]

/-- With nonnegative instance ids, `shutdownServiceInstances` with `numToKill = len` stops
every state. -/
theorem shutdownServiceInstances_all (states : List ServiceState)
    (hids : ∀ s ∈ states, 0 ≤ s.InstanceID) :
    shutdownServiceInstances states states.length = states := by
  unfold shutdownServiceInstances
  rw [List.filter_eq_self]
  intro s hs
  have := hids s hs
  simp
  omega

/-- The loop of `ServiceListener.syncServiceInstances` that fills `used`, on state ids whose
`conn.Get` succeeds: `used` holds the instance ids of the loaded states. -/
theorem loadUsed_loaded (get : String → Except String ServiceState) (stateIDs : List String)
    (states : List ServiceState)
    (h : List.Forall₂ (fun ssID state => get ssID = .ok state) stateIDs states) :
    loadUsed get stateIDs = .ok (states.map (fun s => s.InstanceID)) := by
  induction h with
  | nil => rfl
  | cons hget _ ih => simp [loadUsed, hget, ih]

/-- C1: when the state lookup succeeds and `n ≥ 0`, `getFreeInstanceIDs` returns exactly `n`
ids in strictly increasing order, each a natural number that is not an observed instance id,
and every natural number that is neither observed nor returned is larger than all returned
ids (so they are the `n` smallest free ids); the free-id part of
`ServiceListener.syncServiceInstances`, run on state ids whose `conn.Get` returns the
observed states one by one, fills `used` from them and computes the same list. -/
theorem getFreeInstanceIDs_smallest_free (l : Leader) (svc : Service) (n : Int)
    (states : List ServiceState) (hn : 0 ≤ n)
    (hlookup : l.getServiceStates svc.ID = .ok states) :
    ∃ ids, getFreeInstanceIDs l svc n = .ok ids ∧
      (ids.length : Int) = n ∧
      ids.Pairwise (fun a b => a < b) ∧
      (∀ x ∈ ids, 0 ≤ x ∧ x ∉ states.map (fun s => s.InstanceID)) ∧
      (∀ y, 0 ≤ y → y ∉ states.map (fun s => s.InstanceID) → y ∉ ids → ∀ x ∈ ids, x < y) ∧
      (∀ (get : String → Except String ServiceState) (stateIDs : List String),
          List.Forall₂ (fun ssID state => get ssID = .ok state) stateIDs states →
          syncFreeInstanceIDs get stateIDs n = .ok ids) := by
  obtain ⟨h1, h2, j, _, h3, h4⟩ :=
    freeIDLoop_spec (states.map (fun s => s.InstanceID)) n 0 [] (le_refl _)
      (by simpa using hn) List.Pairwise.nil (by simp) (fun y hy0 hy _ => by omega)
  refine ⟨freeIDLoop (states.map (fun s => s.InstanceID)) n 0 [], ?_, h1, h2,
    fun x hx => ⟨(h3 x hx).1, (h3 x hx).2.2⟩, ?_, ?_⟩
  · simp [getFreeInstanceIDs, hlookup]
  · intro y hy0 hyu hyi x hx
    by_contra hlt
    exact hyi (h4 y hy0 (lt_of_le_of_lt (not_lt.1 hlt) (h3 x hx).2.1) hyu)
  · intro get stateIDs hload
    simp [syncFreeInstanceIDs, loadUsed_loaded get stateIDs states hload,
      syncIDLoop_eq_freeIDLoop (states.map (fun s => s.InstanceID)) n 0 []
        (states.map (fun s => s.InstanceID)) (fun _ => Iff.rfl)]

/-- C1 at the instance re-use scenario: observed instance ids 0 and 2, one id asked for;
the leader and the listener both pick the id 1. -/
theorem getFreeInstanceIDs_smallest_free_witness :
    (0 : Int) ≤ 1 ∧
    (exampleLeader [exampleState "a" 0, exampleState "c" 2]).getServiceStates
        (exampleService 3).ID = .ok [exampleState "a" 0, exampleState "c" 2] ∧
    List.Forall₂ (fun ssID state => exampleGet ssID = .ok state) ["a", "c"]
      [exampleState "a" 0, exampleState "c" 2] ∧
    getFreeInstanceIDs (exampleLeader [exampleState "a" 0, exampleState "c" 2])
        (exampleService 3) 1 = .ok [1] ∧
    syncFreeInstanceIDs exampleGet ["a", "c"] 1 = .ok [1] ∧
    ∃ ids, getFreeInstanceIDs (exampleLeader [exampleState "a" 0, exampleState "c" 2])
        (exampleService 3) 1 = .ok ids ∧
      (ids.length : Int) = 1 ∧
      ids.Pairwise (fun a b => a < b) ∧
      (∀ x ∈ ids, 0 ≤ x ∧
        x ∉ [exampleState "a" 0, exampleState "c" 2].map (fun s => s.InstanceID)) ∧
      (∀ y, 0 ≤ y → y ∉ [exampleState "a" 0, exampleState "c" 2].map (fun s => s.InstanceID) →
        y ∉ ids → ∀ x ∈ ids, x < y) ∧
      syncFreeInstanceIDs exampleGet ["a", "c"] 1 = .ok ids := by
  have hload : List.Forall₂ (fun ssID state => exampleGet ssID = .ok state) ["a", "c"]
      [exampleState "a" 0, exampleState "c" 2] :=
    List.Forall₂.cons rfl (List.Forall₂.cons rfl List.Forall₂.nil)
  have hleader : getFreeInstanceIDs (exampleLeader [exampleState "a" 0, exampleState "c" 2])
      (exampleService 3) 1 = .ok [1] := by
    simp [getFreeInstanceIDs, exampleLeader, exampleState, freeIDLoop]
  obtain ⟨ids, h1, h2, h3, h4, h5, h6⟩ :=
    getFreeInstanceIDs_smallest_free (exampleLeader [exampleState "a" 0, exampleState "c" 2])
      (exampleService 3) 1 [exampleState "a" 0, exampleState "c" 2] (by decide) rfl
  have hids : ids = [1] := by
    rw [hleader] at h1
    exact (Except.ok.inj h1).symm
  have h7 := h6 exampleGet ["a", "c"] hload
  exact ⟨by decide, rfl, hload, hleader, hids ▸ h7, ids, h1, h2, h3, h4, h5, h7⟩

/-! ## Scale-down -/

/-- C2 fails as stated: with the pairwise distinct instance ids 0, 2, 3 observed and
`Instances = 2`, the scale-down step tells two states to stop, not `3 - 2 = 1`. -/
theorem scaleDown_count_counterexample :
    ([exampleState "a" 0, exampleState "c" 2, exampleState "d" 3].map
        (fun s => s.InstanceID)).Nodup ∧
    (exampleService 2).DesiredState = SVCRun ∧
    StringInSlice "restartAllOnInstanceChanged" (exampleService 2).ChangeOptions = false ∧
    (0 : Int) ≤ 2 ∧
    (2 : Int) < ([exampleState "a" 0, exampleState "c" 2, exampleState "d" 3].length : Int) ∧
    (watchServicePass (exampleLeader [])
        (exampleService 2)
        [exampleState "a" 0, exampleState "c" 2, exampleState "d" 3]).stopped
      = [exampleState "c" 2, exampleState "d" 3] ∧
    (((watchServicePass (exampleLeader [])
        (exampleService 2)
        [exampleState "a" 0, exampleState "c" 2, exampleState "d" 3]).stopped.length : Int)
      ≠ ([exampleState "a" 0, exampleState "c" 2, exampleState "d" 3].length : Int) - 2) := by
  decide

/-- C2, amended: for observed states with pairwise distinct instance ids that all lie in
`[0, len(observed))` and a running service without `restartAllOnInstanceChanged` and with
`Instances = d`, `0 ≤ d < len(observed)`, the pass calls `shutdownServiceInstances` with
`numToKill = len(observed) - d`, tells exactly `len(observed) - d` states to stop, these are
the states with instance id at least `d`, each of them has a higher instance id than every
state that is kept, and nothing is started. -/
theorem scaleDown_stops_highest (l : Leader) (svc : Service) (states : List ServiceState)
    (d : Int) (hrun : svc.DesiredState = SVCRun)
    (hopt : StringInSlice "restartAllOnInstanceChanged" svc.ChangeOptions = false)
    (hinst : svc.Instances = d) (hd0 : 0 ≤ d) (hdlt : d < (states.length : Int))
    (hnodup : (states.map (fun s => s.InstanceID)).Nodup)
    (hrange : ∀ s ∈ states, 0 ≤ s.InstanceID ∧ s.InstanceID < (states.length : Int)) :
    (watchServicePass l svc states).stopped
        = shutdownServiceInstances states ((states.length : Int) - d) ∧
      (((watchServicePass l svc states).stopped.length : Int) = (states.length : Int) - d) ∧
      (∀ s ∈ states, s ∈ (watchServicePass l svc states).stopped ↔ d ≤ s.InstanceID) ∧
      (∀ s ∈ (watchServicePass l svc states).stopped, ∀ t ∈ states,
        t ∉ (watchServicePass l svc states).stopped → t.InstanceID < s.InstanceID) ∧
      (watchServicePass l svc states).started = [] := by
  have hpass : watchServicePass l svc states
      = { stopped := shutdownServiceInstances states ((states.length : Int) - d),
          wantsToStart := 0, started := [], err := none } := by
    have hne : ¬ ((states.length : Int) = d) := by omega
    have hlt : ¬ ((states.length : Int) < d) := by omega
    have hpos : (0 : Int) < (states.length : Int) - d := by omega
    simp [watchServicePass, updateServiceInstances, instanceDeltas, hrun, hopt, hinst, SVCRun,
      SVCStop, hne, hlt, hdlt, hpos]
  have hmem : ∀ s ∈ states,
      s ∈ shutdownServiceInstances states ((states.length : Int) - d) ↔ d ≤ s.InstanceID := by
    intro s hs
    rw [mem_shutdownServiceInstances]
    constructor
    · rintro ⟨_, h⟩
      omega
    · intro h
      exact ⟨hs, by omega⟩
  rw [hpass]
  refine ⟨rfl, ?_, hmem, ?_, rfl⟩
  · have hcount := length_filter_ge_of_nodup (states.map (fun s => s.InstanceID))
      (states.length : Int) d hnodup
      (by
        intro x hx
        obtain ⟨s, hs, rfl⟩ := List.mem_map.1 hx
        exact hrange s hs)
      (by simp) hd0 (le_of_lt hdlt)
    have hfil : shutdownServiceInstances states ((states.length : Int) - d)
        = states.filter (fun s => decide (d ≤ s.InstanceID)) := by
      unfold shutdownServiceInstances
      apply List.filter_congr
      intro s _
      simp only [gt_iff_lt, decide_eq_decide]
      omega
    have hlen : (states.filter (fun s => decide (d ≤ s.InstanceID))).length
        = ((states.map (fun s => s.InstanceID)).filter (fun x => decide (d ≤ x))).length := by
      rw [List.filter_map, List.length_map]
      rfl
    show ((shutdownServiceInstances states ((states.length : Int) - d)).length : Int) = _
    rw [hfil, hlen]
    exact hcount
  · intro s hs t ht hnt
    have hs2 := (mem_shutdownServiceInstances _ _ _).1 hs
    have h1 := (hmem s hs2.1).1 hs
    have h2 : ¬ d ≤ t.InstanceID := fun h => hnt ((hmem t ht).2 h)
    omega

/-- C2, amended, at the scale-down scenario: instance ids 0, 1, 2 and `Instances = 1`. -/
theorem scaleDown_stops_highest_witness :
    (watchServicePass (exampleLeader []) (exampleService 1)
        [exampleState "a" 0, exampleState "b" 1, exampleState "c" 2]).stopped
      = shutdownServiceInstances [exampleState "a" 0, exampleState "b" 1, exampleState "c" 2]
          (([exampleState "a" 0, exampleState "b" 1, exampleState "c" 2].length : Int) - 1) ∧
    (((watchServicePass (exampleLeader []) (exampleService 1)
        [exampleState "a" 0, exampleState "b" 1, exampleState "c" 2]).stopped.length : Int)
      = ([exampleState "a" 0, exampleState "b" 1, exampleState "c" 2].length : Int) - 1) ∧
    (∀ s ∈ [exampleState "a" 0, exampleState "b" 1, exampleState "c" 2],
      s ∈ (watchServicePass (exampleLeader []) (exampleService 1)
        [exampleState "a" 0, exampleState "b" 1, exampleState "c" 2]).stopped
        ↔ 1 ≤ s.InstanceID) ∧
    (∀ s ∈ (watchServicePass (exampleLeader []) (exampleService 1)
        [exampleState "a" 0, exampleState "b" 1, exampleState "c" 2]).stopped,
      ∀ t ∈ [exampleState "a" 0, exampleState "b" 1, exampleState "c" 2],
        t ∉ (watchServicePass (exampleLeader []) (exampleService 1)
          [exampleState "a" 0, exampleState "b" 1, exampleState "c" 2]).stopped →
        t.InstanceID < s.InstanceID) ∧
    (watchServicePass (exampleLeader []) (exampleService 1)
        [exampleState "a" 0, exampleState "b" 1, exampleState "c" 2]).started = [] :=
  scaleDown_stops_highest (exampleLeader []) (exampleService 1)
    [exampleState "a" 0, exampleState "b" 1, exampleState "c" 2] 1
    (by decide) (by decide) (by decide) (by decide) (by decide) (by decide) (by decide)

/-- C4: for every `d` (in particular `0 ≤ d ≤ len(observed)`), after
`shutdownServiceInstances(states, len(observed) - d)` the states not told to stop are exactly
those with instance id at most `d - 1`; so, instance ids being natural numbers, every
surviving state has its instance id in `[0, d)`. -/
theorem shutdown_survivors (states : List ServiceState) (d : Int) :
    (∀ s ∈ states,
      s ∉ shutdownServiceInstances states ((states.length : Int) - d) ↔ s.InstanceID ≤ d - 1) ∧
    ((∀ s ∈ states, 0 ≤ s.InstanceID) →
      ∀ s ∈ states, s ∉ shutdownServiceInstances states ((states.length : Int) - d) →
        0 ≤ s.InstanceID ∧ s.InstanceID < d) := by
  have hmem : ∀ s ∈ states,
      s ∉ shutdownServiceInstances states ((states.length : Int) - d) ↔ s.InstanceID ≤ d - 1 := by
    intro s hs
    rw [mem_shutdownServiceInstances]
    constructor
    · intro h
      by_contra hgt
      exact h ⟨hs, by omega⟩
    · rintro h ⟨_, h2⟩
      omega
  refine ⟨hmem, fun hids s hs hns => ⟨hids s hs, ?_⟩⟩
  have := (hmem s hs).1 hns
  omega

/-- C4 at the scale-down scenario: from the instance ids 0, 1, 2 and `d = 1` only the state
with instance id 0 survives. -/
theorem shutdown_survivors_witness :
    ((0 : Int) ≤ 1 ∧
      (1 : Int) ≤ ([exampleState "a" 0, exampleState "b" 1, exampleState "c" 2].length : Int)) ∧
    (∀ s ∈ [exampleState "a" 0, exampleState "b" 1, exampleState "c" 2], 0 ≤ s.InstanceID) ∧
    ([exampleState "a" 0, exampleState "b" 1, exampleState "c" 2].filter
      (fun s => decide (s ∉ shutdownServiceInstances
        [exampleState "a" 0, exampleState "b" 1, exampleState "c" 2]
        (([exampleState "a" 0, exampleState "b" 1, exampleState "c" 2].length : Int) - 1)))
      = [exampleState "a" 0]) ∧
    (∀ s ∈ [exampleState "a" 0, exampleState "b" 1, exampleState "c" 2],
      s ∉ shutdownServiceInstances [exampleState "a" 0, exampleState "b" 1, exampleState "c" 2]
        (([exampleState "a" 0, exampleState "b" 1, exampleState "c" 2].length : Int) - 1)
        ↔ s.InstanceID ≤ 1 - 1) ∧
    (∀ s ∈ [exampleState "a" 0, exampleState "b" 1, exampleState "c" 2],
      s ∉ shutdownServiceInstances
        [exampleState "a" 0, exampleState "b" 1, exampleState "c" 2]
        (([exampleState "a" 0, exampleState "b" 1, exampleState "c" 2].length : Int) - 1) →
      0 ≤ s.InstanceID ∧ s.InstanceID < 1) :=
  ⟨by decide, by decide, by decide,
    (shutdown_survivors [exampleState "a" 0, exampleState "b" 1, exampleState "c" 2] 1).1,
    (shutdown_survivors [exampleState "a" 0, exampleState "b" 1, exampleState "c" 2] 1).2
      (by decide)⟩

/-! ## The reconciler pass -/

/-- The pair `(instancesToKill, instancesToStart)` of a service with
`restartAllOnInstanceChanged` whose instance count differs from the observed one. -/
theorem instanceDeltas_restartAll (svc : Service) (states : List ServiceState)
    (hopt : StringInSlice "restartAllOnInstanceChanged" svc.ChangeOptions = true)
    (hne : (states.length : Int) ≠ svc.Instances) :
    instanceDeltas svc states = ((states.length : Int), svc.Instances) := by
  simp [instanceDeltas, hopt, hne]

/-- The loop of `startServiceInstances` adds at most one state per free id. -/
theorem startLoop_length_le (l : Leader) (svc : Service) (hosts : List Host)
    (freeids : List Int) (k : Nat) :
    (startLoop l svc hosts freeids k).1.length ≤ freeids.length := by
  induction freeids generalizing k with
  | nil => simp [startLoop]
  | cons i rest ih =>
    unfold startLoop
    cases h1 : selectPoolHostForService l k svc hosts with
    | error e => simp
    | ok servicehost =>
      cases h2 : l.buildFromService k svc servicehost.ID with
      | error e => simp [h2]
      | ok built =>
        cases h3 : l.addServiceState
            { built with HostIP := servicehost.IPAddr, InstanceID := i } with
        | error e => simp [h2, h3]
        | ok u => simpa [h2, h3] using ih (k + 1)

/-- A pass with something to kill only stops states. -/
theorem updateServiceInstances_kill (l : Leader) (svc : Service) (states : List ServiceState)
    (h : 0 < (instanceDeltas svc states).1) :
    updateServiceInstances l svc states
      = { stopped := shutdownServiceInstances states (instanceDeltas svc states).1,
          wantsToStart := 0, started := [], err := none } := by
  simp [updateServiceInstances, h]

/-- A pass with nothing to kill stops no state. -/
theorem updateServiceInstances_stopped_nil (l : Leader) (svc : Service)
    (states : List ServiceState) (h : ¬ 0 < (instanceDeltas svc states).1) :
    (updateServiceInstances l svc states).stopped = [] := by
  simp only [updateServiceInstances, gt_iff_lt, h, if_false]
  split_ifs with h2
  · cases l.getHosts with
    | error e => rfl
    | ok hosts => by_cases hl : hosts.length = 0 <;> simp [hl]
  · rfl

/-- The number a pass wishes to start is `instancesToStart` when there is nothing to kill and
`instancesToStart > 0`, and 0 otherwise. -/
theorem updateServiceInstances_wantsToStart (l : Leader) (svc : Service)
    (states : List ServiceState) :
    (updateServiceInstances l svc states).wantsToStart
      = if 0 < (instanceDeltas svc states).1 then 0
        else if 0 < (instanceDeltas svc states).2 then (instanceDeltas svc states).2 else 0 := by
  simp only [updateServiceInstances, gt_iff_lt]
  split_ifs with h1 h2
  · rfl
  · cases l.getHosts with
    | error e => rfl
    | ok hosts => by_cases hl : hosts.length = 0 <;> simp [hl]
  · rfl

/-- A pass with nothing to kill, something to start and a non-empty host list is a call of
`startServiceInstances`. -/
theorem updateServiceInstances_start (l : Leader) (svc : Service) (states : List ServiceState)
    (hosts : List Host) (h1 : ¬ 0 < (instanceDeltas svc states).1)
    (h2 : 0 < (instanceDeltas svc states).2) (hh : l.getHosts = .ok hosts) (hne : hosts ≠ []) :
    updateServiceInstances l svc states
      = { stopped := [], wantsToStart := (instanceDeltas svc states).2,
          started := (startServiceInstances l svc hosts (instanceDeltas svc states).2).1,
          err := (startServiceInstances l svc hosts (instanceDeltas svc states).2).2 } := by
  have hlen : hosts.length ≠ 0 := by simpa using hne
  simp [updateServiceInstances, h1, h2, hh, hlen]

/-- The states a pass adds are those of a call of `startServiceInstances` with
`numToStart = instancesToStart > 0`, or none. -/
theorem updateServiceInstances_started (l : Leader) (svc : Service)
    (states : List ServiceState) :
    (updateServiceInstances l svc states).started = [] ∨
      (¬ 0 < (instanceDeltas svc states).1 ∧ 0 < (instanceDeltas svc states).2 ∧
        ∃ hosts, (updateServiceInstances l svc states).started
          = (startServiceInstances l svc hosts (instanceDeltas svc states).2).1) := by
  simp only [updateServiceInstances, gt_iff_lt]
  split_ifs with h1 h2
  · exact Or.inl rfl
  · cases l.getHosts with
    | error e => exact Or.inl rfl
    | ok hosts =>
      by_cases hl : hosts.length = 0
      · simp [hl]
      · exact Or.inr ⟨h1, h2, hosts, by simp [hl]⟩
  · exact Or.inl rfl

/-- In a running service the reconciler pass is `updateServiceInstances`. -/
theorem watchServicePass_run (l : Leader) (svc : Service) (states : List ServiceState)
    (hrun : svc.DesiredState = SVCRun) :
    watchServicePass l svc states = updateServiceInstances l svc states := by
  simp [watchServicePass, hrun, SVCRun, SVCStop]

/-- For `numToStart ≥ 0`, `startServiceInstances` adds at most `numToStart` states. -/
theorem startServiceInstances_length_le (l : Leader) (svc : Service) (hosts : List Host)
    (numToStart : Int) (h0 : 0 ≤ numToStart) :
    ((startServiceInstances l svc hosts numToStart).1.length : Int) ≤ numToStart := by
  unfold startServiceInstances getFreeInstanceIDs
  cases hl : l.getServiceStates svc.ID with
  | error e => simpa using h0
  | ok states =>
    have hlen := (freeIDLoop_spec (states.map (fun s => s.InstanceID)) numToStart 0 []
      (le_refl _) (by simpa using h0) List.Pairwise.nil (by simp)
      (fun y hy0 hy _ => by omega)).1
    have := startLoop_length_le l svc hosts
      (freeIDLoop (states.map (fun s => s.InstanceID)) numToStart 0 []) 0
    simp only
    omega

/-- C5: for a running service with `restartAllOnInstanceChanged` and observed states with
nonnegative instance ids whose number differs from `Instances`, one pass tells every observed
state to stop (and, when there is any, starts nothing); a pass of the same service over the
empty observed list computes `instancesToKill = 0` and `instancesToStart = Instances`, stops
nothing, logs the wish to start `Instances` instances when `Instances ≥ 0`, and, when
`Instances > 0` and the registry reports a non-empty host list, calls `startServiceInstances`
with `numToStart = Instances`. -/
theorem restartAll_stops_all_then_starts (l : Leader) (svc : Service)
    (states : List ServiceState) (hrun : svc.DesiredState = SVCRun)
    (hopt : StringInSlice "restartAllOnInstanceChanged" svc.ChangeOptions = true)
    (hids : ∀ s ∈ states, 0 ≤ s.InstanceID)
    (hne : (states.length : Int) ≠ svc.Instances) :
    (watchServicePass l svc states).stopped = states ∧
      (states ≠ [] → (watchServicePass l svc states).started = []) ∧
      instanceDeltas svc [] = (0, svc.Instances) ∧
      (watchServicePass l svc []).stopped = [] ∧
      (0 ≤ svc.Instances → (watchServicePass l svc []).wantsToStart = svc.Instances) ∧
      (∀ hosts, l.getHosts = .ok hosts → hosts ≠ [] → 0 < svc.Instances →
        (watchServicePass l svc []).started
            = (startServiceInstances l svc hosts svc.Instances).1 ∧
          (watchServicePass l svc []).err
            = (startServiceInstances l svc hosts svc.Instances).2) := by
  have hempty : instanceDeltas svc [] = (0, svc.Instances) := by
    by_cases h0 : svc.Instances = 0
    · simp [instanceDeltas, h0]
    · have : ((([] : List ServiceState).length : Int)) ≠ svc.Instances := by
        simpa using fun h => h0 h.symm
      simpa using instanceDeltas_restartAll svc [] hopt this
  have hd := instanceDeltas_restartAll svc states hopt hne
  have hnokill : ¬ (0 : Int) < (instanceDeltas svc []).1 := by simp [hempty]
  rw [watchServicePass_run l svc states hrun, watchServicePass_run l svc [] hrun]
  refine ⟨?_, ?_, hempty, updateServiceInstances_stopped_nil l svc [] hnokill, ?_, ?_⟩
  · cases states with
    | nil => exact updateServiceInstances_stopped_nil l svc [] hnokill
    | cons a t =>
      have hpos : (0 : Int) < (instanceDeltas svc (a :: t)).1 := by
        rw [hd]; simp
      rw [updateServiceInstances_kill l svc (a :: t) hpos, hd]
      exact shutdownServiceInstances_all (a :: t) hids
  · intro hnil
    have hpos : (0 : Int) < (instanceDeltas svc states).1 := by
      rw [hd]
      cases states with
      | nil => exact absurd rfl hnil
      | cons a t => simp
    rw [updateServiceInstances_kill l svc states hpos]
  · intro h0
    rw [updateServiceInstances_wantsToStart, hempty]
    simp only [lt_self_iff_false, if_false]
    split_ifs with h
    · rfl
    · omega
  · intro hosts hh hne0 hpos
    have h2 : (0 : Int) < (instanceDeltas svc []).2 := by simpa [hempty] using hpos
    rw [updateServiceInstances_start l svc [] hosts hnokill h2 hh hne0, hempty]
    exact ⟨rfl, rfl⟩

/-- C5 at the restart-all scenario: three instances observed, `Instances = 2`. -/
theorem restartAll_stops_all_then_starts_witness :
    (watchServicePass (exampleLeader [])
        { exampleService 2 with ChangeOptions := ["restartAllOnInstanceChanged"] }
        [exampleState "a" 0, exampleState "b" 1, exampleState "c" 2]).stopped
      = [exampleState "a" 0, exampleState "b" 1, exampleState "c" 2] ∧
    (watchServicePass (exampleLeader [])
        { exampleService 2 with ChangeOptions := ["restartAllOnInstanceChanged"] }
        []).wantsToStart = 2 :=
  have h := restartAll_stops_all_then_starts (exampleLeader [])
    { exampleService 2 with ChangeOptions := ["restartAllOnInstanceChanged"] }
    [exampleState "a" 0, exampleState "b" 1, exampleState "c" 2]
    (by decide) (by decide) (by decide) (by decide)
  ⟨h.1, h.2.2.2.2.1 (by decide)⟩

/-- C6: for a running service and an observed list with `len(observed) = Instances`, one pass
tells no state to stop, wishes to start nothing and starts no instance, whatever the change
options are. -/
theorem equal_count_no_churn (l : Leader) (svc : Service) (states : List ServiceState)
    (hrun : svc.DesiredState = SVCRun) (hlen : (states.length : Int) = svc.Instances) :
    watchServicePass l svc states
      = { stopped := [], wantsToStart := 0, started := [], err := none } := by
  rw [watchServicePass_run l svc states hrun]
  simp [updateServiceInstances, instanceDeltas, hlen]

/-- C6 at the restart-all scenario: three instances observed, `Instances = 3`, with
`restartAllOnInstanceChanged`. -/
theorem equal_count_no_churn_witness :
    watchServicePass (exampleLeader [])
        { exampleService 3 with ChangeOptions := ["restartAllOnInstanceChanged"] }
        [exampleState "a" 0, exampleState "b" 1, exampleState "c" 2]
      = { stopped := [], wantsToStart := 0, started := [], err := none } :=
  equal_count_no_churn (exampleLeader [])
    { exampleService 3 with ChangeOptions := ["restartAllOnInstanceChanged"] }
    [exampleState "a" 0, exampleState "b" 1, exampleState "c" 2] (by decide) (by decide)

/-- Every id handed to `ServiceListener.stopServiceInstances` gets a `conn.Set` when the
reads succeed, and every host state written carries the desired state `SVCStop`. -/
theorem stopServiceInstances_all (getState : String → Except String ServiceState)
    (getHostState : String → String → Except String HostState) (stateIDs : List String)
    (hget : ∀ ssID ∈ stateIDs, ∃ state hs, getState ssID = .ok state ∧
      getHostState state.HostID ssID = .ok hs) :
    (stopServiceInstances getState getHostState stateIDs).length = stateIDs.length ∧
      ∀ w ∈ stopServiceInstances getState getHostState stateIDs,
        w.2.DesiredState = SVCStop := by
  induction stateIDs with
  | nil => simp [stopServiceInstances]
  | cons ssID rest ih =>
    obtain ⟨state, hs, h1, h2⟩ := hget ssID (List.mem_cons_self _ _)
    have ih2 := ih (fun x hx => hget x (List.mem_cons_of_mem _ hx))
    unfold stopServiceInstances
    simp only [h1, h2, List.length_cons, List.mem_cons]
    refine ⟨by rw [ih2.1], ?_⟩
    rintro w (hw | hw)
    · rw [hw]
    · exact ih2.2 w hw

/-- C7: for a service with desired state `SVCStop` and observed states with nonnegative
instance ids, the reconciler pass calls `shutdownServiceInstances` with
`numToKill = len(observed)`, which tells every observed state to stop, and starts none; the
service listener likewise writes `SVCStop` for every observed state id whose records it can
read. -/
theorem stop_service_stops_all (l : Leader) (svc : Service) (states : List ServiceState)
    (hstop : svc.DesiredState = SVCStop) (hids : ∀ s ∈ states, 0 ≤ s.InstanceID) :
    (watchServicePass l svc states).stopped
        = shutdownServiceInstances states states.length ∧
      (watchServicePass l svc states).stopped = states ∧
      (watchServicePass l svc states).wantsToStart = 0 ∧
      (watchServicePass l svc states).started = [] ∧
      (∀ (getState : String → Except String ServiceState)
          (getHostState : String → String → Except String HostState) (stateIDs : List String),
          (∀ ssID ∈ stateIDs, ∃ state hs, getState ssID = .ok state ∧
            getHostState state.HostID ssID = .ok hs) →
          (stopServiceInstances getState getHostState stateIDs).length = stateIDs.length ∧
            ∀ w ∈ stopServiceInstances getState getHostState stateIDs,
              w.2.DesiredState = SVCStop) := by
  have hpass : watchServicePass l svc states
      = { stopped := shutdownServiceInstances states states.length,
          wantsToStart := 0, started := [], err := none } := by
    simp [watchServicePass, hstop]
  rw [hpass]
  exact ⟨rfl, shutdownServiceInstances_all states hids, rfl, rfl,
    fun getState getHostState stateIDs h =>
      stopServiceInstances_all getState getHostState stateIDs h⟩

/-- C7 at three observed instances of a stopped service. -/
theorem stop_service_stops_all_witness :
    (watchServicePass (exampleLeader []) { exampleService 3 with DesiredState := SVCStop }
        [exampleState "a" 0, exampleState "b" 1, exampleState "c" 2]).stopped
      = [exampleState "a" 0, exampleState "b" 1, exampleState "c" 2] ∧
    (watchServicePass (exampleLeader []) { exampleService 3 with DesiredState := SVCStop }
        [exampleState "a" 0, exampleState "b" 1, exampleState "c" 2]).started = [] :=
  have h := stop_service_stops_all (exampleLeader [])
    { exampleService 3 with DesiredState := SVCStop }
    [exampleState "a" 0, exampleState "b" 1, exampleState "c" 2] (by decide) (by decide)
  ⟨h.2.1, h.2.2.2.1⟩

/-- C8: for a running service, whatever its change options and the observed list, one pass
wishes to start at most `max(0, Instances - len(observed))` instances and adds at most that
many states; a service with `Instances = 0` wishes to start nothing and starts nothing. -/
theorem starts_at_most_missing (l : Leader) (svc : Service) (states : List ServiceState)
    (hrun : svc.DesiredState = SVCRun) :
    (watchServicePass l svc states).wantsToStart
        ≤ max 0 (svc.Instances - (states.length : Int)) ∧
      ((watchServicePass l svc states).started.length : Int)
        ≤ max 0 (svc.Instances - (states.length : Int)) ∧
      (svc.Instances = 0 → (watchServicePass l svc states).wantsToStart = 0 ∧
        (watchServicePass l svc states).started = []) := by
  rw [watchServicePass_run l svc states hrun]
  have hlen0 : (0 : Int) ≤ (states.length : Int) := Int.natCast_nonneg _
  have hbound : ¬ 0 < (instanceDeltas svc states).1 → 0 < (instanceDeltas svc states).2 →
      (instanceDeltas svc states).2 ≤ svc.Instances - (states.length : Int) := by
    simp only [instanceDeltas]
    split_ifs with h1 h2 h3
    · intro hk _
      simp only at hk ⊢
      omega
    · intro _ _
      exact le_refl _
    · intro _ h
      simp at h
    · intro _ h
      simp at h
  have hwant : (updateServiceInstances l svc states).wantsToStart
      ≤ max 0 (svc.Instances - (states.length : Int)) := by
    rw [updateServiceInstances_wantsToStart]
    split_ifs with h1 h2
    · exact le_max_left _ _
    · exact le_trans (hbound h1 h2) (le_max_right _ _)
    · exact le_max_left _ _
  have hstart : ((updateServiceInstances l svc states).started.length : Int)
      ≤ max 0 (svc.Instances - (states.length : Int)) := by
    rcases updateServiceInstances_started l svc states with h | ⟨h1, h2, hosts, h⟩
    · rw [h]
      exact le_max_left _ _
    · rw [h]
      exact le_trans (startServiceInstances_length_le l svc hosts _ (le_of_lt h2))
        (le_trans (hbound h1 h2) (le_max_right _ _))
  refine ⟨hwant, hstart, fun h0 => ?_⟩
  have hmax : max 0 (svc.Instances - (states.length : Int)) = 0 := by
    rw [h0]
    exact max_eq_left (by omega)
  rw [hmax] at hwant hstart
  refine ⟨le_antisymm hwant ?_, ?_⟩
  · rw [updateServiceInstances_wantsToStart]
    split_ifs with h1 h2
    · exact le_refl _
    · exact le_of_lt h2
    · exact le_refl _
  · have : (updateServiceInstances l svc states).started.length = 0 := by omega
    exact List.length_eq_zero.1 this

/-- C8 at a running service with `Instances = 0` and nothing observed. -/
theorem starts_at_most_missing_witness :
    (watchServicePass (exampleLeader []) (exampleService 0) []).wantsToStart = 0 ∧
    (watchServicePass (exampleLeader []) (exampleService 0) []).started = [] :=
  (starts_at_most_missing (exampleLeader []) (exampleService 0) [] (by decide)).2.2 (by decide)

/-! ## Scale-up -/

/-- When every placement, state construction and node creation succeeds, the loop of
`startServiceInstances` adds one state per free id, carrying the ids in order, and returns no
error. -/
theorem startLoop_success (l : Leader) (svc : Service) (hosts : List Host)
    (hplace : ∀ k, ∃ h, selectPoolHostForService l k svc hosts = .ok h)
    (hbuild : ∀ k hostID, ∃ st, l.buildFromService k svc hostID = .ok st)
    (hadd : ∀ st, l.addServiceState st = .ok ())
    (freeids : List Int) (k : Nat) :
    (startLoop l svc hosts freeids k).1.map (fun s => s.InstanceID) = freeids ∧
      (startLoop l svc hosts freeids k).2 = none := by
  induction freeids generalizing k with
  | nil => simp [startLoop]
  | cons i rest ih =>
    obtain ⟨h, h1⟩ := hplace k
    obtain ⟨st, h2⟩ := hbuild k h.ID
    have h3 := hadd { st with HostIP := h.IPAddr, InstanceID := i }
    unfold startLoop
    simp only [h1, h2, h3, List.map_cons, (ih (k + 1)).1, (ih (k + 1)).2, and_self]

/-- The `N - m` smallest free ids over `m` used ids are all below `N`. -/
theorem free_ids_below (U ids : List Int) (N j : Int)
    (hlen : (ids.length : Int) = N - (U.length : Int))
    (hmem : ∀ x ∈ ids, 0 ≤ x ∧ x < j ∧ x ∉ U)
    (hall : ∀ y, 0 ≤ y → y < j → y ∉ U → y ∈ ids) :
    ∀ x ∈ ids, x < N := by
  intro x hx
  by_contra hge
  have hxN : N ≤ x := not_lt.1 hge
  have hsub : Finset.Ico (0 : Int) N ⊆ U.toFinset ∪ ids.toFinset.erase x := by
    intro y hy
    rw [Finset.mem_Ico] at hy
    rw [Finset.mem_union, Finset.mem_erase, List.mem_toFinset, List.mem_toFinset]
    by_cases hyU : y ∈ U
    · exact Or.inl hyU
    · have hxj := (hmem x hx).2.1
      exact Or.inr ⟨by omega, hall y hy.1 (by omega) hyU⟩
  have h1 := Finset.card_le_card hsub
  have h2 := Finset.card_union_le U.toFinset (ids.toFinset.erase x)
  have h3 := List.toFinset_card_le U
  have h4 := List.toFinset_card_le ids
  have h5 := Finset.card_erase_lt_of_mem (List.mem_toFinset.2 hx)
  rw [Int.card_Ico] at h1
  have h0 : 0 ≤ N := by
    have := Int.natCast_nonneg U.length
    have := Int.natCast_nonneg ids.length
    omega
  omega

/-- C3: for a running service without `restartAllOnInstanceChanged`, with `Instances = N`,
and `m < N` observed states whose instance ids are pairwise distinct and in `[0, N)`: when the
registry reports a non-empty host list, the state lookup of `getFreeInstanceIDs` returns the
observed states, and every placement, state construction and node creation succeeds, one pass
returns no error, stops nothing, adds exactly `N - m` states, and the instance ids of the
observed and the new states together are pairwise distinct and are exactly the integers of
`[0, N)`. -/
theorem scaleUp_fills_instance_ids (l : Leader) (svc : Service) (states : List ServiceState)
    (N : Int) (hosts : List Host) (hrun : svc.DesiredState = SVCRun)
    (hopt : StringInSlice "restartAllOnInstanceChanged" svc.ChangeOptions = false)
    (hinst : svc.Instances = N) (hm : (states.length : Int) < N)
    (hnodup : (states.map (fun s => s.InstanceID)).Nodup)
    (hrange : ∀ s ∈ states, 0 ≤ s.InstanceID ∧ s.InstanceID < N)
    (hhosts : l.getHosts = .ok hosts) (hne : hosts ≠ [])
    (hlookup : l.getServiceStates svc.ID = .ok states)
    (hplace : ∀ k, ∃ h, selectPoolHostForService l k svc hosts = .ok h)
    (hbuild : ∀ k hostID, ∃ st, l.buildFromService k svc hostID = .ok st)
    (hadd : ∀ st, l.addServiceState st = .ok ()) :
    (watchServicePass l svc states).err = none ∧
      (watchServicePass l svc states).stopped = [] ∧
      (((watchServicePass l svc states).started.length : Int) = N - (states.length : Int)) ∧
      ((states ++ (watchServicePass l svc states).started).map
        (fun s => s.InstanceID)).Nodup ∧
      (∀ j : Int, j ∈ (states ++ (watchServicePass l svc states).started).map
        (fun s => s.InstanceID) ↔ 0 ≤ j ∧ j < N) := by
  have hd : instanceDeltas svc states = (0, N - (states.length : Int)) := by
    have hne2 : ¬ ((states.length : Int) = N) := by omega
    simp [instanceDeltas, hopt, hinst, hm]
  have h1 : ¬ (0 : Int) < (instanceDeltas svc states).1 := by simp [hd]
  have h2 : (0 : Int) < (instanceDeltas svc states).2 := by
    rw [hd]
    show (0 : Int) < N - (states.length : Int)
    omega
  rw [watchServicePass_run l svc states hrun,
    updateServiceInstances_start l svc states hosts h1 h2 hhosts hne, hd]
  obtain ⟨f1, f2, j, _, f3, f4⟩ :=
    freeIDLoop_spec (states.map (fun s => s.InstanceID)) (N - (states.length : Int)) 0 []
      (le_refl _) (by simp; omega) List.Pairwise.nil (by simp) (fun y hy0 hy _ => by omega)
  have hstart : startServiceInstances l svc hosts (N - (states.length : Int))
      = startLoop l svc hosts
          (freeIDLoop (states.map (fun s => s.InstanceID)) (N - (states.length : Int)) 0 [])
          0 := by
    simp [startServiceInstances, getFreeInstanceIDs, hlookup]
  obtain ⟨g1, g2⟩ := startLoop_success l svc hosts hplace hbuild hadd
    (freeIDLoop (states.map (fun s => s.InstanceID)) (N - (states.length : Int)) 0 []) 0
  have hUr : ∀ x ∈ states.map (fun s => s.InstanceID), 0 ≤ x ∧ x < N := by
    intro x hx
    obtain ⟨s, hs, rfl⟩ := List.mem_map.1 hx
    exact hrange s hs
  have hbelow := free_ids_below (states.map (fun s => s.InstanceID))
    (freeIDLoop (states.map (fun s => s.InstanceID)) (N - (states.length : Int)) 0 []) N j
    (by simpa using f1) f3 f4
  have hall : (states ++ (startLoop l svc hosts
      (freeIDLoop (states.map (fun s => s.InstanceID)) (N - (states.length : Int)) 0 [])
      0).1).map (fun s => s.InstanceID)
      = states.map (fun s => s.InstanceID)
        ++ freeIDLoop (states.map (fun s => s.InstanceID)) (N - (states.length : Int)) 0 [] := by
    rw [List.map_append, g1]
  have hnd : (states.map (fun s => s.InstanceID)
      ++ freeIDLoop (states.map (fun s => s.InstanceID)) (N - (states.length : Int)) 0 []).Nodup := by
    rw [List.nodup_append]
    refine ⟨hnodup, f2.imp (fun h => ne_of_lt h), ?_⟩
    intro x hxU hxI
    exact (f3 x hxI).2.2 hxU
  have hlenall : ((states.map (fun s => s.InstanceID)
      ++ freeIDLoop (states.map (fun s => s.InstanceID)) (N - (states.length : Int)) 0 []).length
        : Int) = N := by
    rw [List.length_append, List.length_map]
    push_cast
    omega
  have hrall : ∀ x ∈ states.map (fun s => s.InstanceID)
      ++ freeIDLoop (states.map (fun s => s.InstanceID)) (N - (states.length : Int)) 0 [],
      0 ≤ x ∧ x < N := by
    intro x hx
    rcases List.mem_append.1 hx with h | h
    · exact hUr x h
    · exact ⟨(f3 x h).1, hbelow x h⟩
  have hfin := toFinset_eq_Ico_of_nodup _ N hnd hrall hlenall
  rw [hstart]
  refine ⟨g2, rfl, ?_, ?_, ?_⟩
  · have : ((startLoop l svc hosts
        (freeIDLoop (states.map (fun s => s.InstanceID)) (N - (states.length : Int)) 0 [])
        0).1.map (fun s => s.InstanceID)).length
        = (freeIDLoop (states.map (fun s => s.InstanceID))
            (N - (states.length : Int)) 0 []).length := by rw [g1]
    rw [List.length_map] at this
    show (((startLoop l svc hosts
        (freeIDLoop (states.map (fun s => s.InstanceID)) (N - (states.length : Int)) 0 [])
        0).1.length : Nat) : Int) = _
    rw [this]
    exact f1
  · show ((states ++ (startLoop l svc hosts _ 0).1).map (fun s => s.InstanceID)).Nodup
    rw [hall]
    exact hnd
  · intro x
    show x ∈ (states ++ (startLoop l svc hosts _ 0).1).map (fun s => s.InstanceID) ↔ _
    rw [hall, ← List.mem_toFinset, hfin, Finset.mem_Ico]

/-- C3 at the instance re-use scenario: `Instances = 3`, instance ids 0 and 2 observed. -/
theorem scaleUp_fills_instance_ids_witness :
    (((watchServicePass (exampleLeader [exampleState "a" 0, exampleState "c" 2])
        (exampleService 3) [exampleState "a" 0, exampleState "c" 2]).started.length : Int)
      = 3 - ([exampleState "a" 0, exampleState "c" 2].length : Int)) ∧
    (∀ j : Int, j ∈ ([exampleState "a" 0, exampleState "c" 2] ++
        (watchServicePass (exampleLeader [exampleState "a" 0, exampleState "c" 2])
          (exampleService 3) [exampleState "a" 0, exampleState "c" 2]).started).map
        (fun s => s.InstanceID) ↔ 0 ≤ j ∧ j < 3) :=
  have h := scaleUp_fills_instance_ids
    (exampleLeader [exampleState "a" 0, exampleState "c" 2]) (exampleService 3)
    [exampleState "a" 0, exampleState "c" 2] 3 [exampleH1, exampleH2]
    (by decide) (by decide) (by decide) (by decide) (by decide) (by decide) rfl (by decide) rfl
    (fun _ => ⟨exampleH1, rfl⟩) (fun _ _ => ⟨_, rfl⟩) (fun _ => rfl)
  ⟨h.2.2.1, h.2.2.2.2⟩

/-! ## Host selection -/

/-- C9 fails as stated: a service whose endpoint carries a static assignment that names no
host is placed by the policy (the result follows the policy, and no failure is reported
although no host has the id `""`); and a service with a virtual assignment on its first
endpoint and a static assignment to `H2` on its second is resolved through the virtual IP,
here failing although `H2` is in the host list. -/
theorem assigned_host_counterexample :
    (∃ ep ∈ exampleUnhostedService.Endpoints, ep.Assignment ≠ AddressAssignment.zero ∧
      ep.Assignment.AssignmentType ≠ "virtual" ∧ ep.Assignment.HostID = "") ∧
    (∀ h ∈ [exampleH1, exampleH2], h.ID ≠ "") ∧
    selectPoolHostForService (exampleLeader []) 0 exampleUnhostedService
        [exampleH1, exampleH2] = .ok exampleH1 ∧
    selectPoolHostForService
        { exampleLeader [] with selectHost := fun _ _ => .ok exampleH2 } 0
        exampleUnhostedService [exampleH1, exampleH2] = .ok exampleH2 ∧
    (∃ ep ∈ exampleTwoAssignmentService.Endpoints, ep.Assignment ≠ AddressAssignment.zero ∧
      ep.Assignment.AssignmentType ≠ "virtual" ∧ ep.Assignment.HostID = "H2") ∧
    exampleH2 ∈ [exampleH1, exampleH2] ∧ exampleH2.ID = "H2" ∧
    selectPoolHostForService (exampleLeader []) 0 exampleTwoAssignmentService
        [exampleH1, exampleH2] = .error "no owner" := by
  refine ⟨?_, by decide, rfl, rfl, ?_, by decide, rfl, rfl⟩
  · exact ⟨_, List.mem_singleton.2 rfl, by decide, by decide, rfl⟩
  · exact ⟨_, List.mem_cons_of_mem _ (List.mem_singleton.2 rfl), by decide, by decide, rfl⟩

/-- The function `poolHostFromAddressAssignments` returns the first host with the given id,
and fails exactly when no host has it. -/
theorem poolHostFromAddressAssignments_spec (hostid : String) (hosts : List Host) :
    (∀ h, poolHostFromAddressAssignments hostid hosts = .ok h →
      h ∈ hosts ∧ h.ID = hostid ∧ hosts.find? (fun x => x.ID == hostid) = some h) ∧
    ((∃ e, poolHostFromAddressAssignments hostid hosts = .error e) ↔
      ∀ h ∈ hosts, h.ID ≠ hostid) ∧
    ((∀ h ∈ hosts, h.ID ≠ hostid) →
      poolHostFromAddressAssignments hostid hosts = .error "assigned host is not in pool") := by
  unfold poolHostFromAddressAssignments
  cases hf : hosts.find? (fun x => x.ID == hostid) with
  | none =>
    have hnone : ∀ h ∈ hosts, h.ID ≠ hostid := by
      intro h hh
      have := List.find?_eq_none.1 hf h hh
      simpa using this
    refine ⟨fun h hh => by simp at hh, ⟨fun _ => hnone, fun _ => ⟨_, rfl⟩⟩, fun _ => rfl⟩
  | some h0 =>
    have hmem := List.mem_of_find?_eq_some hf
    have hid : h0.ID = hostid := by
      have := List.find?_some hf
      simpa using this
    refine ⟨fun h hh => ?_, ⟨fun ⟨e, he⟩ => by simp at he, fun hall => ?_⟩, fun hall => ?_⟩
    · simp only [Except.ok.injEq] at hh
      subst hh
      exact ⟨hmem, hid, rfl⟩
    · exact absurd hid (hall h0 hmem)
    · exact absurd hid (hall h0 hmem)

/-- C9, amended: when the first endpoint of the service that carries an address assignment
carries a non-virtual one with a non-empty host id, `selectPoolHostForService` returns the
first host of the list whose id equals that host id, fails with "assigned host is not in pool"
exactly when no host of the list has that id, and its result does not depend on the placement
policy or on the virtual-IP lookup. -/
theorem assigned_host_selected (l : Leader) (k : Nat) (s : Service) (hosts : List Host)
    (ep : ServiceEndpoint)
    (hfirst : s.Endpoints.find? (fun ep => ep.Assignment != AddressAssignment.zero) = some ep)
    (hnv : ep.Assignment.AssignmentType ≠ "virtual")
    (hid : ep.Assignment.HostID ≠ "") :
    (∀ h, selectPoolHostForService l k s hosts = .ok h →
      h ∈ hosts ∧ h.ID = ep.Assignment.HostID ∧
        hosts.find? (fun x => x.ID == ep.Assignment.HostID) = some h) ∧
    ((∃ e, selectPoolHostForService l k s hosts = .error e) ↔
      ∀ h ∈ hosts, h.ID ≠ ep.Assignment.HostID) ∧
    ((∀ h ∈ hosts, h.ID ≠ ep.Assignment.HostID) →
      selectPoolHostForService l k s hosts = .error "assigned host is not in pool") ∧
    (∀ (sel : Nat → List Host → Except String Host) (vip : String → Except String String),
      selectPoolHostForService { l with selectHost := sel, getVirtualIPHostID := vip } k s hosts
        = selectPoolHostForService l k s hosts) := by
  have hsel : ∀ l2 : Leader, selectPoolHostForService l2 k s hosts
      = poolHostFromAddressAssignments ep.Assignment.HostID hosts := by
    intro l2
    simp [selectPoolHostForService, hfirst, hnv, hid]
  have hspec := poolHostFromAddressAssignments_spec ep.Assignment.HostID hosts
  rw [hsel l]
  exact ⟨hspec.1, hspec.2.1, hspec.2.2, fun sel vip => hsel _⟩

/-- C9, amended, at a service with a static assignment to `H2`. -/
theorem assigned_host_selected_witness :
    selectPoolHostForService (exampleLeader []) 0 exampleStaticService [exampleH1, exampleH2]
        = .ok exampleH2 ∧
    ((∃ e, selectPoolHostForService (exampleLeader []) 0 exampleStaticService [exampleH1]
        = .error e) ↔ ∀ h ∈ [exampleH1], h.ID ≠ "H2") :=
  ⟨rfl, (assigned_host_selected (exampleLeader []) 0 exampleStaticService [exampleH1]
    { Name := "web", Assignment :=
        { ID := "A2", AssignmentType := "static", HostID := "H2", PoolID := "P1",
          IPAddr := "10.0.0.2", Port := 81, ServiceID := "S", EndpointName := "web" } }
    rfl (by decide) (by decide)).2.1⟩

/-- The preference of the policy is the strict lexicographic order on (ratio, host id). -/
theorem preferred_iff (services : List Service) (count : Service → Host → Nat) (a b : Host) :
    preferred services count a b = true ↔
      toLex (memoryRatio services count a, a.ID) < toLex (memoryRatio services count b, b.ID) := by
  rw [Prod.Lex.lt_iff]
  simp [preferred]

/-- The fold of `SelectHost` ends on a host of the list that is least in the lexicographic
order on (ratio, host id). -/
theorem SelectHost_fold_min (services : List Service) (count : Service → Host → Nat)
    (rest : List Host) (h : Host) :
    rest.foldl (fun best x => if preferred services count x best then x else best) h
        ∈ h :: rest ∧
      ∀ x ∈ h :: rest,
        toLex (memoryRatio services count
            (rest.foldl (fun best x => if preferred services count x best then x else best) h),
          (rest.foldl (fun best x => if preferred services count x best then x else best)
            h).ID)
          ≤ toLex (memoryRatio services count x, x.ID) := by
  induction rest generalizing h with
  | nil => simp
  | cons a t ih =>
    rw [List.foldl_cons]
    by_cases hp : preferred services count a h = true
    · rw [if_pos hp]
      obtain ⟨h1, h2⟩ := ih a
      refine ⟨List.mem_cons_of_mem _ h1, ?_⟩
      intro x hx
      rcases List.mem_cons.1 hx with rfl | hx
      · exact le_trans (h2 a (List.mem_cons_self _ _))
          (le_of_lt ((preferred_iff services count a x).1 hp))
      · exact h2 x hx
    · rw [if_neg hp]
      obtain ⟨h1, h2⟩ := ih h
      refine ⟨?_, ?_⟩
      · rcases List.mem_cons.1 h1 with h1 | h1
        · rw [h1]
          exact List.mem_cons_self _ _
        · exact List.mem_cons_of_mem _ (List.mem_cons_of_mem _ h1)
      · intro x hx
        rcases List.mem_cons.1 hx with rfl | hx
        · exact h2 x (List.mem_cons_self _ _)
        · rcases List.mem_cons.1 hx with rfl | hx
          · have hle : toLex (memoryRatio services count h, h.ID)
                ≤ toLex (memoryRatio services count x, x.ID) :=
              not_lt.1 (fun hlt => hp ((preferred_iff services count x h).2 hlt))
            exact le_trans (h2 h (List.mem_cons_self _ _)) hle
          · exact h2 x (List.mem_cons_of_mem _ hx)

/-- C10: for a service none of whose endpoints carries an address assignment, with the
placement policy as the spec words it, `selectPoolHostForService` fails on the empty host list
and on a non-empty one returns a host of the list whose ratio of committed memory to memory is
minimal, and whose id is lexicographically smallest among the hosts with that ratio. -/
theorem least_committed_host_selected (l : Leader) (k : Nat) (s : Service) (hosts : List Host)
    (services : List Service) (count : Service → Host → Nat)
    (hno : ∀ ep ∈ s.Endpoints, ep.Assignment = AddressAssignment.zero)
    (hpol : ∀ k hs, l.selectHost k hs = SelectHost services count hs) :
    (hosts = [] → selectPoolHostForService l k s hosts = .error "NoHosts") ∧
    (hosts ≠ [] → ∃ h, selectPoolHostForService l k s hosts = .ok h ∧ h ∈ hosts ∧
      ∀ x ∈ hosts, memoryRatio services count h ≤ memoryRatio services count x ∧
        (memoryRatio services count x = memoryRatio services count h → h.ID ≤ x.ID)) := by
  have hfind : s.Endpoints.find? (fun ep => ep.Assignment != AddressAssignment.zero) = none := by
    rw [List.find?_eq_none]
    intro ep hep
    simp [hno ep hep]
  have hsel : selectPoolHostForService l k s hosts = SelectHost services count hosts := by
    simp [selectPoolHostForService, hfind, hpol]
  rw [hsel]
  refine ⟨fun h => by rw [h]; rfl, fun hne => ?_⟩
  cases hosts with
  | nil => exact absurd rfl hne
  | cons h0 rest =>
    obtain ⟨h1, h2⟩ := SelectHost_fold_min services count rest h0
    refine ⟨_, rfl, h1, fun x hx => ?_⟩
    have hle := h2 x hx
    rw [Prod.Lex.le_iff] at hle
    rcases hle with hlt | ⟨heq, hid⟩
    · exact ⟨le_of_lt hlt, fun he => absurd he.symm (ne_of_lt hlt)⟩
    · exact ⟨le_of_eq heq, fun _ => hid⟩

/-- C10 at the placement scenario: `H1` (memory 8, committed 6) and `H2` (memory 8,
committed 2) give `H2`. -/
theorem least_committed_host_selected_witness :
    committedMemory [exampleRunning] exampleCount exampleH1 = 6 ∧
    committedMemory [exampleRunning] exampleCount exampleH2 = 2 ∧
    SelectHost [exampleRunning] exampleCount [exampleH1, exampleH2] = .ok exampleH2 ∧
    (∃ h, selectPoolHostForService
        { exampleLeader [] with selectHost := fun _ => SelectHost [exampleRunning] exampleCount }
        0 (exampleService 1) [exampleH1, exampleH2] = .ok h ∧ h ∈ [exampleH1, exampleH2] ∧
      ∀ x ∈ [exampleH1, exampleH2],
        memoryRatio [exampleRunning] exampleCount h
            ≤ memoryRatio [exampleRunning] exampleCount x ∧
          (memoryRatio [exampleRunning] exampleCount x
            = memoryRatio [exampleRunning] exampleCount h → h.ID ≤ x.ID)) :=
  ⟨by decide, by decide, by
    have h6 : memoryRatio [exampleRunning] exampleCount exampleH1 = 3 / 4 := by
      simp [memoryRatio, committedMemory, exampleRunning, exampleCount, exampleH1]
      norm_num
    have h2 : memoryRatio [exampleRunning] exampleCount exampleH2 = 1 / 4 := by
      simp [memoryRatio, committedMemory, exampleRunning, exampleCount, exampleH2]
      norm_num
    have hp : preferred [exampleRunning] exampleCount exampleH2 exampleH1 = true := by
      simp [preferred, h6, h2]
      norm_num
    simp [SelectHost, hp],
    (least_committed_host_selected
      { exampleLeader [] with selectHost := fun _ => SelectHost [exampleRunning] exampleCount }
      0 (exampleService 1) [exampleH1, exampleH2] [exampleRunning] exampleCount
      (by simp [exampleService]) (fun _ _ => rfl)).2 (by simp)⟩

/-! ## The pool facade -/

/-- A pool stored under an id is found by the lookup of that id. -/
theorem find_pool_of_mem (pools : List ResourcePool) (id : String)
    (h : ∃ p ∈ pools, p.ID = id) :
    ∃ q, pools.find? (fun p => p.ID == id) = some q := by
  cases hf : pools.find? (fun p => p.ID == id) with
  | some q => exact ⟨q, rfl⟩
  | none =>
    obtain ⟨p, hp, hid⟩ := h
    have := List.find?_eq_none.1 hf p hp
    simp [hid] at this

/-- After `Put`, the lookup of the entity's id finds the entity. -/
theorem find_poolStorePut (pools : List ResourcePool) (entity : ResourcePool) :
    (poolStorePut pools entity).find? (fun p => p.ID == entity.ID) = some entity := by
  unfold poolStorePut
  split_ifs with h
  · induction pools with
    | nil => simp at h
    | cons a t ih =>
      by_cases ha : a.ID = entity.ID
      · simp [List.find?_cons, ha]
      · have ht : t.any (fun p => p.ID == entity.ID) = true := by
          simpa [ha] using h
        simpa [List.find?_cons, ha] using ih ht
  · have hnone : pools.find? (fun p => p.ID == entity.ID) = none := by
      rw [List.find?_eq_none]
      intro x hx hxe
      exact h (List.any_eq_true.2 ⟨x, hx, hxe⟩)
    simp [List.find?_append, hnone]

/-- C15: when the pool store already holds a pool with the id of the entity,
`AddResourcePool` returns an error and leaves the facade, and with it the pool store and the
stored pool with its timestamps, unchanged. -/
theorem addResourcePool_existing_fails (f : Facade) (entity : ResourcePool) (now : Nat)
    (hex : ∃ p ∈ f.poolStore, p.ID = entity.ID) :
    (∃ e, (AddResourcePool f entity now).1 = some e) ∧
      (AddResourcePool f entity now).2 = f ∧
      (AddResourcePool f entity now).2.poolStore = f.poolStore := by
  obtain ⟨q, hq⟩ := find_pool_of_mem f.poolStore entity.ID hex
  unfold AddResourcePool GetResourcePool
  cases hg : f.poolGetErr entity.ID with
  | some e => exact ⟨⟨e, rfl⟩, rfl, rfl⟩
  | none =>
    simp [hq]

/-- C15 at a store that holds the pool `P`. -/
theorem addResourcePool_existing_fails_witness :
    (AddResourcePool (exampleFacade [poolNew "P"] []) (poolNew "P") 7).1
      = some "pool already exists: P" ∧
    (AddResourcePool (exampleFacade [poolNew "P"] []) (poolNew "P") 7).2.poolStore
      = [poolNew "P"] :=
  ⟨rfl, (addResourcePool_existing_fails (exampleFacade [poolNew "P"] []) (poolNew "P") 7
    ⟨poolNew "P", List.mem_singleton.2 rfl, rfl⟩).2.2⟩

/-- C16: when at least one host is in the pool, `RemoveResourcePool` returns an error and
leaves the facade, and with it the pool store, unchanged. -/
theorem removeResourcePool_with_hosts_fails (f : Facade) (id : String)
    (hhost : ∃ h ∈ f.hostStore, h.PoolID = id) :
    (∃ e, (RemoveResourcePool f id).1 = some e) ∧
      (RemoveResourcePool f id).2 = f ∧
      (RemoveResourcePool f id).2.poolStore = f.poolStore := by
  unfold RemoveResourcePool FindHostsInPool FindHostsWithPoolID
  cases hg : f.hostFindErr id with
  | some e => exact ⟨⟨_, rfl⟩, rfl, rfl⟩
  | none =>
    obtain ⟨h, hh, hid⟩ := hhost
    have hmem : h ∈ f.hostStore.filter (fun h => h.PoolID == id) := by
      simp [List.mem_filter, hh, hid]
    have hpos : (f.hostStore.filter (fun h => h.PoolID == id)).length > 0 :=
      List.length_pos_of_mem hmem
    simp [hpos]

/-- C16 at the pool `P` with one host. -/
theorem removeResourcePool_with_hosts_fails_witness :
    (RemoveResourcePool (exampleFacade [poolNew "P"] [exampleHostA]) "P").1
      = some "cannot delete resource pool with hosts" ∧
    (RemoveResourcePool (exampleFacade [poolNew "P"] [exampleHostA]) "P").2.poolStore
      = [poolNew "P"] :=
  ⟨rfl, (removeResourcePool_with_hosts_fails (exampleFacade [poolNew "P"] [exampleHostA]) "P"
    ⟨exampleHostA, List.mem_singleton.2 rfl, rfl⟩).2.2⟩

/-- The memory loop of `calcPoolCapacity` computes the sum of the memories modulo `2^64`. -/
theorem foldl_memCapacity (hosts : List Host) (a : Nat) :
    hosts.foldl (fun m h => wrapUint64 (m + h.Memory)) (wrapUint64 a)
      = wrapUint64 (a + (hosts.map (fun h => h.Memory)).sum) := by
  induction hosts generalizing a with
  | nil => simp
  | cons h t ih =>
    have hstep : wrapUint64 (wrapUint64 a + h.Memory) = wrapUint64 (a + h.Memory) := by
      unfold wrapUint64
      exact Nat.mod_add_mod _ _ _
    rw [List.foldl_cons, hstep, ih, List.map_cons, List.sum_cons, Nat.add_assoc]

/-- The core loop of `calcPoolCapacity` computes the sum of the cores wrapped to 64 bits. -/
theorem foldl_coreCapacity (hosts : List Host) (a : Int) :
    hosts.foldl (fun c h => wrapInt64 (c + h.Cores)) (wrapInt64 a)
      = wrapInt64 (a + (hosts.map (fun h => h.Cores)).sum) := by
  induction hosts generalizing a with
  | nil => simp
  | cons h t ih =>
    have hstep : wrapInt64 (wrapInt64 a + h.Cores) = wrapInt64 (a + h.Cores) := by
      unfold wrapInt64
      norm_num
      omega
    rw [List.foldl_cons, hstep, ih, List.map_cons, List.sum_cons, add_assoc]

/-- C17 fails as stated: for a stored pool with two hosts of `2^63` bytes of memory each,
`GetResourcePool` returns the memory capacity 0, not the sum `2^64`. -/
theorem poolCapacity_counterexample :
    (((exampleFacade [poolNew "P"] [exampleBigHost "h1", exampleBigHost "h2"]).hostStore.filter
        (fun h => h.PoolID == "P")).map (fun h => h.Memory)).sum = 18446744073709551616 ∧
    ∃ pool, GetResourcePool
        (exampleFacade [poolNew "P"] [exampleBigHost "h1", exampleBigHost "h2"]) "P"
        = .ok (some pool) ∧ pool.MemoryCapacity = 0 ∧ pool.CoreCapacity = 8 := by
  refine ⟨by decide, _, rfl, by decide, by decide⟩

/-- C17, amended: for a stored pool whose hosts the host store finds, `GetResourcePool`
returns the stored pool with `MemoryCapacity` set to the sum of the memories of the hosts of
the pool modulo `2^64` and `CoreCapacity` set to the sum of their cores wrapped into the
64-bit `int` range; these are the plain sums whenever the sums fit into the two types. -/
theorem poolCapacity_sums (f : Facade) (id : String) (stored : ResourcePool)
    (hget : f.poolGetErr id = none)
    (hstored : f.poolStore.find? (fun p => p.ID == id) = some stored)
    (hfind : f.hostFindErr stored.ID = none) :
    ∃ pool, GetResourcePool f id = .ok (some pool) ∧
      pool = { stored with
        CoreCapacity := wrapInt64
          ((f.hostStore.filter (fun h => h.PoolID == stored.ID)).map (fun h => h.Cores)).sum,
        MemoryCapacity := wrapUint64
          ((f.hostStore.filter (fun h => h.PoolID == stored.ID)).map (fun h => h.Memory)).sum } ∧
      (((f.hostStore.filter (fun h => h.PoolID == stored.ID)).map (fun h => h.Memory)).sum
          < 2 ^ 64 →
        pool.MemoryCapacity
          = ((f.hostStore.filter (fun h => h.PoolID == stored.ID)).map (fun h => h.Memory)).sum) ∧
      (-(2 : Int) ^ 63 ≤
          ((f.hostStore.filter (fun h => h.PoolID == stored.ID)).map (fun h => h.Cores)).sum →
        ((f.hostStore.filter (fun h => h.PoolID == stored.ID)).map (fun h => h.Cores)).sum
          < (2 : Int) ^ 63 →
        pool.CoreCapacity
          = ((f.hostStore.filter (fun h => h.PoolID == stored.ID)).map (fun h => h.Cores)).sum) := by
  have hm := foldl_memCapacity (f.hostStore.filter (fun h => h.PoolID == stored.ID)) 0
  have hc := foldl_coreCapacity (f.hostStore.filter (fun h => h.PoolID == stored.ID)) 0
  have hm0 : wrapUint64 0 = 0 := by decide
  have hc0 : wrapInt64 0 = 0 := by decide
  rw [hm0, Nat.zero_add] at hm
  rw [hc0, zero_add] at hc
  refine ⟨_, ?_, rfl, ?_, ?_⟩
  · simp [GetResourcePool, hget, hstored, calcPoolCapacity, FindHostsWithPoolID, hfind, hm, hc]
  · intro hlt
    show wrapUint64 _ = _
    unfold wrapUint64
    exact Nat.mod_eq_of_lt hlt
  · intro hlo hhi
    show wrapInt64 _ = _
    unfold wrapInt64
    norm_num at hlo hhi ⊢
    omega

/-- C17, amended, at the pool `P` with one host of 4 cores and 16 units of memory. -/
theorem poolCapacity_sums_witness :
    ∃ pool, GetResourcePool (exampleFacade [poolNew "P"] [exampleHostA]) "P" = .ok (some pool) ∧
      pool.MemoryCapacity = 16 ∧ pool.CoreCapacity = 4 := by
  obtain ⟨pool, h1, h2, _, _⟩ :=
    poolCapacity_sums (exampleFacade [poolNew "P"] [exampleHostA]) "P" (poolNew "P") rfl rfl rfl
  refine ⟨pool, h1, ?_, ?_⟩
  · rw [h2]
    decide
  · rw [h2]
    decide

/-- When the default pool is stored and the store answers the read, `CreateDefaultPool`
returns no error and changes nothing. -/
theorem CreateDefaultPool_existing (f : Facade) (now : Nat) (q : ResourcePool)
    (hget : f.poolGetErr defaultPoolID = none)
    (hq : f.poolStore.find? (fun p => p.ID == defaultPoolID) = some q) :
    CreateDefaultPool f now = (none, f) := by
  simp [CreateDefaultPool, GetResourcePool, hget, hq]

/-- A call of `AddResourcePool` either returns an error and changes nothing, or returns no
error after the store answered the read and puts a document with the id of the entity. -/
theorem AddResourcePool_cases (f : Facade) (entity : ResourcePool) (now : Nat) :
    (∃ e, AddResourcePool f entity now = (some e, f)) ∨
      (f.poolGetErr entity.ID = none ∧
        ∃ stamped, stamped.ID = entity.ID ∧
          AddResourcePool f entity now
            = (none, { f with poolStore := poolStorePut f.poolStore stamped })) := by
  unfold AddResourcePool GetResourcePool
  cases hg : f.poolGetErr entity.ID with
  | some e => exact Or.inl ⟨e, rfl⟩
  | none =>
    cases hf : f.poolStore.find? (fun p => p.ID == entity.ID) with
    | some q => exact Or.inl ⟨_, rfl⟩
    | none =>
      simp only
      cases hb : f.beforeEvent "BeforePoolAdd" entity with
      | some e => exact Or.inl ⟨e, rfl⟩
      | none =>
        simp only
        split
        · exact Or.inl ⟨_, rfl⟩
        · exact Or.inr ⟨trivial,
            { entity with CreatedAt := now, UpdatedAt := now }, rfl, rfl⟩

/-- C18: when a pool with id "default" is stored (and the store answers the read),
`CreateDefaultPool` returns no error and leaves the facade unchanged; a call that returns an
error changes nothing, and after a call that returned no error a second call returns no error
and leaves the facade, and so every stored pool with its content and timestamps, as the first
call left it. -/
theorem createDefaultPool_idempotent (f : Facade) (now now2 : Nat) :
    ((∃ p ∈ f.poolStore, p.ID = "default") → f.poolGetErr "default" = none →
        CreateDefaultPool f now = (none, f)) ∧
      ((CreateDefaultPool f now).1 = none →
        CreateDefaultPool (CreateDefaultPool f now).2 now2
          = (none, (CreateDefaultPool f now).2)) ∧
      (∀ e, (CreateDefaultPool f now).1 = some e → (CreateDefaultPool f now).2 = f) := by
  have hex : (∃ p ∈ f.poolStore, p.ID = "default") → f.poolGetErr "default" = none →
      ∀ n, CreateDefaultPool f n = (none, f) := by
    intro hex hget n
    obtain ⟨q, hq⟩ := find_pool_of_mem f.poolStore "default" hex
    exact CreateDefaultPool_existing f n q hget hq
  refine ⟨fun h1 h2 => hex h1 h2 now, ?_⟩
  cases hg : f.poolGetErr defaultPoolID with
  | some e =>
    have h1 : CreateDefaultPool f now
        = (some ("could not create default pool: " ++ e), f) := by
      simp [CreateDefaultPool, GetResourcePool, hg]
    rw [h1]
    simp
  | none =>
    cases hf : f.poolStore.find? (fun p => p.ID == defaultPoolID) with
    | some q =>
      rw [CreateDefaultPool_existing f now q hg hf]
      exact ⟨fun _ => CreateDefaultPool_existing f now2 q hg hf, fun e he => rfl⟩
    | none =>
      have hadd : CreateDefaultPool f now = AddResourcePool f (poolNew defaultPoolID) now := by
        simp [CreateDefaultPool, GetResourcePool, hg, hf]
      rw [hadd]
      rcases AddResourcePool_cases f (poolNew defaultPoolID) now with ⟨e, he⟩ | ⟨_, st, hid, hst⟩
      · rw [he]
        simp
      · rw [hst]
        have hid2 : st.ID = defaultPoolID := hid
        have hfind := find_poolStorePut f.poolStore st
        rw [hid2] at hfind
        refine ⟨fun _ => ?_, fun e he => by simp at he⟩
        exact CreateDefaultPool_existing _ now2 st hg hfind

/-- C18 at a store that holds the default pool, and at the empty store. -/
theorem createDefaultPool_idempotent_witness :
    CreateDefaultPool (exampleFacade [poolNew "default"] []) 5
        = (none, exampleFacade [poolNew "default"] []) ∧
    (CreateDefaultPool (CreateDefaultPool (exampleFacade [] []) 5).2 9).2.poolStore
      = [{ poolNew "default" with CreatedAt := 5, UpdatedAt := 5 }] :=
  ⟨(createDefaultPool_idempotent (exampleFacade [poolNew "default"] []) 5 9).1
      ⟨poolNew "default", List.mem_singleton.2 rfl, rfl⟩ rfl,
    rfl⟩

/-! ## The proxy registry -/

/-- Deleting a key from the entries removes that key and keeps every other one. -/
theorem lookup_filter_key (entries : List (String × Proxy)) (key k : String) :
    (entries.filter (fun kv => !(kv.1 == key))).lookup k
      = if k = key then none else entries.lookup k := by
  induction entries with
  | nil => simp
  | cons a t ih =>
    obtain ⟨ak, av⟩ := a
    by_cases h1 : ak = key
    · subst h1
      by_cases h2 : k = ak
      · subst h2
        simpa [List.filter_cons] using ih
      · have h3 : (k == ak) = false := by simpa using h2
        simp only [List.filter_cons, beq_self_eq_true, Bool.not_true, List.lookup_cons, h3]
        simpa [h2] using ih
    · have h3 : (ak == key) = false := by simpa using h1
      simp only [List.filter_cons, h3, Bool.not_false, if_true, List.lookup_cons]
      by_cases h2 : k = ak
      · subst h2
        simp [h1]
      · have h4 : (k == ak) = false := by simpa using h2
        simp only [h4]
        exact ih

/-- C19: for a key that is already registered, `CreateProxy` returns an error, makes no call
(in particular none to the proxy factory), and leaves the registry unchanged. -/
theorem createProxy_registered_fails (pr : proxyRegistry) (key protocol : String)
    (frontend : ProxyAddress) (backEnds : List ProxyAddress) (p : Proxy)
    (hreg : pr.registry.lookup key = some p) :
    (pr.CreateProxy key protocol frontend backEnds).1
        = some ("proxy already registered for " ++ key) ∧
      (pr.CreateProxy key protocol frontend backEnds).2.2 = [] ∧
      (pr.CreateProxy key protocol frontend backEnds).2.1 = pr ∧
      (pr.CreateProxy key protocol frontend backEnds).2.1.registry = pr.registry := by
  simp [proxyRegistry.CreateProxy, hreg]

/-- C19 at the key `S:web` of the example registry. -/
theorem createProxy_registered_fails_witness :
    (exampleRegistry.CreateProxy "S:web" "tcp" { IP := "10.0.0.5", Port := 80 }
        [{ IP := "172.17.0.2", Port := 8080 }]).1 = some "proxy already registered for S:web" ∧
    (exampleRegistry.CreateProxy "S:web" "tcp" { IP := "10.0.0.5", Port := 80 }
        [{ IP := "172.17.0.2", Port := 8080 }]).2.2 = [] ∧
    (exampleRegistry.CreateProxy "S:web" "tcp" { IP := "10.0.0.5", Port := 80 }
        [{ IP := "172.17.0.2", Port := 8080 }]).2.1.registry = [("S:web", exampleProxy "p1")] :=
  have h := createProxy_registered_fails exampleRegistry "S:web" "tcp"
    { IP := "10.0.0.5", Port := 80 } [{ IP := "172.17.0.2", Port := 8080 }]
    (exampleProxy "p1") rfl
  ⟨h.1, h.2.1, h.2.2.2⟩

/-- C20: when key `k` is registered to proxy `p`, `RemoveProxy(k)` returns `p` together with
the result of `p.Close()`, calls `Close` on `p` and nothing else, and leaves a registry
without `k` in which every other key is registered as before; for a key that is not
registered it returns no proxy and no error, makes no call and leaves the registry
unchanged. -/
theorem removeProxy_frame (pr : proxyRegistry) (k : String) :
    (∀ p, pr.registry.lookup k = some p →
      (pr.RemoveProxy k).1 = (some p, p.closeErr) ∧
        (pr.RemoveProxy k).2.2 = [ProxyCall.close p] ∧
        (pr.RemoveProxy k).2.1.registry.lookup k = none ∧
        (∀ k2, k2 ≠ k → (pr.RemoveProxy k).2.1.registry.lookup k2 = pr.registry.lookup k2) ∧
        (pr.RemoveProxy k).2.1.proxyFactory = pr.proxyFactory) ∧
    (pr.registry.lookup k = none →
      (pr.RemoveProxy k).1 = (none, none) ∧ (pr.RemoveProxy k).2.2 = [] ∧
        (pr.RemoveProxy k).2.1 = pr) := by
  refine ⟨fun p hp => ?_, fun hn => ?_⟩
  · have hr : pr.RemoveProxy k = ((some p, p.closeErr),
        { pr with registry := pr.registry.filter (fun kv => !(kv.1 == k)) },
        [ProxyCall.close p]) := by
      simp [proxyRegistry.RemoveProxy, hp]
    rw [hr]
    refine ⟨rfl, rfl, ?_, fun k2 hk2 => ?_, rfl⟩
    · rw [lookup_filter_key]
      simp
    · rw [lookup_filter_key]
      simp [hk2]
  · simp [proxyRegistry.RemoveProxy, hn]

/-- C20 at the example registry: the key `S:web` and the unregistered key `S:db`. -/
theorem removeProxy_frame_witness :
    (exampleRegistry.RemoveProxy "S:web").1 = (some (exampleProxy "p1"), none) ∧
    (exampleRegistry.RemoveProxy "S:web").2.2 = [ProxyCall.close (exampleProxy "p1")] ∧
    (exampleRegistry.RemoveProxy "S:web").2.1.registry.lookup "S:web" = none ∧
    (exampleRegistry.RemoveProxy "S:db").1 = (none, none) ∧
    (exampleRegistry.RemoveProxy "S:db").2.1 = exampleRegistry :=
  have h := removeProxy_frame exampleRegistry "S:web"
  have h2 := (removeProxy_frame exampleRegistry "S:db").2 rfl
  ⟨(h.1 (exampleProxy "p1") rfl).1, (h.1 (exampleProxy "p1") rfl).2.1,
    (h.1 (exampleProxy "p1") rfl).2.2.1, h2.1, h2.2.2⟩

/-! ## Virtual IPs of a pool -/

/-- The method `calcPoolCapacity` keeps the id and the virtual IPs of the pool. -/
theorem calcPoolCapacity_keeps (f : Facade) (p : ResourcePool) :
    (calcPoolCapacity f p).1.ID = p.ID ∧
      (calcPoolCapacity f p).1.VirtualIPs = p.VirtualIPs := by
  unfold calcPoolCapacity
  split <;> exact ⟨rfl, rfl⟩

/-- A pool returned by `GetResourcePool` is a stored pool of that id with its capacities
set, read without error. -/
theorem GetResourcePool_some (f : Facade) (id : String) (cur : ResourcePool)
    (h : GetResourcePool f id = .ok (some cur)) :
    f.poolGetErr id = none ∧ cur.ID = id ∧
      ∃ p, f.poolStore.find? (fun p => p.ID == id) = some p ∧
        cur = (calcPoolCapacity f p).1 ∧ cur.VirtualIPs = p.VirtualIPs := by
  unfold GetResourcePool at h
  cases hg : f.poolGetErr id with
  | some e => simp [hg] at h
  | none =>
    cases hf : f.poolStore.find? (fun p => p.ID == id) with
    | none => simp [hg, hf] at h
    | some p =>
      simp only [hg, hf, Except.ok.injEq, Option.some.injEq] at h
      have hid : p.ID = id := by simpa using List.find?_some hf
      refine ⟨rfl, ?_, p, rfl, h.symm, ?_⟩
      · rw [← h, (calcPoolCapacity_keeps f p).1, hid]
      · rw [← h, (calcPoolCapacity_keeps f p).2]

/-- The duplicate check passes exactly when the IPs are pairwise distinct and none was seen
before. -/
theorem duplicateVirtualIP_none (seen : List String) (l : List VirtualIP) :
    duplicateVirtualIP seen l = none ↔
      (l.map (fun v => v.IP)).Nodup ∧ ∀ v ∈ l, v.IP ∉ seen := by
  induction l generalizing seen with
  | nil => simp [duplicateVirtualIP]
  | cons a t ih =>
    unfold duplicateVirtualIP
    by_cases ha : a.IP ∈ seen
    · simp [ha]
    · rw [if_neg ha, ih]
      constructor
      · rintro ⟨hnd, hns⟩
        refine ⟨?_, ?_⟩
        · rw [List.map_cons, List.nodup_cons]
          refine ⟨?_, hnd⟩
          intro hmem
          obtain ⟨x, hx, hxa⟩ := List.mem_map.1 hmem
          exact hns x hx (by rw [hxa]; exact List.mem_cons_self _ _)
        · intro v hv
          rcases List.mem_cons.1 hv with rfl | hv
          · exact ha
          · exact fun hvs => hns v hv (List.mem_cons_of_mem _ hvs)
      · rintro ⟨hnd, hns⟩
        rw [List.map_cons, List.nodup_cons] at hnd
        refine ⟨hnd.2, fun v hv hvs => ?_⟩
        rcases List.mem_cons.1 hvs with hvs | hvs
        · exact hnd.1 (List.mem_map.2 ⟨v, hv, hvs⟩)
        · exact hns v (List.mem_cons_of_mem _ hv) hvs

/-- When the validation of the new virtual IPs passes, every proposed virtual IP either has
the IP of a current one, or parses (IP and netmask) and is not found in its own pool. -/
theorem validateNewVirtualIPs_none (f : Facade) (cur : ResourcePool) (l : List VirtualIP)
    (h : validateNewVirtualIPs f cur l = none) :
    ∀ v ∈ l, (∃ c ∈ cur.VirtualIPs, c.IP = v.IP) ∨
      (f.parseIP v.IP = true ∧ f.parseIP v.Netmask = true ∧ virtualIPExists f v = .ok false) := by
  induction l with
  | nil => simp
  | cons a t ih =>
    unfold validateNewVirtualIPs at h
    by_cases hc : cur.VirtualIPs.any (fun virtualIP => virtualIP.IP == a.IP) = true
    · rw [if_pos hc] at h
      intro v hv
      rcases List.mem_cons.1 hv with rfl | hv
      · obtain ⟨c, hc1, hc2⟩ := List.any_eq_true.1 hc
        exact Or.inl ⟨c, hc1, by simpa using hc2⟩
      · exact ih h v hv
    · rw [if_neg hc] at h
      have hip : f.parseIP a.IP = true := by
        by_contra hn
        simp [IsIP, hn] at h
      have hmask : f.parseIP a.Netmask = true := by
        by_contra hn
        simp [IsIP, hip, hn] at h
      simp only [IsIP, hip, hmask] at h
      cases hx : virtualIPExists f a with
      | error e => simp [hx] at h
      | ok b =>
        cases b with
        | true => simp [hx] at h
        | false =>
          simp only [hx] at h
          intro v hv
          rcases List.mem_cons.1 hv with rfl | hv
          · exact Or.inr ⟨hip, hmask, hx⟩
          · exact ih (by simpa using h) v hv

/-- The validation of the new virtual IPs passes when every proposed IP is a current one. -/
theorem validateNewVirtualIPs_of_current (f : Facade) (cur : ResourcePool)
    (l : List VirtualIP) (h : ∀ v ∈ l, ∃ c ∈ cur.VirtualIPs, c.IP = v.IP) :
    validateNewVirtualIPs f cur l = none := by
  induction l with
  | nil => rfl
  | cons a t ih =>
    unfold validateNewVirtualIPs
    obtain ⟨c, hc1, hc2⟩ := h a (List.mem_cons_self _ _)
    have hc : cur.VirtualIPs.any (fun virtualIP => virtualIP.IP == a.IP) = true :=
      List.any_eq_true.2 ⟨c, hc1, by simpa using hc2⟩
    rw [if_pos hc]
    exact ih (fun v hv => h v (List.mem_cons_of_mem _ hv))

/-- The host IPs collected by `GetPoolIPs` are the IPs of the hosts. -/
theorem mem_foldl_hostIPs (hosts : List Host) (acc : List HostIPResource)
    (r : HostIPResource) :
    r ∈ hosts.foldl (fun acc h => acc ++ h.IPs) acc ↔ r ∈ acc ∨ ∃ h ∈ hosts, r ∈ h.IPs := by
  induction hosts generalizing acc with
  | nil => simp
  | cons a t ih =>
    rw [List.foldl_cons, ih]
    simp only [List.mem_append, List.mem_cons, exists_eq_or_imp]
    tauto

/-- A virtual IP that `virtualIPExists` does not find equals no static IP of a host of its
pool. -/
theorem virtualIPExists_false (f : Facade) (v : VirtualIP)
    (h : virtualIPExists f v = .ok false) :
    ∀ host ∈ f.hostStore, host.PoolID = v.PoolID → ∀ r ∈ host.IPs, r.IPAddress ≠ v.IP := by
  unfold virtualIPExists GetPoolIPs FindHostsInPool FindHostsWithPoolID at h
  cases hg : f.hostFindErr v.PoolID with
  | some e => simp [hg] at h
  | none =>
    simp only [hg] at h
    cases hp : GetResourcePool f v.PoolID with
    | error e => simp [hp] at h
    | ok o =>
      cases o with
      | none => simp [hp] at h
      | some myPool =>
        simp only [hp] at h
        intro host hhost hpool r hr heq
        have h2 : ((f.hostStore.filter (fun h => h.PoolID == v.PoolID)).foldl
            (fun acc h => acc ++ h.IPs) []).any
            (fun staticIP => v.IP == staticIP.IPAddress) = true := by
          rw [List.any_eq_true]
          refine ⟨r, ?_, by simp [heq]⟩
          rw [mem_foldl_hostIPs]
          exact Or.inr ⟨host, by simp [List.mem_filter, hhost, hpool], hr⟩
        simp [h2] at h

/-- A call of `UpdateResourcePool` either returns an error and changes nothing, or passed the
validation and puts the entity with its update time. -/
theorem UpdateResourcePool_cases (f : Facade) (entity : ResourcePool) (now : Nat) :
    (∃ e, UpdateResourcePool f entity now = (some e, f)) ∨
      (validateVirtualIPs f entity = none ∧
        UpdateResourcePool f entity now
          = (none, { f with
              poolStore := poolStorePut f.poolStore { entity with UpdatedAt := now } })) := by
  unfold UpdateResourcePool
  cases hv : validateVirtualIPs f entity with
  | some e => exact Or.inl ⟨e, rfl⟩
  | none =>
    simp only
    cases hb : f.beforeEvent "BeforePoolUpdate" entity with
    | some e => exact Or.inl ⟨e, rfl⟩
    | none =>
      simp only
      split
      · exact Or.inl ⟨_, rfl⟩
      · exact Or.inr ⟨trivial, rfl⟩

/-- What a passed validation says when `VirtualIPsEqual` reported a difference: the proposed
IPs are pairwise distinct, and each is a current one or passed the checks for new ones. -/
theorem validateVirtualIPs_none (f : Facade) (entity cur : ResourcePool)
    (hcur : GetResourcePool f entity.ID = .ok (some cur))
    (hne : f.virtualIPsEqual cur entity = false)
    (h : validateVirtualIPs f entity = none) :
    (entity.VirtualIPs.map (fun v => v.IP)).Nodup ∧
      ∀ v ∈ entity.VirtualIPs, (∃ c ∈ cur.VirtualIPs, c.IP = v.IP) ∨
        (f.parseIP v.IP = true ∧ f.parseIP v.Netmask = true ∧
          virtualIPExists f v = .ok false) := by
  unfold validateVirtualIPs at h
  simp only [hcur, hne, if_true] at h
  cases hd : duplicateVirtualIP [] entity.VirtualIPs with
  | some ip => simp [hd] at h
  | none =>
    simp only [hd] at h
    exact ⟨((duplicateVirtualIP_none [] entity.VirtualIPs).1 hd).1,
      validateNewVirtualIPs_none f cur entity.VirtualIPs h⟩

/-- A call of `AddVirtualIP` either returns an error and changes nothing, or returns no
error. -/
theorem AddVirtualIP_cases (f : Facade) (v : VirtualIP) (now : Nat) :
    (∃ e, AddVirtualIP f v now = (some e, f)) ∨ (∃ f1, AddVirtualIP f v now = (none, f1)) := by
  unfold AddVirtualIP
  cases hg : GetResourcePool f v.PoolID with
  | error e => exact Or.inl ⟨e, rfl⟩
  | ok o =>
    cases o with
    | none => exact Or.inl ⟨_, rfl⟩
    | some myPool =>
      simp only
      rcases UpdateResourcePool_cases f
        { myPool with VirtualIPs := myPool.VirtualIPs ++ [v] } now with ⟨e, he⟩ | ⟨_, hs⟩
      · exact Or.inl ⟨e, he⟩
      · exact Or.inr ⟨_, hs⟩

/-- What a successful `AddVirtualIP` says, when `VirtualIPsEqual` reports pools with
different numbers of virtual IPs as different: the pool is stored, the IPs of its virtual IPs
and the new one are pairwise distinct, the new one passed the checks, and the pool is put
with the new virtual IP at the end of its list. -/
theorem AddVirtualIP_success (f : Facade) (v : VirtualIP) (now : Nat) (f1 : Facade)
    (hlen : ∀ a b, f.virtualIPsEqual a b = true → a.VirtualIPs.length = b.VirtualIPs.length)
    (h : AddVirtualIP f v now = (none, f1)) :
    ∃ p, f.poolStore.find? (fun q => q.ID == v.PoolID) = some p ∧
      f.poolGetErr v.PoolID = none ∧
      ((p.VirtualIPs ++ [v]).map (fun x => x.IP)).Nodup ∧
      f.parseIP v.IP = true ∧ f.parseIP v.Netmask = true ∧
      virtualIPExists f v = .ok false ∧
      ∃ stamped, stamped.ID = v.PoolID ∧ stamped.VirtualIPs = p.VirtualIPs ++ [v] ∧
        f1 = { f with poolStore := poolStorePut f.poolStore stamped } := by
  unfold AddVirtualIP at h
  cases hg : GetResourcePool f v.PoolID with
  | error e => simp [hg] at h
  | ok o =>
    cases o with
    | none => simp [hg] at h
    | some myPool =>
      simp only [hg] at h
      obtain ⟨hget, hid, p, hp, _, hvips⟩ := GetResourcePool_some f v.PoolID myPool hg
      rcases UpdateResourcePool_cases f
        { myPool with VirtualIPs := myPool.VirtualIPs ++ [v] } now with ⟨e, he⟩ | ⟨hval, hs⟩
      · rw [he] at h
        simp at h
      · rw [hs] at h
        have hf1 : f1 = { f with
            poolStore := poolStorePut f.poolStore
              { { myPool with VirtualIPs := myPool.VirtualIPs ++ [v] } with
                UpdatedAt := now } } := by
          simpa using (congrArg Prod.snd h).symm
        have hcur : GetResourcePool f
            ({ myPool with VirtualIPs := myPool.VirtualIPs ++ [v] } : ResourcePool).ID
            = .ok (some myPool) := by
          show GetResourcePool f myPool.ID = _
          rw [hid]
          exact hg
        have hne : f.virtualIPsEqual myPool
            { myPool with VirtualIPs := myPool.VirtualIPs ++ [v] } = false := by
          by_contra hc
          have := hlen _ _ (by simpa using hc)
          simp at this
        obtain ⟨hnd, hall⟩ := validateVirtualIPs_none f _ myPool hcur hne hval
        have hnd2 : ((myPool.VirtualIPs ++ [v]).map (fun x => x.IP)).Nodup := hnd
        have hv := hall v (by simp)
        have hnew : f.parseIP v.IP = true ∧ f.parseIP v.Netmask = true ∧
            virtualIPExists f v = .ok false := by
          rcases hv with ⟨c, hc1, hc2⟩ | hv
          · exfalso
            rw [List.map_append, List.nodup_append] at hnd2
            exact hnd2.2.2 (List.mem_map.2 ⟨c, hc1, hc2⟩) (by simp)
          · exact hv
        refine ⟨p, hp, hget, by rw [← hvips]; exact hnd2, hnew.1, hnew.2.1, hnew.2.2,
          _, ?_, ?_, hf1⟩
        · exact hid
        · show myPool.VirtualIPs ++ [v] = _
          rw [hvips]

/-- C12: for a stored pool and a requested virtual IP whose IP equals the IP of a virtual IP
of the pool or the static IP address of a host of the pool, `AddVirtualIP` returns an error
and leaves the facade, and with it the stored pool, unchanged (for a `VirtualIPsEqual` that
reports pools with different numbers of virtual IPs as different). -/
theorem addVirtualIP_collision_fails (f : Facade) (v : VirtualIP) (now : Nat)
    (p : ResourcePool)
    (hlen : ∀ a b, f.virtualIPsEqual a b = true → a.VirtualIPs.length = b.VirtualIPs.length)
    (hp : f.poolStore.find? (fun q => q.ID == v.PoolID) = some p)
    (hcol : (∃ x ∈ p.VirtualIPs, x.IP = v.IP) ∨
      (∃ h ∈ f.hostStore, h.PoolID = v.PoolID ∧ ∃ r ∈ h.IPs, r.IPAddress = v.IP)) :
    (∃ e, (AddVirtualIP f v now).1 = some e) ∧ (AddVirtualIP f v now).2 = f ∧
      (AddVirtualIP f v now).2.poolStore = f.poolStore := by
  rcases AddVirtualIP_cases f v now with ⟨e, he⟩ | ⟨f1, h1⟩
  · rw [he]
    exact ⟨⟨e, rfl⟩, rfl, rfl⟩
  · exfalso
    obtain ⟨p2, hp2, _, hnd, _, _, hex, _⟩ := AddVirtualIP_success f v now f1 hlen h1
    have hpp : p2 = p := by
      rw [hp] at hp2
      exact (Option.some.inj hp2).symm
    subst hpp
    rcases hcol with ⟨x, hx, hxv⟩ | ⟨h, hh, hpool, r, hr, hrv⟩
    · rw [List.map_append, List.nodup_append] at hnd
      exact hnd.2.2 (List.mem_map.2 ⟨x, hx, hxv⟩) (by simp)
    · exact virtualIPExists_false f v hex h hh hpool r hr hrv

/-- C12 at the pool `P` whose host has the static IP `192.168.100.10`. -/
theorem addVirtualIP_collision_fails_witness :
    (∃ e, (AddVirtualIP (exampleFacade [poolNew "P"] [exampleHostA])
        (exampleVirtualIP "P" "192.168.100.10") 3).1 = some e) ∧
    (AddVirtualIP (exampleFacade [poolNew "P"] [exampleHostA])
        (exampleVirtualIP "P" "192.168.100.10") 3).2.poolStore = [poolNew "P"] :=
  have h := addVirtualIP_collision_fails (exampleFacade [poolNew "P"] [exampleHostA])
    (exampleVirtualIP "P" "192.168.100.10") 3 (poolNew "P")
    (fun a b hab => by
      have : a.VirtualIPs = b.VirtualIPs := by simpa [exampleFacade] using hab
      rw [this])
    rfl
    (Or.inr ⟨exampleHostA, List.mem_singleton.2 rfl, rfl,
      { HostID := "aHost", IPAddress := "192.168.100.10", InterfaceName := "eth0" },
      List.mem_singleton.2 rfl, rfl⟩)
  ⟨h.1, h.2.2⟩

/-- C13 fails as stated: `::1` is not a dotted-decimal IPv4 address, yet `net.ParseIP`
accepts it as an IPv6 address, and `AddVirtualIP` stores it in the pool. -/
theorem addVirtualIP_invalid_counterexample :
    parseIPv4 "::1".toList = false ∧
    ParseIP "::1" = true ∧
    (AddVirtualIP (exampleFacade [poolNew "P"] []) (exampleVirtualIP "P" "::1") 3).1 = none ∧
    (AddVirtualIP (exampleFacade [poolNew "P"] []) (exampleVirtualIP "P" "::1") 3).2.poolStore
      = [{ poolNew "P" with VirtualIPs := [exampleVirtualIP "P" "::1"], UpdatedAt := 3 }] := by
  refine ⟨by decide, by decide, by decide, by decide⟩

/-- C13, amended: for a requested virtual IP whose IP string `net.ParseIP` rejects (it is
neither an IPv4 nor an IPv6 address), `AddVirtualIP` returns an error and leaves the facade,
and with it the stored pool, unchanged (for a `VirtualIPsEqual` that reports pools with
different numbers of virtual IPs as different). -/
theorem addVirtualIP_unparsable_fails (f : Facade) (v : VirtualIP) (now : Nat)
    (hlen : ∀ a b, f.virtualIPsEqual a b = true → a.VirtualIPs.length = b.VirtualIPs.length)
    (hparse : f.parseIP v.IP = false) :
    (∃ e, (AddVirtualIP f v now).1 = some e) ∧ (AddVirtualIP f v now).2 = f ∧
      (AddVirtualIP f v now).2.poolStore = f.poolStore := by
  rcases AddVirtualIP_cases f v now with ⟨e, he⟩ | ⟨f1, h1⟩
  · rw [he]
    exact ⟨⟨e, rfl⟩, rfl, rfl⟩
  · exfalso
    obtain ⟨_, _, _, _, hip, _⟩ := AddVirtualIP_success f v now f1 hlen h1
    rw [hparse] at hip
    exact Bool.false_ne_true hip

/-- C13, amended, at the strings of the test: `net.ParseIP` rejects each of them, and adding
`192.F.100.20` to the pool `P` fails. -/
theorem addVirtualIP_unparsable_fails_witness :
    ParseIP "192.F.100.20" = false ∧ ParseIP "192.168.100.3*" = false ∧
    ParseIP "192.168.100" = false ∧ ParseIP "192..168.100.50" = false ∧
    (∃ e, (AddVirtualIP (exampleFacade [poolNew "P"] [exampleHostA])
        (exampleVirtualIP "P" "192.F.100.20") 3).1 = some e) ∧
    (AddVirtualIP (exampleFacade [poolNew "P"] [exampleHostA])
        (exampleVirtualIP "P" "192.F.100.20") 3).2.poolStore = [poolNew "P"] :=
  have h := addVirtualIP_unparsable_fails (exampleFacade [poolNew "P"] [exampleHostA])
    (exampleVirtualIP "P" "192.F.100.20") 3
    (fun a b hab => by
      have : a.VirtualIPs = b.VirtualIPs := by simpa [exampleFacade] using hab
      rw [this])
    (by decide)
  ⟨by decide, by decide, by decide, by decide, h.1, h.2.2⟩

/-- An update that only drops virtual IPs of the stored pool passes the validation and, when
hook and store report no error, puts the entity. -/
theorem UpdateResourcePool_drop (f : Facade) (entity myPool : ResourcePool) (now : Nat)
    (hlen : ∀ a b, f.virtualIPsEqual a b = true → a.VirtualIPs.length = b.VirtualIPs.length)
    (hhook : ∀ e, f.beforeEvent "BeforePoolUpdate" e = none)
    (hput : ∀ e, f.poolPutErr e = none)
    (hcur : GetResourcePool f entity.ID = .ok (some myPool))
    (hshorter : entity.VirtualIPs.length ≠ myPool.VirtualIPs.length)
    (hnd : (entity.VirtualIPs.map (fun x => x.IP)).Nodup)
    (hsub : ∀ x ∈ entity.VirtualIPs, x ∈ myPool.VirtualIPs) :
    UpdateResourcePool f entity now
      = (none, { f with
          poolStore := poolStorePut f.poolStore { entity with UpdatedAt := now } }) := by
  have hne : f.virtualIPsEqual myPool entity = false := by
    by_contra hc
    exact hshorter (hlen _ _ (by simpa using hc)).symm
  have hdup : duplicateVirtualIP [] entity.VirtualIPs = none :=
    (duplicateVirtualIP_none [] entity.VirtualIPs).2 ⟨hnd, fun _ _ => List.not_mem_nil _⟩
  have hnew : validateNewVirtualIPs f myPool entity.VirtualIPs = none :=
    validateNewVirtualIPs_of_current f myPool entity.VirtualIPs
      (fun x hx => ⟨x, hsub x hx, rfl⟩)
  have hval : validateVirtualIPs f entity = none := by
    unfold validateVirtualIPs
    simp only [hcur, hne, if_true, hdup, hnew]
  unfold UpdateResourcePool
  simp only [hval, hhook, hput]

/-- C14: after a successful `AddVirtualIP(v)` on a stored pool, a following
`RemoveVirtualIP(v)` returns no error (when the update hook and the store report none) and
leaves the stored pool with exactly the list of virtual IPs it had before the add, in the
same order (for a `VirtualIPsEqual` that reports pools with different numbers of virtual IPs
as different). -/
theorem addRemove_roundtrip (f f1 : Facade) (v : VirtualIP) (now now2 : Nat)
    (p0 : ResourcePool)
    (hlen : ∀ a b, f.virtualIPsEqual a b = true → a.VirtualIPs.length = b.VirtualIPs.length)
    (hhook : ∀ e, f.beforeEvent "BeforePoolUpdate" e = none)
    (hput : ∀ e, f.poolPutErr e = none)
    (hp0 : f.poolStore.find? (fun q => q.ID == v.PoolID) = some p0)
    (hadd : AddVirtualIP f v now = (none, f1)) :
    ∃ f2, RemoveVirtualIP f1 v now2 = (none, f2) ∧
      ∃ p2, f2.poolStore.find? (fun q => q.ID == v.PoolID) = some p2 ∧
        p2.VirtualIPs = p0.VirtualIPs := by
  obtain ⟨p, hp, hget, hnd, _, _, _, st, hstid, hstv, hf1⟩ :=
    AddVirtualIP_success f v now f1 hlen hadd
  have hpp : p = p0 := by
    rw [hp0] at hp
    exact (Option.some.inj hp).symm
  subst hpp
  subst hf1
  have hfind : (poolStorePut f.poolStore st).find? (fun q => q.ID == v.PoolID) = some st := by
    have := find_poolStorePut f.poolStore st
    rw [hstid] at this
    exact this
  have hcur : GetResourcePool { f with poolStore := poolStorePut f.poolStore st } v.PoolID
      = .ok (some (calcPoolCapacity { f with poolStore := poolStorePut f.poolStore st } st).1) := by
    unfold GetResourcePool
    simp only [hget, hfind]
  obtain ⟨hkid, hkv⟩ :=
    calcPoolCapacity_keeps { f with poolStore := poolStorePut f.poolStore st } st
  have hvips : (calcPoolCapacity { f with poolStore := poolStorePut f.poolStore st } st).1.VirtualIPs
      = p.VirtualIPs ++ [v] := by rw [hkv, hstv]
  have hany : (calcPoolCapacity { f with poolStore := poolStorePut f.poolStore st }
      st).1.VirtualIPs.any (fun virtualIP => virtualIP.IP == v.IP) = true := by
    rw [hvips, List.any_eq_true]
    exact ⟨v, by simp, by simp⟩
  have hnot : ∀ b ∈ p.VirtualIPs, ¬ ((fun virtualIP : VirtualIP => virtualIP.IP == v.IP) b = true) := by
    intro b hb hbv
    rw [List.map_append, List.nodup_append] at hnd
    exact hnd.2.2 (List.mem_map.2 ⟨b, hb, by simpa using hbv⟩) (by simp)
  have herase : (calcPoolCapacity { f with poolStore := poolStorePut f.poolStore st }
      st).1.VirtualIPs.eraseP (fun virtualIP => virtualIP.IP == v.IP) = p.VirtualIPs := by
    rw [hvips, List.eraseP_append_right _ hnot]
    simp
  have hupd := UpdateResourcePool_drop { f with poolStore := poolStorePut f.poolStore st }
    { (calcPoolCapacity { f with poolStore := poolStorePut f.poolStore st } st).1 with
      VirtualIPs := p.VirtualIPs }
    (calcPoolCapacity { f with poolStore := poolStorePut f.poolStore st } st).1 now2
    hlen hhook hput
    (by
      show GetResourcePool _ (calcPoolCapacity _ st).1.ID = _
      rw [hkid, hstid]
      exact hcur)
    (by
      show p.VirtualIPs.length ≠ _
      rw [hvips]
      simp)
    (by
      show (p.VirtualIPs.map (fun x => x.IP)).Nodup
      rw [List.map_append, List.nodup_append] at hnd
      exact hnd.1)
    (by
      intro x hx
      rw [hvips]
      exact List.mem_append_left _ hx)
  have hrem : RemoveVirtualIP { f with poolStore := poolStorePut f.poolStore st } v now2
      = UpdateResourcePool { f with poolStore := poolStorePut f.poolStore st }
          { (calcPoolCapacity { f with poolStore := poolStorePut f.poolStore st } st).1 with
            VirtualIPs := p.VirtualIPs } now2 := by
    unfold RemoveVirtualIP
    simp only [hcur, hany, if_true, herase]
  rw [hupd] at hrem
  have hfind2 := find_poolStorePut (poolStorePut f.poolStore st)
    { { (calcPoolCapacity { f with poolStore := poolStorePut f.poolStore st } st).1 with
        VirtualIPs := p.VirtualIPs } with UpdatedAt := now2 }
  have hid2 : ({ { (calcPoolCapacity { f with poolStore := poolStorePut f.poolStore st }
      st).1 with VirtualIPs := p.VirtualIPs } with UpdatedAt := now2 } : ResourcePool).ID
      = v.PoolID := by
    show (calcPoolCapacity _ st).1.ID = _
    rw [hkid, hstid]
  rw [hid2] at hfind2
  exact ⟨_, hrem, _, hfind2, rfl⟩

/-- C14 at the pool `P` holding `192.168.100.20`: adding and removing `192.168.100.30`. -/
theorem addRemove_roundtrip_witness :
    (AddVirtualIP
        (exampleFacade [{ poolNew "P" with VirtualIPs := [exampleVirtualIP "P" "192.168.100.20"] }]
          [exampleHostA])
        (exampleVirtualIP "P" "192.168.100.30") 3).1 = none ∧
    ∃ f2, RemoveVirtualIP
        (AddVirtualIP
          (exampleFacade
            [{ poolNew "P" with VirtualIPs := [exampleVirtualIP "P" "192.168.100.20"] }]
            [exampleHostA])
          (exampleVirtualIP "P" "192.168.100.30") 3).2
        (exampleVirtualIP "P" "192.168.100.30") 4 = (none, f2) ∧
      ∃ p2, f2.poolStore.find? (fun q => q.ID == "P") = some p2 ∧
        p2.VirtualIPs = [exampleVirtualIP "P" "192.168.100.20"] :=
  ⟨by decide,
    addRemove_roundtrip
      (exampleFacade [{ poolNew "P" with VirtualIPs := [exampleVirtualIP "P" "192.168.100.20"] }]
        [exampleHostA])
      _ (exampleVirtualIP "P" "192.168.100.30") 3 4
      { poolNew "P" with VirtualIPs := [exampleVirtualIP "P" "192.168.100.20"] }
      (fun a b hab => by
        have : a.VirtualIPs = b.VirtualIPs := by simpa [exampleFacade] using hab
        rw [this])
      (fun _ => rfl) (fun _ => rfl) rfl
      (by
        apply Prod.ext
        · decide
        · rfl)⟩

/-- A successful `AddVirtualIP` is a successful `UpdateResourcePool` of the stored pool with
the requested virtual IP added at the end. -/
theorem AddVirtualIP_update (f f1 : Facade) (v : VirtualIP) (now : Nat)
    (h : AddVirtualIP f v now = (none, f1)) :
    ∃ (p : ResourcePool) (myPool : ResourcePool),
      f.poolStore.find? (fun q => q.ID == v.PoolID) = some p ∧
      myPool.ID = v.PoolID ∧ myPool.VirtualIPs = p.VirtualIPs ∧
      UpdateResourcePool f { myPool with VirtualIPs := myPool.VirtualIPs ++ [v] } now
        = (none, f1) := by
  unfold AddVirtualIP at h
  cases hg : GetResourcePool f v.PoolID with
  | error e => simp [hg] at h
  | ok o =>
    cases o with
    | none => simp [hg] at h
    | some myPool =>
      simp only [hg] at h
      obtain ⟨_, hid, p, hp, _, hvips⟩ := GetResourcePool_some f v.PoolID myPool hg
      exact ⟨p, myPool, hp, hid, hvips, h⟩

/-- A successful `RemoveVirtualIP` is a successful `UpdateResourcePool` of the stored pool
with one of its virtual IPs cut out. -/
theorem RemoveVirtualIP_update (f f1 : Facade) (v : VirtualIP) (now : Nat)
    (h : RemoveVirtualIP f v now = (none, f1)) :
    ∃ (p : ResourcePool) (myPool : ResourcePool),
      f.poolStore.find? (fun q => q.ID == v.PoolID) = some p ∧
      myPool.ID = v.PoolID ∧ myPool.VirtualIPs = p.VirtualIPs ∧
      UpdateResourcePool f
        { myPool with
          VirtualIPs := myPool.VirtualIPs.eraseP (fun virtualIP => virtualIP.IP == v.IP) } now
        = (none, f1) := by
  unfold RemoveVirtualIP at h
  cases hg : GetResourcePool f v.PoolID with
  | error e => simp [hg] at h
  | ok o =>
    cases o with
    | none => simp [hg] at h
    | some myPool =>
      simp only [hg] at h
      obtain ⟨_, hid, p, hp, _, hvips⟩ := GetResourcePool_some f v.PoolID myPool hg
      split_ifs at h with hany
      · exact ⟨p, myPool, hp, hid, hvips, h⟩
      · simp at h

/-- A successful `UpdateResourcePool` keeps the invariant of the virtual IPs, when every
proposed virtual IP with a new IP carries the id of the pool and `VirtualIPsEqual` holds only
for pools with the same IPs. -/
theorem UpdateResourcePool_valid (f f1 : Facade) (entity p : ResourcePool) (now : Nat)
    (hsound : ∀ a b, f.virtualIPsEqual a b = true →
      (a.VirtualIPs.map (fun v => v.IP)).Perm (b.VirtualIPs.map (fun v => v.IP)))
    (hp : f.poolStore.find? (fun q => q.ID == entity.ID) = some p)
    (hvalid : virtualIPsValid f.hostStore p)
    (hown : ∀ x ∈ entity.VirtualIPs, (∀ c ∈ p.VirtualIPs, c.IP ≠ x.IP) → x.PoolID = entity.ID)
    (hupd : UpdateResourcePool f entity now = (none, f1)) :
    ∃ p1, f1.poolStore.find? (fun q => q.ID == entity.ID) = some p1 ∧
      p1.VirtualIPs = entity.VirtualIPs ∧ f1.hostStore = f.hostStore ∧
      virtualIPsValid f1.hostStore p1 := by
  rcases UpdateResourcePool_cases f entity now with ⟨e, he⟩ | ⟨hval, hs⟩
  · rw [he] at hupd
    simp at hupd
  · rw [hs] at hupd
    have hf1 : f1 = { f with
        poolStore := poolStorePut f.poolStore { entity with UpdatedAt := now } } := by
      simpa using (congrArg Prod.snd hupd).symm
    subst hf1
    have hpid : p.ID = entity.ID := by simpa using List.find?_some hp
    have hcurrent : ∀ x : VirtualIP, (∃ c ∈ p.VirtualIPs, c.IP = x.IP) →
        ∀ h ∈ f.hostStore, h.PoolID = entity.ID → ∀ r ∈ h.IPs, r.IPAddress ≠ x.IP := by
      rintro x ⟨c, hc, hcx⟩ h hh hpool r hr
      rw [← hcx]
      exact hvalid.2 c hc h hh (by rw [hpid]; exact hpool) r hr
    refine ⟨{ entity with UpdatedAt := now },
      find_poolStorePut f.poolStore { entity with UpdatedAt := now }, rfl, rfl, ?_⟩
    show (entity.VirtualIPs.map (fun v => v.IP)).Nodup ∧
      ∀ v ∈ entity.VirtualIPs, ∀ h ∈ f.hostStore, h.PoolID = entity.ID →
        ∀ r ∈ h.IPs, r.IPAddress ≠ v.IP
    cases hg : GetResourcePool f entity.ID with
    | error e => simp [validateVirtualIPs, hg] at hval
    | ok o =>
      cases o with
      | none => simp [validateVirtualIPs, hg] at hval
      | some cur =>
        obtain ⟨_, _, p2, hp2, _, hvips⟩ := GetResourcePool_some f entity.ID cur hg
        have hpp : p2 = p := by
          rw [hp] at hp2
          exact (Option.some.inj hp2).symm
        subst hpp
        cases heq : f.virtualIPsEqual cur entity with
        | true =>
          have hperm := hsound cur entity heq
          rw [hvips] at hperm
          refine ⟨hperm.nodup_iff.1 hvalid.1, fun x hx => hcurrent x ?_⟩
          have hmem : x.IP ∈ p2.VirtualIPs.map (fun v => v.IP) :=
            hperm.mem_iff.2 (List.mem_map.2 ⟨x, hx, rfl⟩)
          obtain ⟨c, hc, hcx⟩ := List.mem_map.1 hmem
          exact ⟨c, hc, hcx⟩
        | false =>
          obtain ⟨hnd, hall⟩ := validateVirtualIPs_none f entity cur hg heq hval
          refine ⟨hnd, fun x hx => ?_⟩
          by_cases hc : ∃ c ∈ p2.VirtualIPs, c.IP = x.IP
          · exact hcurrent x hc
          · have hnone : ∀ c ∈ p2.VirtualIPs, c.IP ≠ x.IP :=
              fun c hcm hcx => hc ⟨c, hcm, hcx⟩
            rcases hall x hx with ⟨c, hcm, hcx⟩ | ⟨_, _, hex⟩
            · rw [hvips] at hcm
              exact absurd hcx (hnone c hcm)
            · intro h hh hpool
              exact virtualIPExists_false f x hex h hh (by rw [hown x hx hnone]; exact hpool)

/-- C11 fails in the code: `virtualIPExists` looks for a collision in the pool named by
`proposedVirtualIP.PoolID`, not in the pool that is updated. Pool `P` has no virtual IP and
a host with the static IP `192.168.100.10`; an `UpdateResourcePool` of `P` proposing that IP
in a virtual IP whose `PoolID` names the pool `Q` is checked against `Q`, succeeds, and
leaves `P` stored with a virtual IP that equals a static IP of its host. -/
theorem updateResourcePool_accepts_host_ip :
    virtualIPsValid [exampleHostA] (poolNew "P") ∧
    (UpdateResourcePool (exampleFacade [poolNew "P", poolNew "Q"] [exampleHostA])
        { poolNew "P" with VirtualIPs := [exampleVirtualIP "Q" "192.168.100.10"] } 3).1
      = none ∧
    (UpdateResourcePool (exampleFacade [poolNew "P", poolNew "Q"] [exampleHostA])
        { poolNew "P" with VirtualIPs := [exampleVirtualIP "Q" "192.168.100.10"] } 3).2.poolStore
      = [{ poolNew "P" with
            VirtualIPs := [exampleVirtualIP "Q" "192.168.100.10"], UpdatedAt := 3 },
          poolNew "Q"] ∧
    ¬ virtualIPsValid [exampleHostA]
        { poolNew "P" with
          VirtualIPs := [exampleVirtualIP "Q" "192.168.100.10"], UpdatedAt := 3 } := by
  refine ⟨?_, by decide, by decide, ?_⟩
  · unfold virtualIPsValid
    decide
  · unfold virtualIPsValid
    decide

/-- What the checks of `UpdateResourcePool` do establish: in a store where the virtual IPs
of a pool have pairwise distinct IPs and none equals the IP address of a host of the pool,
a successful `UpdateResourcePool` of that pool whose virtual IPs with a new IP carry the id
of the pool as `PoolID`, and so every successful `AddVirtualIP` and `RemoveVirtualIP`,
leaves the stored pool with pairwise distinct virtual IPs none of which equals a static IP
of a host of the pool (for a `VirtualIPsEqual` that holds only for pools with the same
IPs). -/
theorem virtualIPs_stay_valid (f : Facade) (now : Nat)
    (hsound : ∀ a b, f.virtualIPsEqual a b = true →
      (a.VirtualIPs.map (fun v => v.IP)).Perm (b.VirtualIPs.map (fun v => v.IP))) :
    (∀ (entity p : ResourcePool) (f1 : Facade),
      f.poolStore.find? (fun q => q.ID == entity.ID) = some p →
      virtualIPsValid f.hostStore p →
      (∀ x ∈ entity.VirtualIPs, (∀ c ∈ p.VirtualIPs, c.IP ≠ x.IP) → x.PoolID = entity.ID) →
      UpdateResourcePool f entity now = (none, f1) →
      ∃ p1, f1.poolStore.find? (fun q => q.ID == entity.ID) = some p1 ∧
        p1.VirtualIPs = entity.VirtualIPs ∧ virtualIPsValid f1.hostStore p1) ∧
    (∀ (v : VirtualIP) (p : ResourcePool) (f1 : Facade),
      f.poolStore.find? (fun q => q.ID == v.PoolID) = some p →
      virtualIPsValid f.hostStore p →
      AddVirtualIP f v now = (none, f1) →
      ∃ p1, f1.poolStore.find? (fun q => q.ID == v.PoolID) = some p1 ∧
        p1.VirtualIPs = p.VirtualIPs ++ [v] ∧ virtualIPsValid f1.hostStore p1) ∧
    (∀ (v : VirtualIP) (p : ResourcePool) (f1 : Facade),
      f.poolStore.find? (fun q => q.ID == v.PoolID) = some p →
      virtualIPsValid f.hostStore p →
      RemoveVirtualIP f v now = (none, f1) →
      ∃ p1, f1.poolStore.find? (fun q => q.ID == v.PoolID) = some p1 ∧
        p1.VirtualIPs = p.VirtualIPs.eraseP (fun virtualIP => virtualIP.IP == v.IP) ∧
        virtualIPsValid f1.hostStore p1) := by
  refine ⟨?_, ?_, ?_⟩
  · intro entity p f1 hp hvalid hown hupd
    obtain ⟨p1, h1, h2, _, h3⟩ :=
      UpdateResourcePool_valid f f1 entity p now hsound hp hvalid hown hupd
    exact ⟨p1, h1, h2, h3⟩
  · intro v p f1 hp hvalid hadd
    obtain ⟨p2, myPool, hp2, hid, hvips, hupd⟩ := AddVirtualIP_update f f1 v now hadd
    have hpp : p2 = p := by
      rw [hp] at hp2
      exact (Option.some.inj hp2).symm
    subst hpp
    have hp3 : f.poolStore.find? (fun q => q.ID ==
        ({ myPool with VirtualIPs := myPool.VirtualIPs ++ [v] } : ResourcePool).ID)
        = some p2 := by
      show f.poolStore.find? (fun q => q.ID == myPool.ID) = some p2
      rw [hid]
      exact hp
    obtain ⟨p1, h1, h2, _, h3⟩ := UpdateResourcePool_valid f f1
      { myPool with VirtualIPs := myPool.VirtualIPs ++ [v] } p2 now hsound hp3 hvalid
      (by
        intro x hx hnone
        have hx2 : x ∈ myPool.VirtualIPs ++ [v] := hx
        rcases List.mem_append.1 hx2 with hx3 | hx3
        · rw [hvips] at hx3
          exact absurd rfl (hnone x hx3)
        · rw [List.mem_singleton.1 hx3]
          exact hid.symm)
      hupd
    have h1b : f1.poolStore.find? (fun q => q.ID == myPool.ID) = some p1 := h1
    rw [hid] at h1b
    refine ⟨p1, h1b, ?_, h3⟩
    rw [h2]
    show myPool.VirtualIPs ++ [v] = _
    rw [hvips]
  · intro v p f1 hp hvalid hrem
    obtain ⟨p2, myPool, hp2, hid, hvips, hupd⟩ := RemoveVirtualIP_update f f1 v now hrem
    have hpp : p2 = p := by
      rw [hp] at hp2
      exact (Option.some.inj hp2).symm
    subst hpp
    have hp3 : f.poolStore.find? (fun q => q.ID ==
        ({ myPool with VirtualIPs :=
            myPool.VirtualIPs.eraseP (fun virtualIP => virtualIP.IP == v.IP) }
          : ResourcePool).ID) = some p2 := by
      show f.poolStore.find? (fun q => q.ID == myPool.ID) = some p2
      rw [hid]
      exact hp
    obtain ⟨p1, h1, h2, _, h3⟩ := UpdateResourcePool_valid f f1
      { myPool with VirtualIPs :=
          myPool.VirtualIPs.eraseP (fun virtualIP => virtualIP.IP == v.IP) } p2 now hsound
      hp3 hvalid
      (by
        intro x hx hnone
        have hx2 : x ∈ myPool.VirtualIPs.eraseP (fun virtualIP => virtualIP.IP == v.IP) := hx
        have hx3 : x ∈ p2.VirtualIPs := by
          rw [← hvips]
          exact List.mem_of_mem_eraseP hx2
        exact absurd rfl (hnone x hx3))
      hupd
    have h1b : f1.poolStore.find? (fun q => q.ID == myPool.ID) = some p1 := h1
    rw [hid] at h1b
    refine ⟨p1, h1b, ?_, h3⟩
    rw [h2]
    show myPool.VirtualIPs.eraseP _ = _
    rw [hvips]

/-- Adding `192.168.100.20` to the pool `P` with a host keeps the virtual IPs valid. -/
theorem virtualIPs_stay_valid_witness :
    ∃ p1, (AddVirtualIP (exampleFacade [poolNew "P"] [exampleHostA])
        (exampleVirtualIP "P" "192.168.100.20") 3).2.poolStore.find?
          (fun q => q.ID == "P") = some p1 ∧
      p1.VirtualIPs = [exampleVirtualIP "P" "192.168.100.20"] ∧
      virtualIPsValid [exampleHostA] p1 :=
  (virtualIPs_stay_valid (exampleFacade [poolNew "P"] [exampleHostA]) 3
    (fun a b hab => by
      have : a.VirtualIPs = b.VirtualIPs := by simpa [exampleFacade] using hab
      rw [this])).2.1
    (exampleVirtualIP "P" "192.168.100.20") (poolNew "P") _ rfl
    (by unfold virtualIPsValid; decide)
    (by
      apply Prod.ext
      · decide
      · rfl)

/-! ## Stops and starts in one pass -/

/-- C27: a pass of `updateServiceInstances` that tells at least one instance to stop had a
positive number to kill, requests no new instance and starts none; so a pass that requests
or starts an instance stops nothing. -/
theorem stops_exclude_starts (l : Leader) (svc : Service) (states : List ServiceState)
    (h : (updateServiceInstances l svc states).stopped ≠ []) :
    0 < (instanceDeltas svc states).1 ∧
    (updateServiceInstances l svc states).wantsToStart = 0 ∧
    (updateServiceInstances l svc states).started = [] := by
  by_cases hk : 0 < (instanceDeltas svc states).1
  · rw [updateServiceInstances_kill l svc states hk]
    exact ⟨hk, rfl, rfl⟩
  · exact absurd (updateServiceInstances_stopped_nil l svc states hk) h

/-- C27 at the scale-down scenario: instance ids 0, 1, 2 and `Instances = 1`. -/
theorem stops_exclude_starts_witness :
    (updateServiceInstances (exampleLeader []) (exampleService 1)
        [exampleState "a" 0, exampleState "b" 1, exampleState "c" 2]).stopped ≠ [] ∧
    0 < (instanceDeltas (exampleService 1)
        [exampleState "a" 0, exampleState "b" 1, exampleState "c" 2]).1 ∧
    (updateServiceInstances (exampleLeader []) (exampleService 1)
        [exampleState "a" 0, exampleState "b" 1, exampleState "c" 2]).wantsToStart = 0 ∧
    (updateServiceInstances (exampleLeader []) (exampleService 1)
        [exampleState "a" 0, exampleState "b" 1, exampleState "c" 2]).started = [] :=
  ⟨by decide, stops_exclude_starts (exampleLeader []) (exampleService 1)
    [exampleState "a" 0, exampleState "b" 1, exampleState "c" 2] (by decide)⟩

/-! ## The instance constraints -/

/-- C24 fails in the code: `Min = 5`, `Max = 0` passes `Validate` although `Max >= Min`
does not hold, against the comment of the method (`Max >= Min >=0 returns error
otherwise`); the code only compares the two when `Max` is not zero. -/
theorem minMax_validate_accepts_max_zero :
    MinMax.Validate { Min := 5, Max := 0 } = none ∧ ¬ ((5 : Int) ≤ 0 ∧ (0 : Int) ≤ 5) := by
  decide

/-- The values that `Validate` accepts: it returns no error exactly when `Min` and `Max` are
both at least zero and either `Max` is zero or `Min` is at most `Max`; in particular it
returns no error whenever `Max >= Min >= 0`, and an error whenever `Min` or `Max` is
negative. -/
theorem minMax_validate_iff (minmax : MinMax) :
    (minmax.Validate = none ↔
      0 ≤ minmax.Min ∧ 0 ≤ minmax.Max ∧ (minmax.Max = 0 ∨ minmax.Min ≤ minmax.Max)) ∧
    (0 ≤ minmax.Min ∧ minmax.Min ≤ minmax.Max → minmax.Validate = none) ∧
    (minmax.Min < 0 ∨ minmax.Max < 0 → minmax.Validate ≠ none) := by
  have key : minmax.Validate = none ↔
      0 ≤ minmax.Min ∧ 0 ≤ minmax.Max ∧ (minmax.Max = 0 ∨ minmax.Min ≤ minmax.Max) := by
    unfold MinMax.Validate
    split_ifs with h1 h2
    · simp only [reduceCtorEq, false_iff]
      omega
    · simp only [reduceCtorEq, false_iff]
      omega
    · simp only [true_iff]
      omega
  refine ⟨key, ?_, ?_⟩
  · intro h
    rw [key]
    omega
  · intro h hnone
    rw [key] at hnone
    omega

/-- `Validate` at `Min = 1`, `Max = 3` and at `Min = 5`, `Max = 0`. -/
theorem minMax_validate_iff_witness :
    MinMax.Validate { Min := 1, Max := 3 } = none ∧
    MinMax.Validate { Min := 5, Max := 0 } = none :=
  ⟨(minMax_validate_iff { Min := 1, Max := 3 }).2.1 (by decide),
   (minMax_validate_iff { Min := 5, Max := 0 }).1.mpr (by decide)⟩

/-! ## Equality of services -/

/-- C23 fails in the code: `Service.Equals` compares `s.UpdatedAt.Unix()` with
`b.CreatedAt.Unix()`, so `s.Equals(s)` is true exactly when the creation and the update of
`s` fall in the same second (and the monitoring profile equals itself); the service created
at second 1 and updated at second 2 is not equal to itself. -/
theorem equals_self_fails :
    (∀ (monitoringProfileEquals : MonitorProfile → MonitorProfile → Bool) (s : Service),
      Service.Equals monitoringProfileEquals s s = true ↔
        unixSeconds s.UpdatedAt = unixSeconds s.CreatedAt ∧
        monitoringProfileEquals s.MonitoringProfile s.MonitoringProfile = true) ∧
    (∀ monitoringProfileEquals : MonitorProfile → MonitorProfile → Bool,
      Service.Equals monitoringProfileEquals exampleUpdatedService exampleUpdatedService
        = false) := by
  have key : ∀ (monitoringProfileEquals : MonitorProfile → MonitorProfile → Bool)
      (s : Service), Service.Equals monitoringProfileEquals s s = true ↔
        unixSeconds s.UpdatedAt = unixSeconds s.CreatedAt ∧
        monitoringProfileEquals s.MonitoringProfile s.MonitoringProfile = true := by
    intro eq s
    simp [Service.Equals]
  refine ⟨key, ?_⟩
  intro eq
  have h := key eq exampleUpdatedService
  have h2 : ¬ unixSeconds exampleUpdatedService.UpdatedAt
      = unixSeconds exampleUpdatedService.CreatedAt := by decide
  cases hb : Service.Equals eq exampleUpdatedService exampleUpdatedService with
  | false => rfl
  | true => exact absurd (h.mp hb).1 h2

/-! ## The service store -/

/-- Looking a key up after the map assignment `m[key] = val`. -/
theorem lookup_mapSet {β : Type} (m : List (String × β)) (key k : String) (val : β) :
    (mapSet m key val).lookup k = if k = key then some val else m.lookup k := by
  unfold mapSet
  by_cases h : k = key
  · subst h
    simp
  · have h3 : (k == key) = false := by simpa using h
    rw [List.lookup_cons, h3, if_neg h]
    simp only
    induction m with
    | nil => simp
    | cons a t ih =>
      obtain ⟨ak, av⟩ := a
      by_cases h1 : ak = key
      · subst h1
        simpa [List.filter_cons, List.lookup_cons, h3] using ih
      · have h4 : (ak == key) = false := by simpa using h1
        simp only [List.filter_cons, h4, Bool.not_false, if_true, List.lookup_cons]
        rw [ih]

/-- The keys of a map stay distinct under the map assignment `m[key] = val`. -/
theorem nodup_keys_mapSet {β : Type} (m : List (String × β)) (key : String) (val : β)
    (h : (m.map Prod.fst).Nodup) : ((mapSet m key val).map Prod.fst).Nodup := by
  unfold mapSet
  rw [List.map_cons, List.nodup_cons]
  constructor
  · intro hmem
    rw [List.mem_map] at hmem
    obtain ⟨kv, hkv, hk⟩ := hmem
    rw [List.mem_filter] at hkv
    simp [hk] at hkv
  · exact (h.sublist (List.Sublist.map _ (List.filter_sublist _)))

/-- The map built by `fillConfig` answers every key as `OriginalConfigs` does. -/
theorem lookup_fillConfig (svc : Service) (k : String) :
    (fillConfig svc).ConfigFiles.lookup k = svc.OriginalConfigs.lookup k := by
  unfold fillConfig
  simp only
  induction svc.OriginalConfigs with
  | nil => rfl
  | cons a t ih =>
    obtain ⟨ak, av⟩ := a
    rw [List.foldr_cons, lookup_mapSet, ih, List.lookup_cons]
    by_cases h : k = ak
    · subst h
      simp
    · have h3 : (k == ak) = false := by simpa using h
      simp [h, h3]

/-- The map built by `fillConfig` has distinct keys. -/
theorem nodup_keys_fillConfig (svc : Service) :
    ((fillConfig svc).ConfigFiles.map Prod.fst).Nodup := by
  unfold fillConfig
  simp only
  induction svc.OriginalConfigs with
  | nil => exact List.nodup_nil
  | cons a t ih =>
    rw [List.foldr_cons]
    exact nodup_keys_mapSet _ _ _ ih

/-- C21: on a store whose `Put` of the service and whose `Get` of its id report no error,
`Store.Put(svc)` returns no error and `Store.Get(svc.ID)` afterwards returns the service
`svc` with every field other than `ConfigFiles` as passed to `Put`, and with `ConfigFiles`
a map that answers every key as `OriginalConfigs` does. -/
theorem put_get_roundtrip (s : Store) (svc : Service)
    (hput : s.dsPutErr { svc with ConfigFiles := [] } = none)
    (hget : s.dsGetErr svc.ID = none) :
    (Store.Put s svc).1 = none ∧
    ∃ got : Service, Store.Get (Store.Put s svc).2.1 svc.ID = .ok got ∧
      got = { svc with ConfigFiles := got.ConfigFiles } ∧
      (∀ k, got.ConfigFiles.lookup k = svc.OriginalConfigs.lookup k) ∧
      (got.ConfigFiles.map Prod.fst).Nodup := by
  have hp : Store.Put s svc
      = (none, { s with ds := mapSet s.ds svc.ID { svc with ConfigFiles := [] } },
          { svc with ConfigFiles := [] }) := by
    simp [Store.Put, hput]
  rw [hp]
  refine ⟨rfl, fillConfig { svc with ConfigFiles := [] }, ?_, rfl, ?_, ?_⟩
  · simp [Store.Get, hget, lookup_mapSet]
  · intro k
    exact lookup_fillConfig { svc with ConfigFiles := [] } k
  · exact nodup_keys_fillConfig { svc with ConfigFiles := [] }

/-- C21 at a service with two configuration files, one of them stale in `ConfigFiles`. -/
theorem put_get_roundtrip_witness :
    (Store.Put exampleStore exampleConfiguredService).1 = none ∧
    ∃ got : Service,
      Store.Get (Store.Put exampleStore exampleConfiguredService).2.1
        exampleConfiguredService.ID = .ok got ∧
      got = { exampleConfiguredService with ConfigFiles := got.ConfigFiles } ∧
      (∀ k, got.ConfigFiles.lookup k = exampleConfiguredService.OriginalConfigs.lookup k) ∧
      (got.ConfigFiles.map Prod.fst).Nodup :=
  put_get_roundtrip exampleStore exampleConfiguredService (by rfl) (by rfl)

/-! ## Exposed ports of a container -/

/-- C22 fails as stated: a service with two export endpoints on port 80 over tcp exposes the
one port `80/tcp` with two port bindings. -/
theorem exposed_port_two_bindings_counterexample :
    (configurePorts exampleDoubleExport).1 = ["80/tcp"] ∧
    (configurePorts exampleDoubleExport).2.lookup "80/tcp"
      = some [({} : PortBinding), ({} : PortBinding)] := by
  decide

/-- What the endpoint loop of `configureContainer` builds from the endpoints `es`: the
exposed ports are the ports of the export endpoints, each once, and a port is bound once
for each export endpoint it comes from. -/
theorem configurePorts_fold (es : List ServiceEndpoint) :
    (∀ p, p ∈ (es.foldl exposeEndpoint ([], [])).1
      ↔ ∃ e ∈ es, e.Purpose = "export" ∧ endpointPort e = p) ∧
    (es.foldl exposeEndpoint ([], [])).1.Nodup ∧
    (∀ p, (es.foldl exposeEndpoint ([], [])).2.lookup p
      = if es.countP (fun e => decide (e.Purpose = "export") && decide (endpointPort e = p)) = 0
        then none
        else some (List.replicate
          (es.countP (fun e => decide (e.Purpose = "export") && decide (endpointPort e = p)))
          ({} : PortBinding))) := by
  induction es using List.reverseRecOn with
  | nil => simp
  | append_singleton l a ih =>
    obtain ⟨ih1, ih2, ih3⟩ := ih
    rw [List.foldl_append, List.foldl_cons, List.foldl_nil]
    by_cases hx : a.Purpose = "export"
    · have hstep : exposeEndpoint (l.foldl exposeEndpoint ([], [])) a
          = (endpointPort a :: (l.foldl exposeEndpoint ([], [])).1.filter
                (fun k => !(k == endpointPort a)),
             mapSet (l.foldl exposeEndpoint ([], [])).2 (endpointPort a)
               ((((l.foldl exposeEndpoint ([], [])).2.lookup (endpointPort a)).getD [])
                 ++ [({} : PortBinding)])) := by
        simp [exposeEndpoint, hx]
      rw [hstep]
      refine ⟨?_, ?_, ?_⟩
      · intro p
        simp only [List.mem_cons, List.mem_filter, List.mem_append, List.not_mem_nil,
          or_false, ih1]
        constructor
        · rintro (h | ⟨⟨e, he, hp, hq⟩, _⟩)
          · exact ⟨a, Or.inr rfl, hx, h.symm⟩
          · exact ⟨e, Or.inl he, hp, hq⟩
        · rintro ⟨e, he | he, hp, hq⟩
          · by_cases hpa : p = endpointPort a
            · exact Or.inl hpa
            · exact Or.inr ⟨⟨e, he, hp, hq⟩, by simpa using hpa⟩
          · subst he
            exact Or.inl hq.symm
      · rw [List.nodup_cons]
        exact ⟨by simp [List.mem_filter], ih2.sublist (List.filter_sublist _)⟩
      · intro p
        simp only
        rw [lookup_mapSet, List.countP_append, List.countP_singleton]
        by_cases hpa : p = endpointPort a
        · subst hpa
          rw [ih3]
          simp only [hx, decide_True, Bool.and_self, if_true]
          by_cases hc : l.countP
              (fun e => decide (e.Purpose = "export")
                && decide (endpointPort e = endpointPort a)) = 0
          · rw [if_pos hc, hc]
            rfl
          · rw [if_neg hc, if_neg (Nat.succ_ne_zero _), Option.getD_some,
              List.replicate_succ']
        · have hq : ¬ endpointPort a = p := fun h => hpa h.symm
          simp only [hpa, if_false, hq, decide_False, Bool.and_false, Bool.false_eq_true,
            add_zero]
          exact ih3 p
    · have hstep : exposeEndpoint (l.foldl exposeEndpoint ([], [])) a
          = l.foldl exposeEndpoint ([], []) := by
        simp [exposeEndpoint, hx]
      rw [hstep]
      refine ⟨?_, ih2, ?_⟩
      · intro p
        rw [ih1]
        constructor
        · rintro ⟨e, he, hp, hq⟩
          exact ⟨e, List.mem_append.mpr (Or.inl he), hp, hq⟩
        · rintro ⟨e, he, hp, hq⟩
          rcases List.mem_append.mp he with he | he
          · exact ⟨e, he, hp, hq⟩
          · rw [List.mem_singleton] at he
            subst he
            exact absurd hp hx
      · intro p
        rw [List.countP_append, List.countP_singleton]
        simp only [hx, decide_False, Bool.false_and, Bool.false_eq_true, if_false, add_zero]
        exact ih3 p

/-- The number of export endpoints of a port is the number of times the port occurs among
the ports of the export endpoints. -/
theorem countP_export_eq_count (es : List ServiceEndpoint) (p : String) :
    es.countP (fun e => decide (e.Purpose = "export") && decide (endpointPort e = p))
      = ((es.filter (fun e => decide (e.Purpose = "export"))).map endpointPort).count p := by
  induction es with
  | nil => rfl
  | cons a t ih =>
    by_cases hx : a.Purpose = "export"
    · by_cases hp : endpointPort a = p
      · simp [List.countP_cons, List.filter_cons, hx, hp, ih]
      · simp [List.countP_cons, List.filter_cons, hx, hp, ih, List.count_cons]
    · simp [List.countP_cons, List.filter_cons, hx, ih]

/-- C22, amended: the exposed ports of the container configuration are exactly the ports
`<portNumber>/udp` (protocol udp) or `<portNumber>/tcp` (otherwise) of the endpoints whose
purpose is "export", each exposed once; a port that is not exposed has no binding; an
exposed port has one binding for each export endpoint it comes from; and when the export
endpoints have pairwise distinct ports every exposed port has exactly one binding. -/
theorem configurePorts_exposes (svc : Service) :
    (∀ e : ServiceEndpoint, endpointPort e
      = toString e.PortNumber ++ (if e.Protocol = "udp" then "/udp" else "/tcp")) ∧
    (∀ p, p ∈ (configurePorts svc).1
      ↔ ∃ e ∈ svc.Endpoints, e.Purpose = "export" ∧ endpointPort e = p) ∧
    (configurePorts svc).1.Nodup ∧
    (∀ p, p ∉ (configurePorts svc).1 → (configurePorts svc).2.lookup p = none) ∧
    (∀ p ∈ (configurePorts svc).1,
      0 < svc.Endpoints.countP
            (fun e => decide (e.Purpose = "export") && decide (endpointPort e = p)) ∧
      (configurePorts svc).2.lookup p
        = some (List.replicate
            (svc.Endpoints.countP
              (fun e => decide (e.Purpose = "export") && decide (endpointPort e = p)))
            ({} : PortBinding))) ∧
    (((svc.Endpoints.filter (fun e => decide (e.Purpose = "export"))).map endpointPort).Nodup →
      ∀ p ∈ (configurePorts svc).1,
        (configurePorts svc).2.lookup p = some [({} : PortBinding)]) := by
  obtain ⟨h1, h2, h3⟩ := configurePorts_fold svc.Endpoints
  have hcount : ∀ p, p ∈ (configurePorts svc).1 ↔
      0 < svc.Endpoints.countP
            (fun e => decide (e.Purpose = "export") && decide (endpointPort e = p)) := by
    intro p
    unfold configurePorts
    rw [h1 p, List.countP_pos_iff]
    simp
  refine ⟨?_, h1, h2, ?_, ?_, ?_⟩
  · intro e
    unfold endpointPort UDP
    split_ifs <;> rfl
  · intro p hp
    rw [hcount] at hp
    unfold configurePorts
    rw [h3 p, if_pos (by omega)]
  · intro p hp
    rw [hcount] at hp
    refine ⟨hp, ?_⟩
    unfold configurePorts
    rw [h3 p, if_neg (by omega)]
  · intro hnd p hp
    rw [hcount] at hp
    have hle := List.nodup_iff_count_le_one.mp hnd p
    rw [← countP_export_eq_count] at hle
    have hone : svc.Endpoints.countP
        (fun e => decide (e.Purpose = "export") && decide (endpointPort e = p)) = 1 := by
      omega
    unfold configurePorts
    rw [h3 p, if_neg (by omega), hone]
    rfl

/-- C22, amended, at a service exporting 80 over tcp and 53 over udp and importing 3306. -/
theorem configurePorts_exposes_witness :
    ((exampleExports.Endpoints.filter
        (fun e => decide (e.Purpose = "export"))).map endpointPort).Nodup ∧
    (∀ p ∈ (configurePorts exampleExports).1,
      (configurePorts exampleExports).2.lookup p = some [({} : PortBinding)]) ∧
    (configurePorts exampleExports).1 = ["53/udp", "80/tcp"] :=
  ⟨by decide, (configurePorts_exposes exampleExports).2.2.2.2.2 (by decide), by decide⟩

/-! ## Owner specifications -/

/-- A character class matches exactly the texts of one listed character. -/
theorem matches_charClass (cs : List Char) (l : List Char) :
    l ∈ (charClass cs).matches' ↔ ∃ c ∈ cs, l = [c] := by
  induction cs with
  | nil =>
    simp only [charClass, List.foldr_nil, List.not_mem_nil, false_and, exists_false, iff_false]
    exact fun h => h
  | cons a t ih =>
    have hcons : charClass (a :: t)
        = RegularExpression.plus (RegularExpression.char a) (charClass t) := rfl
    have hplus : (RegularExpression.plus (RegularExpression.char a) (charClass t)).matches'
        = (RegularExpression.char a).matches' + (charClass t).matches' := rfl
    rw [hcons, hplus, Language.mem_add, ih, RegularExpression.matches'_char]
    constructor
    · rintro (h | ⟨c, hc, h⟩)
      · exact ⟨a, List.mem_cons_self _ _, h⟩
      · exact ⟨c, List.mem_cons_of_mem _ hc, h⟩
    · rintro ⟨c, hc, h⟩
      rcases List.mem_cons.mp hc with hc | hc
      · subst hc
        exact Or.inl h
      · exact Or.inr ⟨c, hc, h⟩

/-- The star of a character class matches exactly the texts of listed characters. -/
theorem matches_star_charClass (cs : List Char) (l : List Char) :
    l ∈ (RegularExpression.star (charClass cs)).matches' ↔ ∀ c ∈ l, c ∈ cs := by
  have hstar : (RegularExpression.star (charClass cs)).matches'
      = KStar.kstar (charClass cs).matches' := rfl
  rw [hstar, Language.mem_kstar]
  constructor
  · rintro ⟨S, rfl, hS⟩ c hc
    rw [List.mem_flatten] at hc
    obtain ⟨y, hy, hcy⟩ := hc
    obtain ⟨d, hd, rfl⟩ := (matches_charClass cs y).mp (hS y hy)
    rw [List.mem_singleton] at hcy
    subst hcy
    exact hd
  · intro h
    refine ⟨l.map (fun c => [c]), ?_, ?_⟩
    · clear h
      induction l with
      | nil => rfl
      | cons a t ih => simpa using ih
    · intro y hy
      rw [List.mem_map] at hy
      obtain ⟨c, hc, rfl⟩ := hy
      exact (matches_charClass cs [c]).mpr ⟨c, h c hc, rfl⟩

/-- The expression `[a-zA-Z]+[a-zA-Z0-9.-]*` matches exactly the texts of a letter followed
by letters, digits, `.` and `-`. -/
theorem matches_identPattern (l : List Char) :
    l ∈ identPattern.matches' ↔
      ∃ c t, l = c :: t ∧ c ∈ letterChars ∧ ∀ x ∈ t, x ∈ identChars := by
  have hcomp : identPattern.matches'
      = (charClass letterChars).matches'
        * ((RegularExpression.star (charClass letterChars)).matches'
          * (RegularExpression.star (charClass identChars)).matches') := rfl
  rw [hcomp, Language.mem_mul]
  constructor
  · rintro ⟨a, ha, b, hb, rfl⟩
    obtain ⟨c, hc, rfl⟩ := (matches_charClass _ a).mp ha
    rw [Language.mem_mul] at hb
    obtain ⟨u, hu, v, hv, rfl⟩ := hb
    rw [matches_star_charClass] at hu hv
    refine ⟨c, u ++ v, rfl, hc, ?_⟩
    intro x hx
    rcases List.mem_append.mp hx with hx | hx
    · exact List.mem_append.mpr (Or.inl (hu x hx))
    · exact hv x hx
  · rintro ⟨c, t, rfl, hc, ht⟩
    refine ⟨[c], (matches_charClass _ [c]).mpr ⟨c, hc, rfl⟩, t, ?_, rfl⟩
    rw [Language.mem_mul]
    exact ⟨[], (matches_star_charClass _ []).mpr (by simp), t,
      (matches_star_charClass _ t).mpr ht, rfl⟩

/-- The form of the texts that `validOwnerSpec` accepts. -/
theorem validOwnerSpec_form (s : String) :
    validOwnerSpec s = true ↔
      ∃ owner group : List Char, s.toList = owner ++ ':' :: group ∧
        (∃ c t, owner = c :: t ∧ c ∈ letterChars ∧ ∀ x ∈ t, x ∈ identChars) ∧
        (∃ c t, group = c :: t ∧ c ∈ letterChars ∧ ∀ x ∈ t, x ∈ identChars) := by
  unfold validOwnerSpec
  rw [RegularExpression.rmatch_iff_matches']
  have hcomp : ownerSpecPattern.matches'
      = identPattern.matches' * ((RegularExpression.char ':').matches'
          * identPattern.matches') := rfl
  rw [hcomp, Language.mem_mul]
  constructor
  · rintro ⟨a, ha, b, hb, hab⟩
    rw [Language.mem_mul] at hb
    obtain ⟨u, hu, v, hv, rfl⟩ := hb
    rw [RegularExpression.matches'_char] at hu
    have hu2 : u = [':'] := hu
    subst hu2
    exact ⟨a, v, hab.symm, (matches_identPattern a).mp ha, (matches_identPattern v).mp hv⟩
  · rintro ⟨owner, group, hs, ho, hg⟩
    refine ⟨owner, (matches_identPattern owner).mpr ho, ':' :: group, ?_, hs.symm⟩
    rw [Language.mem_mul]
    refine ⟨[':'], ?_, group, (matches_identPattern group).mpr hg, rfl⟩
    rw [RegularExpression.matches'_char]
    rfl

/-- C25: `validOwnerSpec(s)` is true exactly when `s` is an owner, a colon and a group, where
owner and group each start with an ASCII letter and continue with ASCII letters, digits,
`.` or `-` (so there is no second colon); the empty text, ":", an identifier starting with
`.` and "test,test" are rejected; "mysql:mysql", "user.name:group.name" and
"user-name:group-name" are accepted. -/
theorem validOwnerSpec_iff :
    (∀ s : String, validOwnerSpec s = true ↔
      ∃ owner group : List Char, s.toList = owner ++ ':' :: group ∧
        (∃ c t, owner = c :: t ∧ c ∈ letterChars ∧ ∀ x ∈ t, x ∈ identChars) ∧
        (∃ c t, group = c :: t ∧ c ∈ letterChars ∧ ∀ x ∈ t, x ∈ identChars)) ∧
    ':' ∉ identChars ∧
    letterChars = "abcdefghijklmnopqrstuvwxyzABCDEFGHIJKLMNOPQRSTUVWXYZ".toList ∧
    identChars
      = "abcdefghijklmnopqrstuvwxyzABCDEFGHIJKLMNOPQRSTUVWXYZ0123456789.-".toList ∧
    validOwnerSpec "" = false ∧
    validOwnerSpec ":" = false ∧
    validOwnerSpec ".test:test" = false ∧
    validOwnerSpec "test:.test" = false ∧
    validOwnerSpec "test,test" = false ∧
    validOwnerSpec "mysql:mysql" = true ∧
    validOwnerSpec "user.name:group.name" = true ∧
    validOwnerSpec "user-name:group-name" = true := by
  have key : ∀ s : String, validOwnerSpec s = true ↔
      ∃ owner group : List Char, s.toList = owner ++ ':' :: group ∧
        (∃ c t, owner = c :: t ∧ c ∈ letterChars ∧ ∀ x ∈ t, x ∈ identChars) ∧
        (∃ c t, group = c :: t ∧ c ∈ letterChars ∧ ∀ x ∈ t, x ∈ identChars) := by
    intro s
    exact validOwnerSpec_form s
  refine ⟨key, by decide, rfl, by decide, by decide, by decide, by decide, by decide,
    by decide, ?_, ?_, ?_⟩
  · exact (key "mysql:mysql").mpr ⟨"mysql".toList, "mysql".toList, by decide,
      ⟨'m', "ysql".toList, by decide, by decide, by decide⟩,
      ⟨'m', "ysql".toList, by decide, by decide, by decide⟩⟩
  · exact (key "user.name:group.name").mpr ⟨"user.name".toList, "group.name".toList,
      by decide, ⟨'u', "ser.name".toList, by decide, by decide, by decide⟩,
      ⟨'g', "roup.name".toList, by decide, by decide, by decide⟩⟩
  · exact (key "user-name:group-name").mpr ⟨"user-name".toList, "group-name".toList,
      by decide, ⟨'u', "ser-name".toList, by decide, by decide, by decide⟩,
      ⟨'g', "roup-name".toList, by decide, by decide, by decide⟩⟩

/-! ## Go string functions -/

/-- A text without the separator is one piece. -/
theorem splitChar_of_not_mem (sep : Char) (l : List Char) (h : sep ∉ l) :
    splitChar sep l = [l] := by
  induction l with
  | nil => rfl
  | cons c t ih =>
    have hc : c ≠ sep := fun e => h (e ▸ List.mem_cons_self _ _)
    have ht : sep ∉ t := fun e => h (List.mem_cons_of_mem _ e)
    simp [splitChar, hc, ih ht]

/-- The first piece ends at the first separator. -/
theorem splitChar_append (sep : Char) (l r : List Char) (h : sep ∉ l) :
    splitChar sep (l ++ sep :: r) = l :: splitChar sep r := by
  induction l with
  | nil => simp [splitChar]
  | cons c t ih =>
    have hc : c ≠ sep := fun e => h (e ▸ List.mem_cons_self _ _)
    have ht : sep ∉ t := fun e => h (List.mem_cons_of_mem _ e)
    simp [splitChar, hc, ih ht]

/-- Joining two or more texts: the first text, the separator, and the rest joined. -/
theorem intercalate_cons_cons (sep : Char) (a b : List Char) (t : List (List Char)) :
    List.intercalate [sep] (a :: b :: t) = a ++ sep :: List.intercalate [sep] (b :: t) := by
  simp [List.intercalate, List.intersperse]

/-- Joining one text. -/
theorem intercalate_single (sep : Char) (a : List Char) :
    List.intercalate [sep] [a] = a := by
  simp [List.intercalate, List.intersperse]

/-- Splitting undoes joining texts that are free of the separator. -/
theorem splitChar_intercalate (sep : Char) (ls : List (List Char)) (hne : ls ≠ [])
    (h : ∀ l ∈ ls, sep ∉ l) : splitChar sep (List.intercalate [sep] ls) = ls := by
  induction ls with
  | nil => exact absurd rfl hne
  | cons a t ih =>
    cases t with
    | nil =>
      rw [intercalate_single]
      exact splitChar_of_not_mem sep a (h a (List.mem_cons_self _ _))
    | cons b t2 =>
      rw [intercalate_cons_cons, splitChar_append sep a _ (h a (List.mem_cons_self _ _)),
        ih (List.cons_ne_nil _ _) (fun l hl => h l (List.mem_cons_of_mem _ hl))]

/-- A character of joined texts is the separator or a character of one of the texts. -/
theorem mem_intercalate (sep : Char) (ls : List (List Char)) (ch : Char)
    (h : ch ∈ List.intercalate [sep] ls) : ch = sep ∨ ∃ l ∈ ls, ch ∈ l := by
  induction ls with
  | nil => simp [List.intercalate, List.intersperse] at h
  | cons a t ih =>
    cases t with
    | nil =>
      rw [intercalate_single] at h
      exact Or.inr ⟨a, List.mem_cons_self _ _, h⟩
    | cons b t2 =>
      rw [intercalate_cons_cons, List.mem_append, List.mem_cons] at h
      rcases h with h | h | h
      · exact Or.inr ⟨a, List.mem_cons_self _ _, h⟩
      · exact Or.inl h
      · rcases ih h with h2 | ⟨l, hl, h2⟩
        · exact Or.inl h2
        · exact Or.inr ⟨l, List.mem_cons_of_mem _ hl, h2⟩

/-- Splitting in two at the first separator. -/
theorem splitN2_append (sep : Char) (x r : List Char) (h : sep ∉ x) :
    splitN2 sep (x ++ sep :: r) = [x, r] := by
  have hmem : sep ∈ x ++ sep :: r := by simp
  have htake : ∀ x : List Char, sep ∉ x →
      (x ++ sep :: r).takeWhile (fun c => !(c == sep)) = x ∧
      (x ++ sep :: r).dropWhile (fun c => !(c == sep)) = sep :: r := by
    intro x
    induction x with
    | nil => intro _; simp [List.takeWhile, List.dropWhile]
    | cons c t ih =>
      intro hx
      have hc : c ≠ sep := fun e => hx (e ▸ List.mem_cons_self _ _)
      have ht : sep ∉ t := fun e => hx (List.mem_cons_of_mem _ e)
      have hb : (!(c == sep)) = true := by simpa using hc
      obtain ⟨h1, h2⟩ := ih ht
      constructor
      · rw [List.cons_append, List.takeWhile_cons, hb, if_pos rfl, h1]
      · rw [List.cons_append, List.dropWhile_cons, hb, if_pos rfl, h2]
  obtain ⟨h1, h2⟩ := htake x h
  unfold splitN2
  rw [if_pos hmem, h1, h2]
  rfl

/-- A text without the separator is not split. -/
theorem splitN2_of_not_mem (sep : Char) (x : List Char) (h : sep ∉ x) :
    splitN2 sep x = [x] := by
  unfold splitN2
  rw [if_neg h]

/-- The first part of a text split in two is a prefix of the text. -/
theorem splitN2_first_part (sep : Char) (line p0 p1 : List Char)
    (h : splitN2 sep line = [p0, p1]) : p0 <+: line := by
  unfold splitN2 at h
  split_ifs at h with hm
  · simp only [List.cons.injEq, and_true] at h
    rw [← h.1]
    exact List.takeWhile_prefix _
  · simp at h

/-- A text split in two has one part or two. -/
theorem splitN2_cases (sep : Char) (line : List Char) :
    splitN2 sep line = [line] ∨ ∃ p0 p1, splitN2 sep line = [p0, p1] := by
  unfold splitN2
  split_ifs
  · exact Or.inr ⟨_, _, rfl⟩
  · exact Or.inl rfl

/-- Trailing white space ends at a character that is no white space. -/
theorem trimRight_cons_nonspace (c : Char) (t : List Char) (hc : isSpace c = false) :
    trimRight (c :: t) = c :: trimRight t := by
  rw [trimRight]
  split
  · rename_i h
    rw [h]
    simp [hc]
  · rfl

/-- A text without white space has nothing to trim on the right. -/
theorem trimRight_of_no_space (l : List Char) (h : ∀ c ∈ l, isSpace c = false) :
    trimRight l = l := by
  induction l with
  | nil => rfl
  | cons c t ih =>
    rw [trimRight_cons_nonspace c t (h c (List.mem_cons_self _ _)),
      ih (fun x hx => h x (List.mem_cons_of_mem _ hx))]

/-- Trimming on the right keeps the text up to a character that is no white space. -/
theorem trimRight_append_nonspace (p : List Char) (c : Char) (r : List Char)
    (hp : ∀ x ∈ p, isSpace x = false) (hc : isSpace c = false) :
    trimRight (p ++ c :: r) = p ++ c :: trimRight r := by
  induction p with
  | nil => exact trimRight_cons_nonspace c r hc
  | cons a t ih =>
    rw [List.cons_append, trimRight_cons_nonspace a _ (hp a (List.mem_cons_self _ _)),
      ih (fun x hx => hp x (List.mem_cons_of_mem _ hx))]
    rfl

/-- A decimal digit is no white space, no `-`, no `.`, no `+`. -/
theorem isDigit_facts (c : Char) (h : isDigit c = true) :
    isSpace c = false ∧ c ≠ '-' ∧ c ≠ '.' ∧ c ≠ '+' := by
  simp only [isDigit, Bool.and_eq_true, decide_eq_true_eq] at h
  refine ⟨?_, ?_, ?_, ?_⟩
  · simp only [isSpace, List.mem_cons, List.not_mem_nil, or_false, Bool.or_eq_false_iff,
      decide_eq_false_iff_not, Bool.and_eq_false_iff, not_le]
    omega
  · rintro rfl
    revert h
    decide
  · rintro rfl
    revert h
    decide
  · rintro rfl
    revert h
    decide

/-! ## Decimal numerals -/

/-- The character of a digit is a decimal digit with the value of the digit. -/
theorem digitChar_facts (m : Nat) (h : m < 10) :
    isDigit (Nat.digitChar m) = true ∧ (Nat.digitChar m).toNat - 48 = m := by
  interval_cases m <;> decide

/-- The digits that `Nat.toDigitsCore` puts in front of `ds` are decimal digits that
denote `n`. -/
theorem toDigitsCore_spec (fuel : Nat) : ∀ (n : Nat) (ds : List Char), n < fuel →
    ∃ pre, Nat.toDigitsCore 10 fuel n ds = pre ++ ds ∧ pre ≠ [] ∧
      (∀ ch ∈ pre, isDigit ch = true) ∧
      ∀ a, pre.foldl (fun acc c => acc * 10 + (c.toNat - 48)) a = a * 10 ^ pre.length + n := by
  induction fuel with
  | zero => intro n ds h; omega
  | succ fuel ih =>
    intro n ds h
    obtain ⟨hd, hv⟩ := digitChar_facts (n % 10) (Nat.mod_lt _ (by norm_num))
    rw [Nat.toDigitsCore]
    by_cases h0 : n / 10 = 0
    · simp only [h0, if_true]
      refine ⟨[Nat.digitChar (n % 10)], rfl, by simp, ?_, ?_⟩
      · intro ch hch
        rw [List.mem_singleton] at hch
        rw [hch]
        exact hd
      · intro a
        simp only [List.foldl_cons, List.foldl_nil, hv, List.length_singleton, pow_one]
        omega
    · simp only [h0, if_false]
      obtain ⟨pre, hpre, _, hdig, hval⟩ :=
        ih (n / 10) (Nat.digitChar (n % 10) :: ds) (by omega)
      refine ⟨pre ++ [Nat.digitChar (n % 10)], ?_, by simp, ?_, ?_⟩
      · rw [hpre]
        simp
      · intro ch hch
        rcases List.mem_append.mp hch with hch | hch
        · exact hdig ch hch
        · rw [List.mem_singleton] at hch
          rw [hch]
          exact hd
      · intro a
        rw [List.foldl_append, hval a]
        simp only [List.foldl_cons, List.foldl_nil, hv, List.length_append,
          List.length_singleton, pow_succ]
        rw [← mul_assoc]
        generalize a * 10 ^ pre.length = X
        omega

/-- The decimal text of a natural number: not empty, decimal digits, denoting the number. -/
theorem repr_digits (n : Nat) :
    (Nat.repr n).toList ≠ [] ∧ (∀ ch ∈ (Nat.repr n).toList, isDigit ch = true) ∧
    digitsValue (Nat.repr n).toList = n := by
  have hrepr : (Nat.repr n).toList = Nat.toDigitsCore 10 (n + 1) n [] := rfl
  obtain ⟨pre, hpre, hne, hdig, hval⟩ := toDigitsCore_spec (n + 1) n [] (by omega)
  rw [hrepr, hpre, List.append_nil]
  refine ⟨hne, hdig, ?_⟩
  have h0 := hval 0
  simpa [digitsValue] using h0

/-- The digits loop reads the decimal text of a natural number as that number. -/
theorem parseDigits_repr (n : Nat) : parseDigits (Nat.repr n).toList = some n := by
  obtain ⟨hne, hdig, hval⟩ := repr_digits n
  unfold parseDigits
  rw [if_pos ⟨hne, List.all_eq_true.mpr hdig⟩, hval]

/-- `strconv.Atoi` reads the decimal text of a natural number below `2 ^ 63` as that
number. -/
theorem Atoi_repr (n : Nat) (h : n < 2 ^ 63) : Atoi (Nat.repr n).toList = .ok (n : Int) := by
  obtain ⟨hne, hdig, _⟩ := repr_digits n
  have hp := parseDigits_repr n
  cases hrepr : (Nat.repr n).toList with
  | nil => exact absurd hrepr hne
  | cons d t =>
    rw [hrepr] at hdig hp
    obtain ⟨_, hm, _, hpl⟩ := isDigit_facts d (hdig d (List.mem_cons_self _ _))
    unfold Atoi
    split
    · rename_i heq
      simp only [List.cons.injEq] at heq
      exact absurd heq.1 hm
    · rename_i heq
      simp only [List.cons.injEq] at heq
      exact absurd heq.1 hpl
    · rw [hp]
      have h2 : n < 9223372036854775808 := by
        norm_num at h
        exact h
      simp [h2]

/-- `strconv.Atoi` of the decimal texts of natural numbers below `2 ^ 63`. -/
theorem atoiAll_repr (c : List Nat) (hb : ∀ n ∈ c, n < 2 ^ 63) :
    atoiAll (c.map (fun n => (Nat.repr n).toList)) = .ok (c.map (fun n : Nat => (n : Int))) := by
  induction c with
  | nil => rfl
  | cons n t ih =>
    rw [List.map_cons, atoiAll, Atoi_repr n (hb n (List.mem_cons_self _ _))]
    simp only
    rw [ih (fun m hm => hb m (List.mem_cons_of_mem _ hm))]
    rfl

/-- The text of a tuple has digits and dots only. -/
theorem versionText_chars (c : List Nat) (ch : Char) (h : ch ∈ versionText c) :
    isSpace ch = false ∧ ch ≠ '-' := by
  rcases mem_intercalate '.' _ ch h with h | ⟨l, hl, hch⟩
  · subst h
    decide
  · rw [List.mem_map] at hl
    obtain ⟨n, _, rfl⟩ := hl
    obtain ⟨h1, h2, _, _⟩ := isDigit_facts ch ((repr_digits n).2.1 ch hch)
    exact ⟨h1, h2⟩

/-- The text of a non-empty tuple starts with a character. -/
theorem versionText_ne_nil (c : List Nat) (hc : c ≠ []) :
    ∃ d x, versionText c = d :: x := by
  cases c with
  | nil => exact absurd rfl hc
  | cons n t =>
    obtain ⟨hne, _, _⟩ := repr_digits n
    cases hrepr : (Nat.repr n).toList with
    | nil => exact absurd hrepr hne
    | cons d r =>
      cases t with
      | nil =>
        refine ⟨d, r, ?_⟩
        simp only [versionText, List.map_cons, List.map_nil]
        rw [intercalate_single, hrepr]
      | cons m t2 =>
        refine ⟨d, r ++ '.' :: List.intercalate ['.']
          ((m :: t2).map (fun n => (Nat.repr n).toList)), ?_⟩
        simp only [versionText, List.map_cons]
        rw [intercalate_cons_cons, hrepr]
        rfl

/-- The numbers read after the colon of a version line are the numbers of the tuple. -/
theorem versionNumbers_text (c : List Nat) (suffix : Option (List Char)) (hc : c ≠ [])
    (hb : ∀ n ∈ c, n < 2 ^ 63) :
    versionNumbers (' ' :: (versionText c ++
      (match suffix with
       | none => []
       | some r => '-' :: r))) = .ok (c.map (fun n : Nat => (n : Int))) := by
  have hchars := versionText_chars c
  obtain ⟨d, x, hdx⟩ := versionText_ne_nil c hc
  have hd : isSpace d = false := (hchars d (hdx ▸ List.mem_cons_self _ _)).1
  have hsplit : splitChar '.' (versionText c) = c.map (fun n => (Nat.repr n).toList) := by
    unfold versionText
    apply splitChar_intercalate
    · simpa using hc
    · intro l hl hdot
      rw [List.mem_map] at hl
      obtain ⟨n, _, rfl⟩ := hl
      exact (isDigit_facts '.' ((repr_digits n).2.1 '.' hdot)).2.2.1 rfl
  have hnominus : '-' ∉ versionText c := fun hm => (hchars '-' hm).2 rfl
  have hhead : (splitN2 '-' (TrimSpace (' ' :: (versionText c ++
      (match suffix with
       | none => []
       | some r => '-' :: r))))).headD [] = versionText c := by
    have hdrop : ∀ y : List Char, (' ' :: (versionText c ++ y)).dropWhile isSpace
        = versionText c ++ y := by
      intro y
      rw [hdx]
      have hsp : isSpace ' ' = true := by decide
      simp [List.dropWhile_cons, hsp, hd]
    unfold TrimSpace
    rw [hdrop]
    cases suffix with
    | none =>
      simp only [List.append_nil]
      rw [trimRight_of_no_space _ (fun ch hch => (hchars ch hch).1),
        splitN2_of_not_mem _ _ hnominus]
      rfl
    | some r =>
      simp only
      rw [trimRight_append_nonspace _ '-' r (fun ch hch => (hchars ch hch).1) (by decide),
        splitN2_append _ _ _ hnominus]
      rfl
  unfold versionNumbers
  rw [hhead, hsplit]
  exact atoiAll_repr c hb

/-! ## The docker version -/

/-- C26 fails as stated: the client version `9223372036854775808` (two to the 63) is out
of the range of `strconv.Atoi`, and `parseDockerVersion` returns its error. -/
theorem parseDockerVersion_range_counterexample :
    parseDockerVersion (String.mk (List.intercalate ['\n']
        [versionLine "Client version" [2 ^ 63] none, versionLine "Server version" [1] none]))
      = .error "value out of range" ∧
    String.mk (List.intercalate ['\n']
        [versionLine "Client version" [2 ^ 63] none, versionLine "Server version" [1] none])
      = "Client version: 9223372036854775808\nServer version: 1" := by
  constructor
  · rfl
  · decide

/-- The loop body at a client line sets the client version. -/
theorem parseVersionLine_client (v : DockerVersion) (c : List Nat)
    (suffix : Option (List Char)) (hc : c ≠ []) (hb : ∀ n ∈ c, n < 2 ^ 63) :
    parseVersionLine v (versionLine "Client version" c suffix)
      = .ok { v with Client := c.map (fun n : Nat => (n : Int)) } := by
  have hsplit : splitN2 ':' (versionLine "Client version" c suffix)
      = ["Client version".toList, ' ' :: (versionText c ++
          (match suffix with
           | none => []
           | some r => '-' :: r))] := by
    unfold versionLine
    exact splitN2_append ':' _ _ (by decide)
  have h1 : HasPrefix "Client version".toList "Client version".toList = true := by decide
  have h2 : HasPrefix "Client version".toList "Server version".toList = false := by decide
  unfold parseVersionLine
  rw [hsplit]
  simp only [h1, h2, if_true, versionNumbers_text c suffix hc hb, Bool.false_eq_true,
    if_false]

/-- The loop body at a server line sets the server version. -/
theorem parseVersionLine_server (v : DockerVersion) (s : List Nat)
    (suffix : Option (List Char)) (hs : s ≠ []) (hb : ∀ n ∈ s, n < 2 ^ 63) :
    parseVersionLine v (versionLine "Server version" s suffix)
      = .ok { v with Server := s.map (fun n : Nat => (n : Int)) } := by
  have hsplit : splitN2 ':' (versionLine "Server version" s suffix)
      = ["Server version".toList, ' ' :: (versionText s ++
          (match suffix with
           | none => []
           | some r => '-' :: r))] := by
    unfold versionLine
    exact splitN2_append ':' _ _ (by decide)
  have h1 : HasPrefix "Server version".toList "Server version".toList = true := by decide
  have h2 : HasPrefix "Server version".toList "Client version".toList = false := by decide
  unfold parseVersionLine
  rw [hsplit]
  simp only [h1, h2, if_true, versionNumbers_text s suffix hs hb, Bool.false_eq_true,
    if_false]

/-- A first part that starts with a label belongs to a line that starts with it. -/
theorem hasPrefix_false_of_line (label line p0 p1 : List Char)
    (hsplit : splitN2 ':' line = [p0, p1]) (h : ¬ label <+: line) :
    HasPrefix p0 label = false := by
  cases hp : HasPrefix p0 label with
  | false => rfl
  | true =>
    unfold HasPrefix at hp
    rw [List.isPrefixOf_iff_prefix] at hp
    exact absurd (hp.trans (splitN2_first_part ':' line p0 p1 hsplit)) h

/-- The loop body keeps the client version at a line that does not start with
`Client version`, unless it returns an error. -/
theorem parseVersionLine_keeps_client (v : DockerVersion) (line : List Char)
    (h : ¬ "Client version".toList <+: line) :
    (∃ e, parseVersionLine v line = .error e) ∨
    ∃ v2, parseVersionLine v line = .ok v2 ∧ v2.Client = v.Client := by
  rcases splitN2_cases ':' line with hs | ⟨p0, p1, hs⟩
  · right
    refine ⟨v, ?_, rfl⟩
    unfold parseVersionLine
    rw [hs]
  · have h1 := hasPrefix_false_of_line _ line p0 p1 hs h
    unfold parseVersionLine
    rw [hs]
    simp only [h1, Bool.false_eq_true, if_false]
    by_cases h2 : HasPrefix p0 "Server version".toList = true
    · simp only [h2, if_true]
      cases versionNumbers p1 with
      | error e => exact Or.inl ⟨e, rfl⟩
      | ok b => exact Or.inr ⟨_, rfl, rfl⟩
    · simp only [h2, if_false]
      exact Or.inr ⟨v, rfl, rfl⟩

/-- The loop body keeps the server version at a line that does not start with
`Server version`, unless it returns an error. -/
theorem parseVersionLine_keeps_server (v : DockerVersion) (line : List Char)
    (h : ¬ "Server version".toList <+: line) :
    (∃ e, parseVersionLine v line = .error e) ∨
    ∃ v2, parseVersionLine v line = .ok v2 ∧ v2.Server = v.Server := by
  rcases splitN2_cases ':' line with hs | ⟨p0, p1, hs⟩
  · right
    refine ⟨v, ?_, rfl⟩
    unfold parseVersionLine
    rw [hs]
  · have h1 := hasPrefix_false_of_line _ line p0 p1 hs h
    unfold parseVersionLine
    rw [hs]
    simp only [h1, Bool.false_eq_true, if_false]
    by_cases h2 : HasPrefix p0 "Client version".toList = true
    · simp only [h2, if_true]
      cases versionNumbers p1 with
      | error e => exact Or.inl ⟨e, rfl⟩
      | ok b => exact Or.inr ⟨_, rfl, rfl⟩
    · simp only [h2, if_false]
      exact Or.inr ⟨v, rfl, rfl⟩

/-- The loop body leaves the version as it is at a line that starts with neither label. -/
theorem parseVersionLine_other (v : DockerVersion) (line : List Char)
    (h1 : ¬ "Client version".toList <+: line) (h2 : ¬ "Server version".toList <+: line) :
    parseVersionLine v line = .ok v := by
  rcases splitN2_cases ':' line with hs | ⟨p0, p1, hs⟩
  · unfold parseVersionLine
    rw [hs]
  · have hf1 := hasPrefix_false_of_line _ line p0 p1 hs h1
    have hf2 := hasPrefix_false_of_line _ line p0 p1 hs h2
    unfold parseVersionLine
    rw [hs]
    simp only [hf1, hf2, Bool.false_eq_true, if_false]

/-- The loop over lines that are client lines of `c`, server lines of `s` or start with
neither label: no error, the client version is `c` once a client line was read and the
server version is `s` once a server line was read. -/
theorem parseVersionLines_spec (c s : List Nat) (hc : c ≠ []) (hs : s ≠ [])
    (hcb : ∀ n ∈ c, n < 2 ^ 63) (hsb : ∀ n ∈ s, n < 2 ^ 63) (lines : List (List Char))
    (hother : ∀ line ∈ lines,
      (∃ suffix, line = versionLine "Client version" c suffix) ∨
      (∃ suffix, line = versionLine "Server version" s suffix) ∨
      (¬ "Client version".toList <+: line ∧ ¬ "Server version".toList <+: line)) :
    ∀ v : DockerVersion, ∃ v2, parseVersionLines v lines = .ok v2 ∧
      ((∃ suffix, versionLine "Client version" c suffix ∈ lines) →
        v2.Client = c.map (fun n : Nat => (n : Int))) ∧
      (v.Client = c.map (fun n : Nat => (n : Int)) → v2.Client = c.map (fun n : Nat => (n : Int))) ∧
      ((∃ suffix, versionLine "Server version" s suffix ∈ lines) →
        v2.Server = s.map (fun n : Nat => (n : Int))) ∧
      (v.Server = s.map (fun n : Nat => (n : Int)) → v2.Server = s.map (fun n : Nat => (n : Int))) := by
  induction lines with
  | nil =>
    intro v
    refine ⟨v, rfl, ?_, fun h => h, ?_, fun h => h⟩
    · rintro ⟨sfx, h⟩
      exact absurd h (List.not_mem_nil _)
    · rintro ⟨sfx, h⟩
      exact absurd h (List.not_mem_nil _)
  | cons line rest ih =>
    intro v
    have ih2 := ih (fun l hl => hother l (List.mem_cons_of_mem _ hl))
    have hstep : ∃ v1, parseVersionLine v line = .ok v1 ∧
        ((∃ suffix, line = versionLine "Client version" c suffix) →
          v1.Client = c.map (fun n : Nat => (n : Int))) ∧
        (v.Client = c.map (fun n : Nat => (n : Int)) → v1.Client = c.map (fun n : Nat => (n : Int))) ∧
        ((∃ suffix, line = versionLine "Server version" s suffix) →
          v1.Server = s.map (fun n : Nat => (n : Int))) ∧
        (v.Server = s.map (fun n : Nat => (n : Int)) → v1.Server = s.map (fun n : Nat => (n : Int))) := by
      have hnc : ∀ sfx, ¬ "Server version".toList <+: versionLine "Client version" c sfx := by
        intro sfx hp
        unfold versionLine at hp
        have h3 := List.prefix_of_prefix_length_le hp (List.prefix_append _ _) (by decide)
        revert h3
        decide
      have hns : ∀ sfx, ¬ "Client version".toList <+: versionLine "Server version" s sfx := by
        intro sfx hp
        unfold versionLine at hp
        have h3 := List.prefix_of_prefix_length_le hp (List.prefix_append _ _) (by decide)
        revert h3
        decide
      rcases hother line (List.mem_cons_self _ _) with ⟨sfx, h⟩ | ⟨sfx, h⟩ | ⟨h1, h2⟩
      · subst h
        refine ⟨_, parseVersionLine_client v c sfx hc hcb, fun _ => rfl, fun _ => rfl, ?_,
          fun h => h⟩
        rintro ⟨sfx2, h2⟩
        exact absurd (h2 ▸ List.prefix_append _ _) (hns sfx2)
      · subst h
        refine ⟨_, parseVersionLine_server v s sfx hs hsb, ?_, fun h => h, fun _ => rfl,
          fun _ => rfl⟩
        rintro ⟨sfx2, h2⟩
        exact absurd (h2 ▸ List.prefix_append _ _) (hnc sfx2)
      · refine ⟨v, parseVersionLine_other v line h1 h2, ?_, fun h => h, ?_, fun h => h⟩
        · rintro ⟨sfx, h⟩
          exact absurd (h ▸ List.prefix_append _ _) h1
        · rintro ⟨sfx, h⟩
          exact absurd (h ▸ List.prefix_append _ _) h2
    obtain ⟨v1, hv1, hc1, hc2, hs1, hs2⟩ := hstep
    obtain ⟨v2, hv2, hc3, hc4, hs3, hs4⟩ := ih2 v1
    refine ⟨v2, ?_, ?_, fun h => hc4 (hc2 h), ?_, fun h => hs4 (hs2 h)⟩
    · rw [parseVersionLines, hv1]
      exact hv2
    · rintro ⟨sfx, h⟩
      rcases List.mem_cons.mp h with h | h
      · exact hc4 (hc1 ⟨sfx, h.symm⟩)
      · exact hc3 ⟨sfx, h⟩
    · rintro ⟨sfx, h⟩
      rcases List.mem_cons.mp h with h | h
      · exact hs4 (hs1 ⟨sfx, h.symm⟩)
      · exact hs3 ⟨sfx, h⟩

/-- The loop over lines none of which starts with `Client version` returns an error or
leaves the client version as it was. -/
theorem parseVersionLines_keeps_client (lines : List (List Char))
    (h : ∀ line ∈ lines, ¬ "Client version".toList <+: line) :
    ∀ v : DockerVersion, (∃ e, parseVersionLines v lines = .error e) ∨
      ∃ v2, parseVersionLines v lines = .ok v2 ∧ v2.Client = v.Client := by
  induction lines with
  | nil => exact fun v => Or.inr ⟨v, rfl, rfl⟩
  | cons line rest ih =>
    intro v
    rcases parseVersionLine_keeps_client v line (h line (List.mem_cons_self _ _)) with
      ⟨e, he⟩ | ⟨v1, hv1, hc1⟩
    · left
      refine ⟨e, ?_⟩
      rw [parseVersionLines, he]
    · rcases ih (fun l hl => h l (List.mem_cons_of_mem _ hl)) v1 with ⟨e, he⟩ | ⟨v2, hv2, hc2⟩
      · left
        refine ⟨e, ?_⟩
        rw [parseVersionLines, hv1]
        exact he
      · right
        refine ⟨v2, ?_, hc2.trans hc1⟩
        rw [parseVersionLines, hv1]
        exact hv2

/-- The loop over lines none of which starts with `Server version` returns an error or
leaves the server version as it was. -/
theorem parseVersionLines_keeps_server (lines : List (List Char))
    (h : ∀ line ∈ lines, ¬ "Server version".toList <+: line) :
    ∀ v : DockerVersion, (∃ e, parseVersionLines v lines = .error e) ∨
      ∃ v2, parseVersionLines v lines = .ok v2 ∧ v2.Server = v.Server := by
  induction lines with
  | nil => exact fun v => Or.inr ⟨v, rfl, rfl⟩
  | cons line rest ih =>
    intro v
    rcases parseVersionLine_keeps_server v line (h line (List.mem_cons_self _ _)) with
      ⟨e, he⟩ | ⟨v1, hv1, hc1⟩
    · left
      refine ⟨e, ?_⟩
      rw [parseVersionLines, he]
    · rcases ih (fun l hl => h l (List.mem_cons_of_mem _ hl)) v1 with ⟨e, he⟩ | ⟨v2, hv2, hc2⟩
      · left
        refine ⟨e, ?_⟩
        rw [parseVersionLines, hv1]
        exact he
      · right
        refine ⟨v2, ?_, hc2.trans hc1⟩
        rw [parseVersionLines, hv1]
        exact hv2

/-- The lines that `parseDockerVersion` reads from joined lines without newline. -/
theorem splitChar_lines (lines : List (List Char)) (hnl : ∀ line ∈ lines, '\n' ∉ line) :
    splitChar '\n' (String.mk (List.intercalate ['\n'] lines)).toList
      = if lines = [] then [[]] else lines := by
  have hto : (String.mk (List.intercalate ['\n'] lines)).toList
      = List.intercalate ['\n'] lines := rfl
  rw [hto]
  by_cases h : lines = []
  · subst h
    rfl
  · rw [if_neg h]
    exact splitChar_intercalate '\n' lines h hnl

/-- C26, amended: for non-empty tuples `c` and `s` of natural numbers below two to the 63
(the range of `int`), on output whose lines are free of newlines and are client lines
`Client version: c1.c2...`, server lines `Server version: s1.s2...`, each optionally
followed by `-` and a suffix, or lines that start with neither label, with at least one
client line and one server line, `parseDockerVersion` returns `Client = c` and
`Server = s`; on output without a line that starts with `Client version`, and on output
without a line that starts with `Server version`, it returns an error. -/
theorem parseDockerVersion_reads (c s : List Nat) (lines : List (List Char))
    (hc : c ≠ []) (hs : s ≠ [])
    (hcb : ∀ n ∈ c, n < 2 ^ 63) (hsb : ∀ n ∈ s, n < 2 ^ 63)
    (hnl : ∀ line ∈ lines, '\n' ∉ line)
    (hclient : ∃ suffix, versionLine "Client version" c suffix ∈ lines)
    (hserver : ∃ suffix, versionLine "Server version" s suffix ∈ lines)
    (hother : ∀ line ∈ lines,
      (∃ suffix, line = versionLine "Client version" c suffix) ∨
      (∃ suffix, line = versionLine "Server version" s suffix) ∨
      (¬ "Client version".toList <+: line ∧ ¬ "Server version".toList <+: line)) :
    parseDockerVersion (String.mk (List.intercalate ['\n'] lines))
      = .ok { Client := c.map (fun n : Nat => (n : Int)), Server := s.map (fun n : Nat => (n : Int)) } ∧
    (∀ ls : List (List Char), (∀ l ∈ ls, '\n' ∉ l) →
      (∀ l ∈ ls, ¬ "Client version".toList <+: l) →
      ∃ e, parseDockerVersion (String.mk (List.intercalate ['\n'] ls)) = .error e) ∧
    (∀ ls : List (List Char), (∀ l ∈ ls, '\n' ∉ l) →
      (∀ l ∈ ls, ¬ "Server version".toList <+: l) →
      ∃ e, parseDockerVersion (String.mk (List.intercalate ['\n'] ls)) = .error e) := by
  refine ⟨?_, ?_, ?_⟩
  · have hne : lines ≠ [] := by
      rintro rfl
      obtain ⟨sfx, h⟩ := hclient
      exact absurd h (List.not_mem_nil _)
    obtain ⟨v2, hv2, hc1, _, hs1, _⟩ :=
      parseVersionLines_spec c s hc hs hcb hsb lines hother { Client := [], Server := [] }
    have hcl := hc1 hclient
    have hsv := hs1 hserver
    unfold parseDockerVersion
    rw [splitChar_lines lines hnl, if_neg hne, hv2]
    obtain ⟨vc, vs⟩ := v2
    simp only at hcl hsv
    subst hcl
    subst hsv
    have h1 : ¬ (c.map (fun n : Nat => (n : Int))).length = 0 := by
      simpa using hc
    have h2 : ¬ (s.map (fun n : Nat => (n : Int))).length = 0 := by
      simpa using hs
    simp only [h1, h2, if_false]
  · intro ls hnl2 hno
    have hno2 : ∀ l ∈ (if ls = [] then [[]] else ls),
        ¬ "Client version".toList <+: l := by
      by_cases h : ls = []
      · rw [if_pos h]
        intro l hl
        rw [List.mem_singleton] at hl
        subst hl
        decide
      · rw [if_neg h]
        exact hno
    unfold parseDockerVersion
    rw [splitChar_lines ls hnl2]
    rcases parseVersionLines_keeps_client _ hno2 { Client := [], Server := [] } with
      ⟨e, he⟩ | ⟨v2, hv2, hc2⟩
    · exact ⟨e, by rw [he]⟩
    · refine ⟨"no client version found", ?_⟩
      rw [hv2]
      simp only [hc2, List.length_nil, if_true]
  · intro ls hnl2 hno
    have hno2 : ∀ l ∈ (if ls = [] then [[]] else ls),
        ¬ "Server version".toList <+: l := by
      by_cases h : ls = []
      · rw [if_pos h]
        intro l hl
        rw [List.mem_singleton] at hl
        subst hl
        decide
      · rw [if_neg h]
        exact hno
    unfold parseDockerVersion
    rw [splitChar_lines ls hnl2]
    rcases parseVersionLines_keeps_server _ hno2 { Client := [], Server := [] } with
      ⟨e, he⟩ | ⟨v2, hv2, hs2⟩
    · exact ⟨e, by rw [he]⟩
    · rw [hv2]
      by_cases hcl : v2.Client.length = 0
      · exact ⟨"no client version found", by simp only [hcl, if_true]⟩
      · exact ⟨"no server version found", by simp only [hcl, hs2, List.length_nil, if_true,
          if_false]⟩

/-- C26, amended, at the output of docker 0.6.6 with a server built as `0.6.6-dev`. -/
theorem parseDockerVersion_reads_witness :
    String.mk (List.intercalate ['\n'] exampleDockerOutput)
      = "Client version: 0.6.6\nGo version (client): go1.2rc3\nGit commit (client): 6d42040\nServer version: 0.6.6-dev\nGit commit (server): ba0a8a7\nGo version (server): go1.2rc3\n" ∧
    parseDockerVersion (String.mk (List.intercalate ['\n'] exampleDockerOutput))
      = .ok { Client := [0, 6, 6], Server := [0, 6, 6] } :=
  ⟨by rfl,
   (parseDockerVersion_reads [0, 6, 6] [0, 6, 6] exampleDockerOutput (by decide) (by decide)
    (by decide) (by decide) (by decide) ⟨none, by decide⟩ ⟨some "dev".toList, by decide⟩
    (by
      intro line hl
      simp only [exampleDockerOutput, List.mem_cons, List.not_mem_nil, or_false] at hl
      rcases hl with rfl | rfl | rfl | rfl | rfl | rfl | rfl
      · exact Or.inl ⟨none, by decide⟩
      · exact Or.inr (Or.inr (by decide))
      · exact Or.inr (Or.inr (by decide))
      · exact Or.inr (Or.inl ⟨some "dev".toList, by decide⟩)
      · exact Or.inr (Or.inr (by decide))
      · exact Or.inr (Or.inr (by decide))
      · exact Or.inr (Or.inr (by decide)))).1⟩

/-! ## Snapshots of an rsync volume -/

/-- C30 fails in the code: `Snapshots()` lists by the prefix `name_`, but `RemoveSnapshot`
accepts only labels of exactly two parts between underscores. For the volume `vol`,
`Snapshots()` lists the directory `vol_a_b`, `RemoveSnapshot` judges that label malformed,
and `Unmount` returns that error although every `rm` succeeds; for a volume `my_vol` the
listed label `my_vol_1` is judged malformed. -/
theorem unmount_rejects_listed_snapshot :
    exampleConn.Snapshots (.ok [("vol_a_b", true)]) = .ok ["vol_a_b"] ∧
    exampleConn.checkLabel "vol_a_b" = some "malformed label: vol_a_b" ∧
    exampleConn.Unmount (.ok [("vol_a_b", true)]) (fun _ => none) none
      = some "malformed label: vol_a_b" ∧
    RsyncConn.Snapshots { name := "my_vol", root := "/data" } (.ok [("my_vol_1", true)])
      = .ok ["my_vol_1"] ∧
    RsyncConn.checkLabel { name := "my_vol", root := "/data" } "my_vol_1"
      = some "malformed label: my_vol_1" := by
  refine ⟨by rfl, by decide, by decide, by rfl, by decide⟩

/-- The label check accepts the name of the volume, an underscore and a rest, when neither
the name nor the rest has an underscore. -/
theorem checkLabel_none (c : RsyncConn) (label : String) (rest : List Char)
    (hlabel : label.toList = c.name.toList ++ '_' :: rest)
    (hname : '_' ∉ c.name.toList) (hrest : '_' ∉ rest) :
    c.checkLabel label = none := by
  have hsplit : splitChar '_' label.toList = [c.name.toList, rest] := by
    rw [hlabel, splitChar_append '_' _ _ hname, splitChar_of_not_mem '_' rest hrest]
  unfold RsyncConn.checkLabel
  simp only [hsplit]
  simp

/-- The labels that `Snapshots()` lists: the names of the directories of the root that
start with the name of the volume and an underscore. -/
theorem mem_Snapshots (c : RsyncConn) (infos : List (String × Bool)) (label : String) :
    label ∈ (infos.filter (fun info =>
        info.2 && HasPrefix info.1.toList (c.name ++ "_").toList)).map Prod.fst
      ↔ (label, true) ∈ infos ∧ ∃ rest, label.toList = c.name.toList ++ '_' :: rest := by
  have happ : (c.name ++ "_").toList = c.name.toList ++ ['_'] := by
    cases c.name
    rfl
  have hpre : ∀ l : List Char, HasPrefix l (c.name ++ "_").toList = true
      ↔ ∃ rest, l = c.name.toList ++ '_' :: rest := by
    intro l
    unfold HasPrefix
    rw [List.isPrefixOf_iff_prefix, happ]
    constructor
    · rintro ⟨t, ht⟩
      exact ⟨t, by rw [← ht]; simp⟩
    · rintro ⟨t, ht⟩
      exact ⟨t, by rw [ht]; simp⟩
  rw [List.mem_map]
  constructor
  · rintro ⟨⟨n, d⟩, hmem, rfl⟩
    rw [List.mem_filter] at hmem
    obtain ⟨hin, hcond⟩ := hmem
    simp only [Bool.and_eq_true] at hcond
    obtain ⟨hd, hp⟩ := hcond
    subst hd
    exact ⟨hin, (hpre _).mp hp⟩
  · rintro ⟨hin, hrest⟩
    refine ⟨(label, true), ?_, rfl⟩
    rw [List.mem_filter]
    refine ⟨hin, ?_⟩
    simp only [Bool.true_and]
    exact (hpre _).mpr hrest

/-- The loop of `Unmount` over labels that pass the label check and whose `rm` succeeds. -/
theorem removeSnapshots_none (c : RsyncConn) (rm : String → Option String)
    (labels : List String) (hcheck : ∀ label ∈ labels, c.checkLabel label = none)
    (hrm : ∀ label ∈ labels, rm label = none) : c.removeSnapshots rm labels = none := by
  induction labels with
  | nil => rfl
  | cons a t ih =>
    have h1 : c.RemoveSnapshot rm a = none := by
      unfold RsyncConn.RemoveSnapshot
      rw [hcheck a (List.mem_cons_self _ _), hrm a (List.mem_cons_self _ _)]
    rw [RsyncConn.removeSnapshots, h1]
    exact ih (fun l hl => hcheck l (List.mem_cons_of_mem _ hl))
      (fun l hl => hrm l (List.mem_cons_of_mem _ hl))

/-- Where the label check does accept what `Snapshots()` lists: for a volume whose name has
no underscore, when every directory of the root whose name starts with the name of the
volume and an underscore has no further underscore, `Snapshots()` lists exactly the names
of those directories, the label check of `RemoveSnapshot` accepts every listed label, and
`Unmount` returns no error when the removal commands succeed. -/
theorem listed_labels_accepted (c : RsyncConn) (infos : List (String × Bool))
    (rm : String → Option String) (rmVolume : Option String)
    (hname : '_' ∉ c.name.toList)
    (hone : ∀ label rest, (label, true) ∈ infos →
      label.toList = c.name.toList ++ '_' :: rest → '_' ∉ rest) :
    ∃ labels, c.Snapshots (.ok infos) = .ok labels ∧
      (∀ label, label ∈ labels ↔
        (label, true) ∈ infos ∧ ∃ rest, label.toList = c.name.toList ++ '_' :: rest) ∧
      (∀ label ∈ labels, c.checkLabel label = none) ∧
      ((∀ label ∈ labels, rm label = none) → rmVolume = none →
        c.Unmount (.ok infos) rm rmVolume = none) := by
  have hcheck : ∀ label ∈ (infos.filter (fun info =>
      info.2 && HasPrefix info.1.toList (c.name ++ "_").toList)).map Prod.fst,
      c.checkLabel label = none := by
    intro label hl
    obtain ⟨hin, rest, hrest⟩ := (mem_Snapshots c infos label).mp hl
    exact checkLabel_none c label rest hrest hname (hone label rest hin hrest)
  refine ⟨_, rfl, mem_Snapshots c infos, hcheck, ?_⟩
  intro hrm hvol
  unfold RsyncConn.Unmount RsyncConn.Snapshots
  simp only
  rw [removeSnapshots_none c rm _ hcheck hrm, hvol]

/-- The volume `vol` with the snapshots `vol_1` and `vol_2` beside the volume itself, a
file and a snapshot of another volume: both snapshots are listed and accepted. -/
theorem listed_labels_accepted_witness :
    ∃ labels, exampleConn.Snapshots (.ok [("vol", true), ("vol_1", true), ("vol_2", true),
        ("vol_3", false), ("other_1", true)]) = .ok labels ∧
      (∀ label, label ∈ labels ↔
        (label, true) ∈ [("vol", true), ("vol_1", true), ("vol_2", true),
          ("vol_3", false), ("other_1", true)] ∧
        ∃ rest, label.toList = exampleConn.name.toList ++ '_' :: rest) ∧
      (∀ label ∈ labels, exampleConn.checkLabel label = none) ∧
      ((∀ label ∈ labels, (fun _ => none : String → Option String) label = none) →
        (none : Option String) = none →
        exampleConn.Unmount (.ok [("vol", true), ("vol_1", true), ("vol_2", true),
          ("vol_3", false), ("other_1", true)]) (fun _ => none) none = none) :=
  listed_labels_accepted exampleConn [("vol", true), ("vol_1", true), ("vol_2", true),
    ("vol_3", false), ("other_1", true)] (fun _ => none) none (by decide)
    (by
      intro label rest hin hl
      simp only [List.mem_cons, Prod.mk.injEq, List.not_mem_nil, or_false, and_true,
        Bool.true_eq_false, and_false, false_or] at hin
      rcases hin with rfl | rfl | rfl | rfl
      · revert hl
        simp [exampleConn]
      · have h2 : rest = ['1'] := by
          simpa [exampleConn] using hl.symm
        subst h2
        decide
      · have h2 : rest = ['2'] := by
          simpa [exampleConn] using hl.symm
        subst h2
        decide
      · revert hl
        simp [exampleConn])

/-! ## Compact log lines -/

/-- `convertOffsets` reads the decimal texts of numbers below `2 ^ 64` as those numbers. -/
theorem convertOffsets_repr (offsets : List Nat) (hb : ∀ n ∈ offsets, n < 2 ^ 64) :
    convertOffsets (offsets.map (fun n : Nat => Nat.repr n)) = .ok offsets := by
  induction offsets with
  | nil => rfl
  | cons n t ih =>
    have hn : n < 18446744073709551616 := by
      have h := hb n (List.mem_cons_self _ _)
      norm_num at h
      exact h
    have hp : ParseUint (Nat.repr n).toList = .ok n := by
      unfold ParseUint
      rw [parseDigits_repr]
      simp [hn]
    rw [List.map_cons, convertOffsets, hp]
    simp only
    rw [ih (fun m hm => hb m (List.mem_cons_of_mem _ hm))]

/-- The loop of `uint64sAreSorted` accepts a chain of non-decreasing values. -/
theorem sortedFrom_of_chain (values : List Nat) :
    ∀ previousValue, List.Chain (fun a b => a ≤ b) previousValue values →
      sortedFrom previousValue values = true := by
  induction values with
  | nil => intro _ _; rfl
  | cons v t ih =>
    intro p h
    rw [List.chain_cons] at h
    rw [sortedFrom, if_neg (by omega)]
    exact ih v h.2

/-- `uint64sAreSorted` accepts values in non-decreasing order. -/
theorem uint64sAreSorted_of_sorted (values : List Nat)
    (h : values.Sorted (fun a b => a ≤ b)) : uint64sAreSorted values = true := by
  cases values with
  | nil => rfl
  | cons v t =>
    have hc : List.Chain' (fun a b => a ≤ b) (v :: t) := List.chain'_iff_pairwise.mpr h
    unfold uint64sAreSorted
    simp only
    rw [sortedFrom, if_neg (by omega)]
    exact sortedFrom_of_chain t v hc

/-- The element after a prefix. -/
theorem getAt_append_length (pre : List String) (m : String) (suf : List String) :
    (pre ++ m :: suf).get? pre.length = some m := by
  induction pre with
  | nil => rfl
  | cons a t ih => simpa [List.get?] using ih

/-- A text has at least one line. -/
theorem newlineSplit_pos (l : List Char) : 0 < (newlineSplit l).length := by
  cases l with
  | nil => simp [newlineSplit]
  | cons c t =>
    unfold newlineSplit
    split
    · simp
    · simp
    · simp
    · split <;> simp

/-- The loop that builds the compact lines, with as many offsets as messages are left:
one line is appended for every offset and its message. -/
theorem appendCompactLines_eq (timestamp : Int) (offsets : List Nat) :
    ∀ (pre suf : List String) (compactLines : List compactLogLine),
      offsets.length = suf.length →
      appendCompactLines timestamp (pre ++ suf) pre.length offsets compactLines
        = some (compactLines ++ List.zipWith
            (fun offset message =>
              ({ Timestamp := timestamp, Offset := offset, Message := message } :
                compactLogLine)) offsets suf) := by
  induction offsets with
  | nil =>
    intro pre suf acc _
    simp [appendCompactLines]
  | cons o rest ih =>
    intro pre suf acc hlen
    cases suf with
    | nil => simp at hlen
    | cons m suf2 =>
      have hget := getAt_append_length pre m suf2
      rw [appendCompactLines, hget]
      simp only
      have h2 := ih (pre ++ [m]) suf2
        (acc ++ [{ Timestamp := timestamp, Offset := o, Message := m }])
        (by simpa using hlen)
      rw [List.length_append, List.length_singleton, List.append_assoc,
        List.singleton_append] at h2
      rw [h2]
      simp

/-- The loop that builds the compact lines, with more offsets than messages are left,
indexes the messages out of range. -/
theorem appendCompactLines_none (timestamp : Int) (offsets : List Nat) :
    ∀ (pre suf : List String) (compactLines : List compactLogLine),
      suf.length < offsets.length →
      appendCompactLines timestamp (pre ++ suf) pre.length offsets compactLines = none := by
  induction offsets with
  | nil =>
    intro pre suf acc h
    simp at h
  | cons o rest ih =>
    intro pre suf acc hlen
    cases suf with
    | nil =>
      have hget : (pre ++ ([] : List String)).get? pre.length = none := by simp
      rw [appendCompactLines, hget]
    | cons m suf2 =>
      have hget := getAt_append_length pre m suf2
      rw [appendCompactLines, hget]
      simp only
      have h2 := ih (pre ++ [m]) suf2
        (acc ++ [{ Timestamp := timestamp, Offset := o, Message := m }])
        (by simpa using hlen)
      rw [List.length_append, List.length_singleton, List.append_assoc,
        List.singleton_append] at h2
      exact h2

/-- C28 fails in the code: for a multi-line record with as many offsets (decimal texts of
numbers below `2 ^ 64`, in non-decreasing order) as the message has lines,
`parseLogSource` returns twice as many compact lines as the message has lines: first one
zero-valued line for every message line, from `make([]compactLogLine, len(messages))`, and
only then the lines that carry the offsets, the message lines and the timestamp truncated
to the minute. -/
theorem parseLogSource_lines (multiLine : logMultiLine) (offsets : List Nat)
    (hoff : multiLine.Offset = offsets.map (fun n : Nat => Nat.repr n))
    (hb : ∀ n ∈ offsets, n < 2 ^ 64)
    (hlen : offsets.length = (newlineSplit multiLine.Message.toList).length)
    (hsorted : offsets.Sorted (fun a b => a ≤ b)) :
    parseLogSource multiLine = .lines multiLine.Host multiLine.File
      (List.replicate (newlineSplit multiLine.Message.toList).length
          ({ Timestamp := 0, Offset := 0, Message := "" } : compactLogLine)
        ++ List.zipWith
          (fun offset message =>
            ({ Timestamp := truncateToMinute multiLine.Timestamp, Offset := offset,
               Message := message } : compactLogLine))
          offsets ((newlineSplit multiLine.Message.toList).map String.mk)) ∧
    0 < (newlineSplit multiLine.Message.toList).length := by
  constructor
  · have hlen2 : offsets.length
        = ((newlineSplit multiLine.Message.toList).map String.mk).length := by
      rw [List.length_map]
      exact hlen
    have happ := appendCompactLines_eq (truncateToMinute multiLine.Timestamp) offsets []
      ((newlineSplit multiLine.Message.toList).map String.mk)
      (List.replicate (newlineSplit multiLine.Message.toList).length
          ({ Timestamp := 0, Offset := 0, Message := "" } : compactLogLine)) hlen2
    rw [List.nil_append, List.length_nil] at happ
    unfold parseLogSource
    rw [hoff, convertOffsets_repr offsets hb]
    simp only [List.length_map]
    rw [if_neg (by omega), if_neg (by omega), if_neg (by omega)]
    simp only [uint64sAreSorted_of_sorted offsets hsorted, Bool.true_eq_false, if_false]
    rw [happ]
  · exact newlineSplit_pos _

/-- C28 at the record with the offset `0` and the message `a`: two lines are returned,
the first of them zero-valued. -/
theorem parseLogSource_lines_witness :
    parseLogSource (exampleRecord ["0"] "a")
      = .lines "h" "f"
          [{ Timestamp := 0, Offset := 0, Message := "" },
           { Timestamp := 60000000000, Offset := 0, Message := "a" }] :=
  (parseLogSource_lines (exampleRecord ["0"] "a") [0] (by decide) (by decide) (by decide)
    (by decide)).1

/-- C29 fails in the code: for a multi-line record whose offsets are decimal texts of
numbers below `2 ^ 64`, `parseLogSource` indexes out of range when the message has two or
more lines and one offset less than lines (`offsets[numLines-1]`), and when there are more
offsets than message lines and the offsets are in non-decreasing order (`messages[i]`). -/
theorem parseLogSource_index_out_of_range (multiLine : logMultiLine) (offsets : List Nat)
    (hoff : multiLine.Offset = offsets.map (fun n : Nat => Nat.repr n))
    (hb : ∀ n ∈ offsets, n < 2 ^ 64)
    (h : (offsets.length + 1 = (newlineSplit multiLine.Message.toList).length ∧
          1 < (newlineSplit multiLine.Message.toList).length) ∨
         ((newlineSplit multiLine.Message.toList).length < offsets.length ∧
          offsets.Sorted (fun a b => a ≤ b))) :
    parseLogSource multiLine = .indexOutOfRange := by
  unfold parseLogSource
  rw [hoff, convertOffsets_repr offsets hb]
  simp only [List.length_map]
  rcases h with ⟨h1, h2⟩ | ⟨h1, h2⟩
  · rw [if_pos h1, if_pos h2]
    have hnone : offsets.get? ((newlineSplit multiLine.Message.toList).length - 1) = none := by
      rw [List.get?_eq_none]
      omega
    rw [hnone]
    split <;> simp_all
  · rw [if_neg (by omega), if_pos h1]
    simp only [uint64sAreSorted_of_sorted offsets h2, Bool.true_eq_false, if_false]
    have happ := appendCompactLines_none (truncateToMinute multiLine.Timestamp) offsets []
      ((newlineSplit multiLine.Message.toList).map String.mk)
      (List.replicate (newlineSplit multiLine.Message.toList).length
          ({ Timestamp := 0, Offset := 0, Message := "" } : compactLogLine))
      (by rw [List.length_map]; exact h1)
    rw [List.nil_append, List.length_nil] at happ
    rw [happ]

/-- C29 at the record with the offset `3` and the message of the lines `a` and `b`, and at
the record with the offsets `0`, `5` and the message `a`. -/
theorem parseLogSource_index_out_of_range_witness :
    parseLogSource (exampleRecord ["3"] "a\nb") = .indexOutOfRange ∧
    parseLogSource (exampleRecord ["0", "5"] "a") = .indexOutOfRange :=
  ⟨parseLogSource_index_out_of_range (exampleRecord ["3"] "a\nb") [3] (by decide)
    (by decide) (Or.inl (by decide)),
   parseLogSource_index_out_of_range (exampleRecord ["0", "5"] "a") [0, 5] (by decide)
    (by decide) (Or.inr (by decide))⟩

end Serviced
